import Mathlib

/-!
Verification of the Ynvisible Driver v5 Gen3 electrochromic display (ECD)
drive and refresh engine, as implemented by the `YNV_ECD` class in
`examples/EvaluationKit/EvaluationKit.ino` (whose private interface and
constants are declared in `src/YnvisibleECD.h`).

The embedding is shallow: the C++ member state of `YNV_ECD` becomes a Lean
structure, `float` arithmetic is modelled by exact rational arithmetic,
C-style `int(...)` casts by truncation toward zero, and the hardware
environment (the ADC read values and the asynchronous stop-driving flag) by
explicit oracles consumed through counters.  Hardware side effects
(`analogWrite` to the counter electrode, `digitalWrite`/`pinMode` pulses on
segment pins, `delay`) are recorded in an event trace.
-/

namespace YnvEcd

/-- C-style cast of a real (here rational) value to `int`: truncation toward
zero, as performed by `int(...)` in the source.  Written with `Rat.num` and
`Rat.den` so that it evaluates by kernel reduction; `truncQ_eq` identifies it
with the floor (for nonnegative arguments) and ceiling (for negative ones). -/
def truncQ (q : ℚ) : ℤ := if 0 ≤ q then q.num / (q.den : ℤ) else -((-q).num / ((-q).den : ℤ))

/-- `truncQ` is truncation toward zero. -/
lemma truncQ_eq (q : ℚ) : truncQ q = if 0 ≤ q then ⌊q⌋ else ⌈q⌉ := by
  unfold truncQ
  by_cases h : 0 ≤ q
  · simp [h, Rat.floor_def]
  · have hc : ⌈q⌉ = -⌊-q⌋ := by
      rw [← neg_neg q, Int.ceil_neg, neg_neg]
    simp [h, Rat.floor_def, hc]

/-- `truncQ` coincides with the floor on nonnegative arguments. -/
lemma truncQ_of_nonneg (q : ℚ) (h : 0 ≤ q) : truncQ q = ⌊q⌋ := by
  rw [truncQ_eq]; simp [h]

/-- `MAX_NUMBER_OF_SEGMENTS` from `YnvisibleECD.h`. -/
def MAX_NUMBER_OF_SEGMENTS : ℕ := 15

/-- `MAX_REFRESH_RETRIES` from `YnvisibleECD.h`. -/
def MAX_REFRESH_RETRIES : ℕ := 30

/-- `ADC_DAC_MAX_LSB` from `YnvisibleECD.h` (10-bit full-scale code). -/
def ADC_DAC_MAX_LSB : ℤ := 1023

/-- `LSB_TO_VOLT_CONV` from `YnvisibleECD.h`: the literal constant
`0.0029325513f`, an approximation of `SUPPLY_VOLTAGE / 1023` for the
default 3 V supply.  It is a fixed constant: it does not change when
`m_supplyVoltage` is updated. -/
def LSB_TO_VOLT_CONV : ℚ := 29325513 / 10000000000

/-- `ecdSegmentState_e`: the logical state of one segment.  The `uint8_t`
storage of `-1` makes `SEGMENT_STATE_UNDEFINED` a value (255) distinct from
both `SEGMENT_STATE_BLEACH` (0) and `SEGMENT_STATE_COLOR` (1) under the
integer comparisons of the source, which the three-constant type mirrors. -/
inductive SegState where
  | undefined : SegState
  | bleach : SegState
  | color : SegState
deriving DecidableEq

/-- The segment state denoted by the `bool` argument of `setSegmentState`
(`SEGMENT_STATE_COLOR` is `true`, `SEGMENT_STATE_BLEACH` is `false`). -/
def stateOfBool (b : Bool) : SegState := if b then SegState.color else SegState.bleach

/-- `ECD_Config` from `YnvisibleECD.h`: voltages in volts (float, modelled
as ℚ) and durations in milliseconds (int). -/
structure ECD_Config where
  refreshColorLimitHVoltage : ℚ
  refreshColorLimitLVoltage : ℚ
  refreshBleachLimitHVoltage : ℚ
  refreshBleachLimitLVoltage : ℚ
  coloringVoltage : ℚ
  refreshColoringVoltage : ℚ
  coloringTime : ℤ
  refreshColorPulseTime : ℤ
  bleachingVoltage : ℚ
  refreshBleachingVoltage : ℚ
  bleachingTime : ℤ
  refreshBleachPulseTime : ℤ
deriving DecidableEq

/-- The default member initializers of `ECD_Config` (the macros of
`YnvisibleECD.h`). -/
def defaultConfig : ECD_Config :=
  { refreshColorLimitHVoltage := 1.1
    refreshColorLimitLVoltage := 0.95
    refreshBleachLimitHVoltage := 0.3
    refreshBleachLimitLVoltage := 0.5
    coloringVoltage := 1.3
    refreshColoringVoltage := 1.3
    coloringTime := 350
    refreshColorPulseTime := 100
    bleachingVoltage := 0.7
    refreshBleachingVoltage := 0.7
    bleachingTime := 350
    refreshBleachPulseTime := 10 }

/-- The member state of class `YNV_ECD` (`YnvisibleECD.h`).  The fixed
15-element arrays are modelled as total functions on the index; the bounds
discipline of the array accesses is treated separately (see the touched-index
definitions below).  Field names follow the `m_`-members of the source. -/
structure YNV_ECD where
  numberOfSegments : ℕ
  segmentPinsList : ℕ → ℤ
  currentState : ℕ → SegState
  nextState : ℕ → SegState
  refreshSegmentNeeded : ℕ → Bool
  minBleachOcpLSB : ℤ
  bleachRequiredFlag : Bool
  colorRequiredFlag : Bool
  refresh_color_needed : Bool
  refresh_bleach_needed : Bool
  cfg : ECD_Config
  supplyVoltage : ℚ
  refreshColorLimitH : ℚ
  refreshColorLimitL : ℚ
  refreshColorHalf : ℚ
  refreshBleachLimitH : ℚ
  refreshBleachLimitL : ℚ
  refreshBleachHalf : ℚ

/-- `YNV_ECD::updateRefreshLimits()` (EvaluationKit.ino, lines 1967-1986):
recomputes the six calibrated thresholds from the configuration and the
supply voltage.  `ADC_DAC_MAX_LSB / 2` is C `int` division (511) and the
`(int)` casts truncate the rational (float) limits. -/
def updateRefreshLimits (e : YNV_ECD) : YNV_ECD :=
  let colorLimitH : ℚ := ((e.supplyVoltage - e.cfg.refreshColoringVoltage) +
      e.cfg.refreshColorLimitHVoltage) * ((ADC_DAC_MAX_LSB : ℚ) / e.supplyVoltage)
  let colorLimitL : ℚ := (e.supplyVoltage / 2 + e.cfg.refreshColorLimitLVoltage) *
      ((ADC_DAC_MAX_LSB : ℚ) / e.supplyVoltage)
  let colorHalf : ℚ := (colorLimitH + colorLimitL) / 2
  let bleachLimitH : ℚ := (e.supplyVoltage / 2 - e.cfg.refreshBleachLimitHVoltage) *
      ((ADC_DAC_MAX_LSB : ℚ) / e.supplyVoltage)
  let bleachLimitL : ℚ := (e.cfg.refreshBleachingVoltage - e.cfg.refreshBleachLimitLVoltage) *
      ((ADC_DAC_MAX_LSB : ℚ) / e.supplyVoltage)
  let ceCheckLSB : ℤ := ADC_DAC_MAX_LSB / 2
  let ceRefreshLSB : ℤ := truncQ ((ADC_DAC_MAX_LSB : ℚ) *
      (e.cfg.refreshBleachingVoltage / e.supplyVoltage))
  let ampH : ℤ := |ceCheckLSB - truncQ bleachLimitH|
  let ampL : ℤ := |ceRefreshLSB - truncQ bleachLimitL|
  { e with
    refreshColorLimitH := colorLimitH
    refreshColorLimitL := colorLimitL
    refreshColorHalf := colorHalf
    refreshBleachLimitH := bleachLimitH
    refreshBleachLimitL := bleachLimitL
    refreshBleachHalf := ((ampH + ampL : ℤ) : ℚ) / 2 }

/-- `YNV_ECD::updateSupplyVoltage(int)` (EvaluationKit.ino, lines 1552-1555). -/
def updateSupplyVoltage (t_supplyVoltage : ℤ) (e : YNV_ECD) : YNV_ECD :=
  updateRefreshLimits { e with supplyVoltage := (t_supplyVoltage : ℚ) }

/-- `YNV_ECD::setConfig` (YnvisibleECD.h, line 118): replaces the whole
configuration and recalculates the thresholds synchronously. -/
def setConfig (t_cfg : ECD_Config) (e : YNV_ECD) : YNV_ECD :=
  updateRefreshLimits { e with cfg := t_cfg }

/-- The `YNV_ECD` constructor (EvaluationKit.ino, lines 1498-1522).  The six
threshold members are left uninitialized by the C++ constructor (it never
calls `updateRefreshLimits`); the model pins them to 0, and no claim below
relies on their pre-calibration values.  `m_supplyVoltage` and `m_cfg` have
in-class initializers (3.0 V and the macro defaults). -/
def mkECD (t_numberOfSegments : ℕ) (t_segments : ℕ → ℤ) : YNV_ECD :=
  { numberOfSegments := t_numberOfSegments
    segmentPinsList := t_segments
    currentState := fun _ => SegState.undefined
    nextState := fun _ => SegState.undefined
    refreshSegmentNeeded := fun _ => false
    minBleachOcpLSB := 0
    bleachRequiredFlag := false
    colorRequiredFlag := false
    refresh_color_needed := false
    refresh_bleach_needed := false
    cfg := defaultConfig
    supplyVoltage := 3
    refreshColorLimitH := 0
    refreshColorLimitL := 0
    refreshColorHalf := 0
    refreshBleachLimitH := 0
    refreshBleachLimitL := 0
    refreshBleachHalf := 0 }

/-- Pointwise update of a boolean per-segment array. -/
def updFlag (f : ℕ → Bool) (i : ℕ) (b : Bool) : ℕ → Bool :=
  fun j => if j = i then b else f j

/-- Pointwise update of a per-segment state array. -/
def updState (f : ℕ → SegState) (i : ℕ) (s : SegState) : ℕ → SegState :=
  fun j => if j = i then s else f j

/-- `YNV_ECD::setSegmentState(int, bool)` (EvaluationKit.ino, lines
1584-1595): a request is recorded only when the requested state differs from
the segment's current state; the matching pending flag is raised. -/
def setSegmentState (t_segment : ℕ) (t_state : Bool) (e : YNV_ECD) : YNV_ECD :=
  if e.currentState t_segment ≠ stateOfBool t_state then
    let e1 := { e with nextState := updState e.nextState t_segment (stateOfBool t_state) }
    if t_state then { e1 with colorRequiredFlag := true }
    else { e1 with bleachRequiredFlag := true }
  else e

/-- Hardware event trace entries: counter-electrode DAC writes (with the
commanded voltage and the raw code actually written), counter-electrode
release to High-Z, per-segment drive pulses (`digitalWrite` + `pinMode
OUTPUT`), per-segment release to High-Z, blocking delays, and each
observation (poll) of the stop-driving flag. -/
inductive Event where
  | poll : Bool → Event
  | ceDrive : ℚ → ℤ → Event
  | ceRelease : Event
  | segLow : ℤ → Event
  | segHigh : ℤ → Event
  | segRelease : ℤ → Event
  | delayMs : ℤ → Event
deriving DecidableEq

/-- The engine's environment: `reads k p` is the value `analogRead(p)`
returns at the engine's `k`-th ADC read, and `stops k` is the value of the
shared `m_stopDrivingFlag` observed at the engine's `k`-th poll of that
flag (the flag is mutated asynchronously by the input-handling context). -/
structure Env where
  reads : ℕ → ℤ → ℤ
  stops : ℕ → Bool

/-- An engine together with its oracle positions: how many ADC reads and how
many stop-flag polls have happened so far. -/
structure Mach where
  ecd : YNV_ECD
  readIdx : ℕ
  pollIdx : ℕ

/-- One observation of `m_stopDrivingFlag`: yields the flag value, advances
the poll counter, records the observation. -/
def pollStop (env : Env) (m : Mach) : Bool × Mach × List Event :=
  (env.stops m.pollIdx, { m with pollIdx := m.pollIdx + 1 }, [Event.poll (env.stops m.pollIdx)])

/-- One `analogRead` of a segment pin: yields the sampled value and advances
the read counter. -/
def readPin (env : Env) (m : Mach) (pin : ℤ) : ℤ × Mach :=
  (env.reads m.readIdx pin, { m with readIdx := m.readIdx + 1 })

/-- `YNV_ECD::enableCounterElectrode(float)` (EvaluationKit.ino, lines
1642-1646, identical in YnvisibleECD.cpp lines 404-408):
`analogWrite(pin, int(ADC_DAC_MAX_LSB * (v / m_supplyVoltage)))` followed by
`delay(50)`. -/
def enableCounterElectrode (m : Mach) (t_voltage : ℚ) : Mach × List Event :=
  (m, [Event.ceDrive t_voltage
        (truncQ ((ADC_DAC_MAX_LSB : ℚ) * (t_voltage / m.ecd.supplyVoltage))),
      Event.delayMs 50])

/-- `YNV_ECD::disableCounterElectrode()` (EvaluationKit.ino, lines
1656-1659): counter electrode to High-Z. -/
def disableCounterElectrode (m : Mach) : Mach × List Event :=
  (m, [Event.ceRelease])

/-- `YNV_ECD::disableAllSegments()` (EvaluationKit.ino, lines 1998-2004):
every working electrode to High-Z. -/
def disableAllSegments (m : Mach) : Mach × List Event :=
  (m, (List.range m.ecd.numberOfSegments).map (fun i =>
    Event.segRelease (m.ecd.segmentPinsList i)))

/-- The per-segment state effect of one transition phase loop
(`execute_bleach`/`execute_color`, EvaluationKit.ino lines 1687-1695 and
1720-1728): each iteration `i < n` touches only index `i`, setting
`current[i] := next[i]` exactly when `next[i] ≠ current[i]` and `next[i]`
is the phase's target state, so the loop's effect is this pointwise map. -/
def phaseCurrent (n : ℕ) (cur nxt : ℕ → SegState) (tgt : SegState) : ℕ → SegState :=
  fun i => if i < n ∧ nxt i ≠ cur i ∧ nxt i = tgt then nxt i else cur i

/-- The drive pulses emitted by one transition phase loop, in segment-index
order: one pulse per segment whose next state differs from its current state
and equals the phase's target. -/
def phasePulses (n : ℕ) (pins : ℕ → ℤ) (cur nxt : ℕ → SegState) (tgt : SegState)
    (mk : ℤ → Event) : List Event :=
  (List.range n).filterMap (fun i =>
    if nxt i ≠ cur i ∧ nxt i = tgt then some (mk (pins i)) else none)

/-- `YNV_ECD::execute_bleach()` (EvaluationKit.ino, lines 1676-1700): when
the bleach-required flag is up, poll the stop flag (returning immediately if
set), drive the counter electrode to the bleach transition voltage, pull
every segment pending a bleach transition low and mark it bleached, hold for
the bleach duration, release all segments, clear the flag. -/
def execute_bleach (env : Env) (m : Mach) : Mach × List Event :=
  if m.ecd.bleachRequiredFlag then
    let (b, m1, t1) := pollStop env m
    if b then (m1, t1)
    else
      let ce := enableCounterElectrode m1 m1.ecd.cfg.bleachingVoltage
      let e := ce.1.ecd
      let pulses := phasePulses e.numberOfSegments e.segmentPinsList e.currentState
        e.nextState SegState.bleach Event.segLow
      let cur2 := phaseCurrent e.numberOfSegments e.currentState e.nextState SegState.bleach
      let m2 := { ce.1 with ecd := { e with currentState := cur2 } }
      let rel := disableAllSegments m2
      let m3 := { rel.1 with ecd := { rel.1.ecd with bleachRequiredFlag := false } }
      (m3, t1 ++ ce.2 ++ pulses ++ [Event.delayMs e.cfg.bleachingTime] ++ rel.2)
  else (m, [])

/-- `YNV_ECD::execute_color()` (EvaluationKit.ino, lines 1709-1733): the
symmetric color transition phase, with the counter electrode at
`Vsupply - coloringVoltage` and pending color segments driven high. -/
def execute_color (env : Env) (m : Mach) : Mach × List Event :=
  if m.ecd.colorRequiredFlag then
    let (b, m1, t1) := pollStop env m
    if b then (m1, t1)
    else
      let ce := enableCounterElectrode m1 (m1.ecd.supplyVoltage - m1.ecd.cfg.coloringVoltage)
      let e := ce.1.ecd
      let pulses := phasePulses e.numberOfSegments e.segmentPinsList e.currentState
        e.nextState SegState.color Event.segHigh
      let cur2 := phaseCurrent e.numberOfSegments e.currentState e.nextState SegState.color
      let m2 := { ce.1 with ecd := { e with currentState := cur2 } }
      let rel := disableAllSegments m2
      let m3 := { rel.1 with ecd := { rel.1.ecd with colorRequiredFlag := false } }
      (m3, t1 ++ ce.2 ++ pulses ++ [Event.delayMs e.cfg.coloringTime] ++ rel.2)
  else (m, [])

/-- One iteration of the OCP measurement loop of `YNV_ECD::check_refresh()`
(EvaluationKit.ino, lines 1758-1795): sample segment `i` and classify it.
Color segments compare the sample (as float) against `ColorHalf` and
`ColorLimitLow`; bleached segments update the minimum observed OCP and
compare against `BleachLimitHigh` (float) and the absolute half-amplitude
threshold (int); segments in any other state are unflagged. -/
def check_step (env : Env) (bleachHalfAbsLSB : ℤ) (m : Mach) (i : ℕ) : Mach :=
  let r := readPin env m (m.ecd.segmentPinsList i)
  let v := r.1
  let m1 := r.2
  let e := m1.ecd
  if e.currentState i = SegState.color then
    if (v : ℚ) > e.refreshColorHalf then
      { m1 with ecd := { e with refreshSegmentNeeded := updFlag e.refreshSegmentNeeded i false } }
    else if (v : ℚ) ≥ e.refreshColorLimitL then
      { m1 with ecd := { e with refreshSegmentNeeded := updFlag e.refreshSegmentNeeded i true } }
    else
      { m1 with ecd := { e with
          refreshSegmentNeeded := updFlag e.refreshSegmentNeeded i true
          refresh_color_needed := true } }
  else if e.currentState i = SegState.bleach then
    let e1 := if v < e.minBleachOcpLSB then { e with minBleachOcpLSB := v } else e
    if (v : ℚ) > e1.refreshBleachLimitH then
      { m1 with ecd := { e1 with
          refreshSegmentNeeded := updFlag e1.refreshSegmentNeeded i true
          refresh_bleach_needed := true } }
    else if v ≥ bleachHalfAbsLSB then
      { m1 with ecd := { e1 with refreshSegmentNeeded := updFlag e1.refreshSegmentNeeded i true } }
    else
      { m1 with ecd := { e1 with refreshSegmentNeeded := updFlag e1.refreshSegmentNeeded i false } }
  else
    { m1 with ecd := { e with refreshSegmentNeeded := updFlag e.refreshSegmentNeeded i false } }

/-- `YNV_ECD::check_refresh()` (EvaluationKit.ino, lines 1743-1797): reset
the minimum bleach OCP record (to 1024) and both escalation flags, compute
the absolute bleach half-amplitude threshold, poll the stop flag (returning
if set), drive the counter electrode to mid-supply, classify every segment,
release all segments. -/
def check_refresh (env : Env) (m : Mach) : Mach × List Event :=
  let e := m.ecd
  let bleachHalfAbsLSB : ℤ := ADC_DAC_MAX_LSB / 2 - truncQ e.refreshBleachHalf
  let m0 := { m with ecd :=
    { e with minBleachOcpLSB := 1024, refresh_color_needed := false,
             refresh_bleach_needed := false } }
  let (b, m1, t1) := pollStop env m0
  if b then (m1, t1)
  else
    let ce := enableCounterElectrode m1 (e.supplyVoltage / 2)
    let m2 := (List.range e.numberOfSegments).foldl (check_step env bleachHalfAbsLSB) ce.1
    let rel := disableAllSegments m2
    (rel.1, t1 ++ ce.2 ++ rel.2)

/-- The pulse events of one COLOR refresh iteration (EvaluationKit.ino,
lines 1923-1928): every colored segment still flagged is driven high. -/
def colorPulseEvents (e : YNV_ECD) : List Event :=
  (List.range e.numberOfSegments).filterMap (fun i =>
    if e.currentState i = SegState.color ∧ e.refreshSegmentNeeded i then
      some (Event.segHigh (e.segmentPinsList i)) else none)

/-- The pulse events of one BLEACH refresh iteration (EvaluationKit.ino,
lines 1860-1866): every bleached segment still flagged is driven low. -/
def bleachPulseEvents (e : YNV_ECD) : List Event :=
  (List.range e.numberOfSegments).filterMap (fun i =>
    if e.currentState i = SegState.bleach ∧ e.refreshSegmentNeeded i then
      some (Event.segLow (e.segmentPinsList i)) else none)

/-- One iteration of the COLOR re-check loop (EvaluationKit.ino, lines
1940-1953): re-sample each colored segment still flagged; a sample below
`ColorLimitHigh` keeps it flagged and re-raises the escalation flag, any
other sample clears its flag. -/
def colorRecheckStep (env : Env) (m : Mach) (i : ℕ) : Mach :=
  let e := m.ecd
  if e.currentState i = SegState.color ∧ e.refreshSegmentNeeded i then
    let r := readPin env m (e.segmentPinsList i)
    let m1 := r.2
    if (r.1 : ℚ) < e.refreshColorLimitH then
      { m1 with ecd := { m1.ecd with
          refreshSegmentNeeded := updFlag e.refreshSegmentNeeded i true
          refresh_color_needed := true } }
    else
      { m1 with ecd := { m1.ecd with
          refreshSegmentNeeded := updFlag e.refreshSegmentNeeded i false } }
  else m

/-- One iteration of the BLEACH re-check loop (EvaluationKit.ino, lines
1872-1885): re-sample each bleached segment still flagged; a sample above
`BleachLimitLow` re-raises the escalation flag (the segment stays flagged),
any other sample clears the segment's flag. -/
def bleachRecheckStep (env : Env) (m : Mach) (i : ℕ) : Mach :=
  let e := m.ecd
  if e.currentState i = SegState.bleach ∧ e.refreshSegmentNeeded i then
    let r := readPin env m (e.segmentPinsList i)
    let m1 := r.2
    if (r.1 : ℚ) > e.refreshBleachLimitL then
      { m1 with ecd := { m1.ecd with refresh_bleach_needed := true } }
    else
      { m1 with ecd := { m1.ecd with
          refreshSegmentNeeded := updFlag e.refreshSegmentNeeded i false } }
  else m

/-- The state effect of one COLOR re-check pass (EvaluationKit.ino, lines
1936-1953): all segments released (state unchanged), the escalation flag
cleared, then the re-check loop over every segment. -/
def colorRecheckPass (env : Env) (m : Mach) : Mach :=
  let m3 := { m with ecd := { m.ecd with refresh_color_needed := false } }
  (List.range m3.ecd.numberOfSegments).foldl (colorRecheckStep env) m3

/-- The state effect of one BLEACH re-check pass (EvaluationKit.ino, lines
1869-1885): all segments released (state unchanged), the escalation flag
cleared, then the re-check loop over every segment. -/
def bleachRecheckPass (env : Env) (m : Mach) : Mach :=
  let m3 := { m with ecd := { m.ecd with refresh_bleach_needed := false } }
  (List.range m3.ecd.numberOfSegments).foldl (bleachRecheckStep env) m3

/-- The bounded-retry loop of `YNV_ECD::refreshColor()` (EvaluationKit.ino,
lines 1916-1955): `while (m_refresh_color_needed && retries < MAX)`.  The
fuel argument counts the remaining permitted retries (`MAX - retries`), so
the guard `retries < MAX` is `fuel > 0`; the returned number is how many
retry iterations were counted (`retries++` runs only at the end of a full
body).  Each iteration polls the stop flag before pulsing and again after
the pulse delay, returning immediately when it is set. -/
def refreshColorLoop (env : Env) : ℕ → Mach → Mach × List Event × ℕ
  | 0, m => (m, [], 0)
  | Nat.succ fuel, m =>
    if m.ecd.refresh_color_needed then
      let (b, m1, t1) := pollStop env m
      if b then (m1, t1, 0)
      else
        let pulses := colorPulseEvents m1.ecd
        let (b2, m2, t2) := pollStop env m1
        let tHead := t1 ++ pulses ++ [Event.delayMs m1.ecd.cfg.refreshColorPulseTime] ++ t2
        if b2 then (m2, tHead, 0)
        else
          let rel := disableAllSegments m2
          let m4 := colorRecheckPass env rel.1
          let rest := refreshColorLoop env fuel m4
          (rest.1, tHead ++ rel.2 ++ rest.2.1, rest.2.2 + 1)
    else (m, [], 0)

/-- `YNV_ECD::refreshColor()` (EvaluationKit.ino, lines 1902-1956): poll the
stop flag, drive the counter electrode to `Vsupply - refreshColoringVoltage`,
then run the bounded-retry pulse/re-check loop. -/
def refreshColor (env : Env) (m : Mach) : Mach × List Event × ℕ :=
  let (b, m1, t1) := pollStop env m
  if b then (m1, t1, 0)
  else
    let counterElecVal : ℚ := m1.ecd.supplyVoltage - m1.ecd.cfg.refreshColoringVoltage
    let ce := enableCounterElectrode m1 counterElecVal
    let rest := refreshColorLoop env MAX_REFRESH_RETRIES ce.1
    (rest.1, t1 ++ ce.2 ++ rest.2.1, rest.2.2)

/-- The bounded-retry loop of `YNV_ECD::refreshBleach()` (EvaluationKit.ino,
lines 1854-1888), with the same fuel discipline as `refreshColorLoop`.  It
polls the stop flag once, at the top of each iteration. -/
def refreshBleachLoop (env : Env) : ℕ → Mach → Mach × List Event × ℕ
  | 0, m => (m, [], 0)
  | Nat.succ fuel, m =>
    if m.ecd.refresh_bleach_needed then
      let (b, m1, t1) := pollStop env m
      if b then (m1, t1, 0)
      else
        let pulses := bleachPulseEvents m1.ecd
        let rel := disableAllSegments m1
        let m3 := bleachRecheckPass env rel.1
        let rest := refreshBleachLoop env fuel m3
        (rest.1,
         t1 ++ pulses ++ [Event.delayMs m1.ecd.cfg.refreshBleachPulseTime] ++ rel.2 ++ rest.2.1,
         rest.2.2 + 1)
    else (m, [], 0)

/-- `YNV_ECD::refreshBleach()` (EvaluationKit.ino, lines 1829-1889): poll
the stop flag, compute the adaptive counter-electrode refresh amplitude
`max(refreshBleachingVoltage, Vsupply/2 - minBleachOcpLSB * LSB_TO_VOLT_CONV)`
(the source's if/else), drive the counter electrode to it once, then run the
bounded-retry pulse/re-check loop. -/
def refreshBleach (env : Env) (m : Mach) : Mach × List Event × ℕ :=
  let (b, m1, t1) := pollStop env m
  if b then (m1, t1, 0)
  else
    let minAmpV : ℚ := m1.ecd.supplyVoltage / 2 -
      (m1.ecd.minBleachOcpLSB : ℚ) * LSB_TO_VOLT_CONV
    let counterElecVal : ℚ :=
      if minAmpV > m1.ecd.cfg.refreshBleachingVoltage then minAmpV
      else m1.ecd.cfg.refreshBleachingVoltage
    let ce := enableCounterElectrode m1 counterElecVal
    let rest := refreshBleachLoop env MAX_REFRESH_RETRIES ce.1
    (rest.1, t1 ++ ce.2 ++ rest.2.1, rest.2.2)

/-- `YNV_ECD::execute_refresh()` (EvaluationKit.ino, lines 1806-1815):
dispatch the COLOR refresh, then the BLEACH refresh, each only when its
escalation flag is set. -/
def execute_refresh (env : Env) (m : Mach) : Mach × List Event :=
  let cr := if m.ecd.refresh_color_needed then refreshColor env m else (m, [], 0)
  let br := if cr.1.ecd.refresh_bleach_needed then refreshBleach env cr.1 else (cr.1, [], 0)
  (br.1, cr.2.1 ++ br.2.1)

/-- `YNV_ECD::executeDisplay()` (EvaluationKit.ino, lines 1566-1573):
bleach transitions, color transitions, OCP check, refresh, counter
electrode released. -/
def executeDisplay (env : Env) (m : Mach) : Mach × List Event :=
  let a := execute_bleach env m
  let b := execute_color env a.1
  let c := check_refresh env b.1
  let d := execute_refresh env c.1
  let f := disableCounterElectrode d.1
  (f.1, a.2 ++ b.2 ++ c.2 ++ d.2 ++ f.2)

/-- `YNV_ECD::setAllSegmentsBleach()` (EvaluationKit.ino, lines 1604-1608). -/
def setAllSegmentsBleach (e : YNV_ECD) : YNV_ECD :=
  (List.range e.numberOfSegments).foldl (fun acc i => setSegmentState i false acc) e

/-- A sequence of `setSegmentState` requests (segment index, requested
state), applied in order. -/
def applyRequests (e : YNV_ECD) (reqs : List (ℕ × Bool)) : YNV_ECD :=
  reqs.foldl (fun acc r => setSegmentState r.1 r.2 acc) e

/-! ### Spec-side formulas (for refinement comparison)

The following definitions transcribe the calibration formulas exactly as the
specification states them (spec §4.1), to be compared with
`updateRefreshLimits` above, which is translated from the source. -/

/-- Spec formula: `ColorLimitHigh = ((Vsupply − refreshColorVoltage) +
colorLimitHighOffset) * MAX_CODE / Vsupply`. -/
def spec_ColorLimitHigh (c : ECD_Config) (vsupply : ℚ) : ℚ :=
  ((vsupply - c.refreshColoringVoltage) + c.refreshColorLimitHVoltage) *
    (ADC_DAC_MAX_LSB : ℚ) / vsupply

/-- Spec formula: `ColorLimitLow = (Vsupply/2 + colorLimitLowOffset) *
MAX_CODE / Vsupply`. -/
def spec_ColorLimitLow (c : ECD_Config) (vsupply : ℚ) : ℚ :=
  (vsupply / 2 + c.refreshColorLimitLVoltage) * (ADC_DAC_MAX_LSB : ℚ) / vsupply

/-- Spec formula: `BleachLimitHigh = (Vsupply/2 − bleachLimitHighOffset) *
MAX_CODE / Vsupply`. -/
def spec_BleachLimitHigh (c : ECD_Config) (vsupply : ℚ) : ℚ :=
  (vsupply / 2 - c.refreshBleachLimitHVoltage) * (ADC_DAC_MAX_LSB : ℚ) / vsupply

/-- Spec formula: `BleachLimitLow = (refreshBleachVoltage −
bleachLimitLowOffset) * MAX_CODE / Vsupply`. -/
def spec_BleachLimitLow (c : ECD_Config) (vsupply : ℚ) : ℚ :=
  (c.refreshBleachingVoltage - c.refreshBleachLimitLVoltage) * (ADC_DAC_MAX_LSB : ℚ) / vsupply

/-- Spec formula: `BleachHalfAmplitude = average of |midScaleCode −
BleachLimitHigh| and |refreshBleachVoltage-as-code − BleachLimitLow|`, read
with exact (untruncated) values: mid-scale code `MAX_CODE/2` and the
refresh-bleach voltage converted to the code scale as
`MAX_CODE * refreshBleachVoltage / Vsupply`. -/
def spec_BleachHalfAmplitude (c : ECD_Config) (vsupply : ℚ) : ℚ :=
  (|(ADC_DAC_MAX_LSB : ℚ) / 2 - spec_BleachLimitHigh c vsupply| +
   |(ADC_DAC_MAX_LSB : ℚ) * c.refreshBleachingVoltage / vsupply -
      spec_BleachLimitLow c vsupply|) / 2

/-- Spec formula for the counter-electrode output code (spec §4.2):
`round(MAX_CODE * voltage / Vsupply)`, rounding to the nearest code. -/
def spec_ceCode (vsupply t_voltage : ℚ) : ℤ :=
  round ((ADC_DAC_MAX_LSB : ℚ) * t_voltage / vsupply)

/-- Spec formula for the BLEACH refresh counter-electrode amplitude
(spec §4.5): `max(configuredRefreshBleachVoltage, Vsupply/2 −
minObservedBleachSample * (Vsupply/MAX_CODE))`, with the LSB-to-volt factor
scaled by the current supply voltage. -/
def spec_refreshBleachCE (c : ECD_Config) (vsupply : ℚ) (minSample : ℤ) : ℚ :=
  max c.refreshBleachingVoltage
    (vsupply / 2 - (minSample : ℚ) * (vsupply / (ADC_DAC_MAX_LSB : ℚ)))

/-! ### Trace observation helpers -/

/-- Events that drive current through the cell: a counter-electrode DAC
write or a segment drive pulse. -/
def isDrive : Event → Bool
  | Event.ceDrive _ _ => true
  | Event.segLow _ => true
  | Event.segHigh _ => true
  | _ => false

/-- An observation of the stop flag that came back `true`. -/
def isStopPoll : Event → Bool
  | Event.poll b => b
  | _ => false

/-- Whether a trace contains an observation of the stop flag being set. -/
def sawStop (t : List Event) : Bool := t.any isStopPoll

/-- Holds when no drive event follows any observation of the stop flag being
set: once the routine has seen the stop request, it never drives the counter
electrode or pulses a segment again. -/
def noDriveAfterStop : List Event → Bool
  | [] => true
  | ev :: t => if isStopPoll ev then t.all (fun x => !isDrive x) else noDriveAfterStop t

/-- The voltages of the counter-electrode drive events of a trace, in
order. -/
def ceDriveVolts (t : List Event) : List ℚ :=
  t.filterMap (fun ev => match ev with
    | Event.ceDrive v _ => some v
    | _ => none)

/-- The raw codes of the counter-electrode drive events of a trace, in
order. -/
def ceDriveCodes (t : List Event) : List ℤ :=
  t.filterMap (fun ev => match ev with
    | Event.ceDrive _ c => some c
    | _ => none)

/-- A drive pulse of the working electrode on pin `p` (the segment being
pulled low or high). -/
def segDrives (p : ℤ) : Event → Bool
  | Event.segLow q => decide (q = p)
  | Event.segHigh q => decide (q = p)
  | _ => false

/-- Whether pin `p` received a drive pulse strictly before the first
positive stop observation of the trace (scanning stops at that
observation; a trace without one is scanned in full).  `false` means the
segment on `p` had not yet been driven when the stop request was seen —
or was never driven at all. -/
def drivenBeforeStop (p : ℤ) : List Event → Bool
  | [] => false
  | ev :: t =>
    if isStopPoll ev then false
    else if segDrives p ev then true else drivenBeforeStop p t

/-! ### Array index discipline

The per-segment arrays of `YNV_ECD` are fixed `MAX_NUMBER_OF_SEGMENTS`-sized
C arrays.  The following definitions record, straight from the source loops,
which raw indices each routine uses on those arrays; the bounds claims are
stated about them. -/

/-- Array indices written by the constructor loop
`for (int i = 0; i < m_numberOfSegments; i++)` (EvaluationKit.ino, lines
1508-1515): it touches `m_refreshSegmentNeeded`, `m_segmentPinsList`,
`m_currentState` and `m_nextState` at each `i` below the segment count,
without validating that count. -/
def ctorTouchedIndices (t_numberOfSegments : ℕ) : List ℕ := List.range t_numberOfSegments

/-- Array indices accessed by `setSegmentState(t_segment, t_state)`
(EvaluationKit.ino, lines 1584-1595): `m_currentState` and `m_nextState` at
the unvalidated caller-supplied index. -/
def setSegmentStateTouchedIndices (t_segment : ℕ) : List ℕ := [t_segment]

/-- Array indices accessed by each per-segment loop of the public
operations (`execute_bleach`, `execute_color`, `check_refresh`, the refresh
loops, `disableAllSegments`, `setAllSegmentsBleach`): all run
`for (int i = 0; i < m_numberOfSegments; i++)`. -/
def segmentLoopTouchedIndices (t_numberOfSegments : ℕ) : List ℕ :=
  List.range t_numberOfSegments

/-! ### Request bookkeeping (for the transition postcondition) -/

/-- The requested states submitted for segment `i`, in order. -/
def requestsFor (i : ℕ) (reqs : List (ℕ × Bool)) : List Bool :=
  (reqs.filter (fun r => r.1 = i)).map (fun r => r.2)

/-- The last requested state for a segment that differed from `cur`, the
segment's current state while the requests were made (`none` when every
request matched `cur`).  `setSegmentState` accepts exactly the differing
requests, so this is the surviving `nextState`. -/
def lastAccepted (cur : SegState) (l : List Bool) : Option Bool :=
  l.foldl (fun acc s => if stateOfBool s ≠ cur then some s else acc) none

/-- The samples that `check_refresh` reads for Bleach-state segments, in
segment order, when entered at read position `r0`: the classification loop
performs exactly one `analogRead` per segment, so segment `i` is sampled at
read index `r0 + i`. -/
def bleachSamples (env : Env) (e : YNV_ECD) (r0 : ℕ) : List ℤ :=
  (List.range e.numberOfSegments).filterMap (fun i =>
    if e.currentState i = SegState.bleach then some (env.reads (r0 + i) (e.segmentPinsList i))
    else none)

/-- The per-segment refresh flag that one `check_refresh` iteration assigns,
as a function of the segment's state, the relevant thresholds and the
sample: a Color segment is flagged unless its sample is strictly above
`ColorHalf`; a Bleach segment is flagged when its sample is above
`BleachLimitHigh` (float compare) or at least the absolute half-amplitude
threshold (int compare); any other state is unflagged.  This restates the
branch structure of EvaluationKit.ino lines 1762-1794; the fold lemmas prove
the coincidence. -/
def checkFlagVal (st : SegState) (colorHalf bleachLimitH : ℚ) (bh v : ℤ) : Bool :=
  if st = SegState.color then (if (v : ℚ) > colorHalf then false else true)
  else if st = SegState.bleach then
    (if (v : ℚ) > bleachLimitH then true else if v ≥ bh then true else false)
  else false

/-- Whether one `check_refresh` iteration raises `m_refresh_color_needed`:
exactly when the segment is in Color state and its sample falls in the final
`else` branch (not above `ColorHalf`, below `ColorLimitLow`). -/
def colorEscalate (st : SegState) (colorHalf colorLimitL : ℚ) (v : ℤ) : Bool :=
  if st = SegState.color then
    (if (v : ℚ) > colorHalf then false else if (v : ℚ) ≥ colorLimitL then false else true)
  else false

/-- Whether one `check_refresh` iteration raises `m_refresh_bleach_needed`:
exactly when the segment is in Bleach state and its sample is above
`BleachLimitHigh`. -/
def bleachEscalate (st : SegState) (bleachLimitH : ℚ) (v : ℤ) : Bool :=
  if st = SegState.bleach then (if (v : ℚ) > bleachLimitH then true else false) else false

/-! ### Concrete fixtures used by witnesses and counterexamples -/

/-- A pin assignment for the concrete engines below. -/
def testPins : ℕ → ℤ := fun i => (i : ℤ) + 2

/-- A single-segment engine, calibrated at the default 3 V supply. -/
def engine3 : YNV_ECD := updateSupplyVoltage 3 (mkECD 1 testPins)

/-- An environment whose stop flag is never set and whose ADC returns 0 on
the first read and 1000 afterwards. -/
def envA : Env :=
  { reads := fun k _ => if k = 0 then 0 else 1000
    stops := fun _ => false }

/-- An environment whose stop flag is never set and whose ADC always
returns 1000. -/
def envHigh : Env :=
  { reads := fun _ _ => 1000
    stops := fun _ => false }

/-- An environment whose stop flag is never set and whose ADC always
returns 0. -/
def envLow : Env :=
  { reads := fun _ _ => 0
    stops := fun _ => false }

/-- An environment whose stop flag is always set. -/
def envStopped : Env :=
  { reads := fun _ _ => 0
    stops := fun _ => true }

/-- An environment whose stop flag is never set and whose ADC always
returns 1200. -/
def env1200 : Env :=
  { reads := fun _ _ => 1200
    stops := fun _ => false }

/-- A single-segment engine recalibrated to a 6 V supply whose most recent
classification pass recorded a minimum Bleach OCP sample of 100 LSB. -/
def engine6min : YNV_ECD :=
  { updateSupplyVoltage 6 (mkECD 1 testPins) with minBleachOcpLSB := 100 }

/-- The single-segment 3 V engine with its segment bleached, flagged for
refresh, and the Bleach escalation flag raised. -/
def engineBleachNeedy : YNV_ECD :=
  { engine3 with
    currentState := fun _ => SegState.bleach
    refreshSegmentNeeded := fun _ => true
    refresh_bleach_needed := true }

/-- The single-segment 3 V engine with its segment colored, flagged for
refresh, and the Color escalation flag raised. -/
def engineColorNeedy : YNV_ECD :=
  { engine3 with
    currentState := fun _ => SegState.color
    refreshSegmentNeeded := fun _ => true
    refresh_color_needed := true }

/-- The single-segment 3 V engine with its segment in Color state. -/
def engineColor3 : YNV_ECD := { engine3 with currentState := fun _ => SegState.color }

/-- A single-segment engine calibrated at a 1 V supply (where the Color
thresholds come out in the wrong order), its segment in Color state. -/
def engineColor1V : YNV_ECD :=
  { updateSupplyVoltage 1 (mkECD 1 testPins) with currentState := fun _ => SegState.color }

/-- A single-segment 3 V engine whose segment is Bleached and quiescent
(no transition pending). -/
def c1engine : YNV_ECD :=
  { engine3 with
    currentState := fun _ => SegState.bleach
    nextState := fun _ => SegState.bleach }

/-- Request Color for segment 0, then request Bleach for it again: the second
request matches the segment's current state at request time, so
`setSegmentState` ignores it while the first request stays pending. -/
def c1reqs : List (ℕ × Bool) := [(0, true), (0, false)]

/-- The machine state at which the `check_refresh` classification loop
starts: the minimum-OCP record reset to 1024, both escalation flags
cleared, the stop flag polled once. -/
def checkEntry (m : Mach) : Mach :=
  { ecd := { m.ecd with
      minBleachOcpLSB := 1024
      refresh_color_needed := false
      refresh_bleach_needed := false }
    readIdx := m.readIdx
    pollIdx := m.pollIdx + 1 }

/-- The absolute WE threshold `(ADC_DAC_MAX_LSB / 2) - (int)m_refreshBleachHalf`
computed at the top of `check_refresh` (integer division and truncation). -/
def checkBh (e : YNV_ECD) : ℤ := ADC_DAC_MAX_LSB / 2 - truncQ e.refreshBleachHalf

/-- The machine after the `check_refresh` classification loop. -/
def checkFold (env : Env) (m : Mach) : Mach :=
  (List.range m.ecd.numberOfSegments).foldl (check_step env (checkBh m.ecd)) (checkEntry m)

/-! ## Lemmas -/

/-- Writing the same value twice at the same index is one write. -/
lemma updState_idem (f : ℕ → SegState) (i : ℕ) (s : SegState) :
    updState (updState f i s) i s = updState f i s := by
  funext j; by_cases hj : j = i <;> simp [updState, hj]

/-- Core of the idempotence claim: a repeated identical request leaves the
engine state unchanged. -/
lemma setSegmentState_twice (e : YNV_ECD) (i : ℕ) (s : Bool) :
    setSegmentState i s (setSegmentState i s e) = setSegmentState i s e := by
  unfold setSegmentState
  by_cases h : e.currentState i ≠ stateOfBool s
  · cases s <;> simp [h, updState_idem]
  · simp [h]

/-- After `updateRefreshLimits`, the Color limits are ordered whenever the
supply voltage exceeds twice the offset budget
`refreshColoringVoltage - colorLimitHighOffset + colorLimitLowOffset`. -/
lemma colorLimits_core (e : YNV_ECD) (h0 : 0 < e.supplyVoltage)
    (h : 2 * (e.cfg.refreshColoringVoltage - e.cfg.refreshColorLimitHVoltage +
      e.cfg.refreshColorLimitLVoltage) < e.supplyVoltage) :
    (updateRefreshLimits e).refreshColorLimitL < (updateRefreshLimits e).refreshColorLimitH := by
  show (e.supplyVoltage / 2 + e.cfg.refreshColorLimitLVoltage) *
      ((ADC_DAC_MAX_LSB : ℚ) / e.supplyVoltage) <
    ((e.supplyVoltage - e.cfg.refreshColoringVoltage) + e.cfg.refreshColorLimitHVoltage) *
      ((ADC_DAC_MAX_LSB : ℚ) / e.supplyVoltage)
  have hc : (0:ℚ) < (ADC_DAC_MAX_LSB : ℚ) / e.supplyVoltage := by
    apply div_pos _ h0
    norm_num [ADC_DAC_MAX_LSB]
  apply mul_lt_mul_of_pos_right _ hc
  linarith

/-- A projection that every step of a fold leaves unchanged is unchanged by
the whole fold. -/
lemma foldl_fix {α : Type} (g : Mach → α) (f : Mach → ℕ → Mach)
    (h : ∀ m i, g (f m i) = g m) :
    ∀ (l : List ℕ) (m : Mach), g (l.foldl f m) = g m := by
  intro l
  induction l with
  | nil => intro m; rfl
  | cons a l ih => intro m; rw [List.foldl_cons, ih, h]

/-- Fields of the machine that one `check_refresh` iteration never writes. -/
lemma check_step_frame (env : Env) (bh : ℤ) (m : Mach) (i : ℕ) :
    (check_step env bh m i).ecd.currentState = m.ecd.currentState ∧
    (check_step env bh m i).ecd.nextState = m.ecd.nextState ∧
    (check_step env bh m i).ecd.numberOfSegments = m.ecd.numberOfSegments ∧
    (check_step env bh m i).ecd.segmentPinsList = m.ecd.segmentPinsList ∧
    (check_step env bh m i).ecd.cfg = m.ecd.cfg ∧
    (check_step env bh m i).ecd.supplyVoltage = m.ecd.supplyVoltage ∧
    (check_step env bh m i).ecd.refreshColorLimitH = m.ecd.refreshColorLimitH ∧
    (check_step env bh m i).ecd.refreshColorLimitL = m.ecd.refreshColorLimitL ∧
    (check_step env bh m i).ecd.refreshColorHalf = m.ecd.refreshColorHalf ∧
    (check_step env bh m i).ecd.refreshBleachLimitH = m.ecd.refreshBleachLimitH ∧
    (check_step env bh m i).ecd.refreshBleachLimitL = m.ecd.refreshBleachLimitL ∧
    (check_step env bh m i).ecd.refreshBleachHalf = m.ecd.refreshBleachHalf ∧
    (check_step env bh m i).ecd.bleachRequiredFlag = m.ecd.bleachRequiredFlag ∧
    (check_step env bh m i).ecd.colorRequiredFlag = m.ecd.colorRequiredFlag ∧
    (check_step env bh m i).pollIdx = m.pollIdx ∧
    (check_step env bh m i).readIdx = m.readIdx + 1 := by
  simp only [check_step, readPin]
  split_ifs <;>
    exact ⟨rfl, rfl, rfl, rfl, rfl, rfl, rfl, rfl, rfl, rfl, rfl, rfl, rfl, rfl, rfl, rfl⟩

/-- The per-segment flag written by one `check_refresh` iteration is the
classification of the sample it reads. -/
lemma check_step_flags (env : Env) (bh : ℤ) (m : Mach) (i : ℕ) :
    (check_step env bh m i).ecd.refreshSegmentNeeded =
      updFlag m.ecd.refreshSegmentNeeded i
        (checkFlagVal (m.ecd.currentState i) m.ecd.refreshColorHalf m.ecd.refreshBleachLimitH
          bh (env.reads m.readIdx (m.ecd.segmentPinsList i))) := by
  simp only [check_step, readPin, checkFlagVal]
  split_ifs <;> simp_all

/-- One `check_refresh` iteration raises `m_refresh_color_needed` exactly on
the `colorEscalate` condition. -/
lemma check_step_colorNeeded (env : Env) (bh : ℤ) (m : Mach) (i : ℕ) :
    (check_step env bh m i).ecd.refresh_color_needed =
      (m.ecd.refresh_color_needed ||
        colorEscalate (m.ecd.currentState i) m.ecd.refreshColorHalf m.ecd.refreshColorLimitL
          (env.reads m.readIdx (m.ecd.segmentPinsList i))) := by
  simp only [check_step, readPin, colorEscalate]
  split_ifs <;> simp_all

/-- One `check_refresh` iteration raises `m_refresh_bleach_needed` exactly on
the `bleachEscalate` condition. -/
lemma check_step_bleachNeeded (env : Env) (bh : ℤ) (m : Mach) (i : ℕ) :
    (check_step env bh m i).ecd.refresh_bleach_needed =
      (m.ecd.refresh_bleach_needed ||
        bleachEscalate (m.ecd.currentState i) m.ecd.refreshBleachLimitH
          (env.reads m.readIdx (m.ecd.segmentPinsList i))) := by
  simp only [check_step, readPin, bleachEscalate]
  split_ifs <;> simp_all

/-- One `check_refresh` iteration lowers the minimum observed Bleach OCP
record exactly on a smaller Bleach-state sample. -/
lemma check_step_minB (env : Env) (bh : ℤ) (m : Mach) (i : ℕ) :
    (check_step env bh m i).ecd.minBleachOcpLSB =
      (if m.ecd.currentState i = SegState.bleach then
        (if env.reads m.readIdx (m.ecd.segmentPinsList i) < m.ecd.minBleachOcpLSB then
          env.reads m.readIdx (m.ecd.segmentPinsList i)
        else m.ecd.minBleachOcpLSB)
      else m.ecd.minBleachOcpLSB) := by
  simp only [check_step, readPin]
  split_ifs <;> simp_all

/-- Fields of the machine that the whole `check_refresh` classification loop
never writes. -/
lemma check_fold_frame (env : Env) (bh : ℤ) (l : List ℕ) (m : Mach) :
    ((l.foldl (check_step env bh) m).ecd.currentState = m.ecd.currentState) ∧
    ((l.foldl (check_step env bh) m).ecd.nextState = m.ecd.nextState) ∧
    ((l.foldl (check_step env bh) m).ecd.numberOfSegments = m.ecd.numberOfSegments) ∧
    ((l.foldl (check_step env bh) m).ecd.segmentPinsList = m.ecd.segmentPinsList) ∧
    ((l.foldl (check_step env bh) m).ecd.cfg = m.ecd.cfg) ∧
    ((l.foldl (check_step env bh) m).ecd.supplyVoltage = m.ecd.supplyVoltage) ∧
    ((l.foldl (check_step env bh) m).ecd.refreshColorLimitH = m.ecd.refreshColorLimitH) ∧
    ((l.foldl (check_step env bh) m).ecd.refreshColorLimitL = m.ecd.refreshColorLimitL) ∧
    ((l.foldl (check_step env bh) m).ecd.refreshColorHalf = m.ecd.refreshColorHalf) ∧
    ((l.foldl (check_step env bh) m).ecd.refreshBleachLimitH = m.ecd.refreshBleachLimitH) ∧
    ((l.foldl (check_step env bh) m).ecd.refreshBleachLimitL = m.ecd.refreshBleachLimitL) ∧
    ((l.foldl (check_step env bh) m).ecd.refreshBleachHalf = m.ecd.refreshBleachHalf) ∧
    ((l.foldl (check_step env bh) m).ecd.bleachRequiredFlag = m.ecd.bleachRequiredFlag) ∧
    ((l.foldl (check_step env bh) m).ecd.colorRequiredFlag = m.ecd.colorRequiredFlag) ∧
    ((l.foldl (check_step env bh) m).pollIdx = m.pollIdx) := by
  refine ⟨?_, ?_, ?_, ?_, ?_, ?_, ?_, ?_, ?_, ?_, ?_, ?_, ?_, ?_, ?_⟩
  · exact foldl_fix (fun mm => mm.ecd.currentState) (check_step env bh)
      (fun m i => (check_step_frame env bh m i).1) l m
  · exact foldl_fix (fun mm => mm.ecd.nextState) (check_step env bh)
      (fun m i => (check_step_frame env bh m i).2.1) l m
  · exact foldl_fix (fun mm => mm.ecd.numberOfSegments) (check_step env bh)
      (fun m i => (check_step_frame env bh m i).2.2.1) l m
  · exact foldl_fix (fun mm => mm.ecd.segmentPinsList) (check_step env bh)
      (fun m i => (check_step_frame env bh m i).2.2.2.1) l m
  · exact foldl_fix (fun mm => mm.ecd.cfg) (check_step env bh)
      (fun m i => (check_step_frame env bh m i).2.2.2.2.1) l m
  · exact foldl_fix (fun mm => mm.ecd.supplyVoltage) (check_step env bh)
      (fun m i => (check_step_frame env bh m i).2.2.2.2.2.1) l m
  · exact foldl_fix (fun mm => mm.ecd.refreshColorLimitH) (check_step env bh)
      (fun m i => (check_step_frame env bh m i).2.2.2.2.2.2.1) l m
  · exact foldl_fix (fun mm => mm.ecd.refreshColorLimitL) (check_step env bh)
      (fun m i => (check_step_frame env bh m i).2.2.2.2.2.2.2.1) l m
  · exact foldl_fix (fun mm => mm.ecd.refreshColorHalf) (check_step env bh)
      (fun m i => (check_step_frame env bh m i).2.2.2.2.2.2.2.2.1) l m
  · exact foldl_fix (fun mm => mm.ecd.refreshBleachLimitH) (check_step env bh)
      (fun m i => (check_step_frame env bh m i).2.2.2.2.2.2.2.2.2.1) l m
  · exact foldl_fix (fun mm => mm.ecd.refreshBleachLimitL) (check_step env bh)
      (fun m i => (check_step_frame env bh m i).2.2.2.2.2.2.2.2.2.2.1) l m
  · exact foldl_fix (fun mm => mm.ecd.refreshBleachHalf) (check_step env bh)
      (fun m i => (check_step_frame env bh m i).2.2.2.2.2.2.2.2.2.2.2.1) l m
  · exact foldl_fix (fun mm => mm.ecd.bleachRequiredFlag) (check_step env bh)
      (fun m i => (check_step_frame env bh m i).2.2.2.2.2.2.2.2.2.2.2.2.1) l m
  · exact foldl_fix (fun mm => mm.ecd.colorRequiredFlag) (check_step env bh)
      (fun m i => (check_step_frame env bh m i).2.2.2.2.2.2.2.2.2.2.2.2.2.1) l m
  · exact foldl_fix (fun mm => mm.pollIdx) (check_step env bh)
      (fun m i => (check_step_frame env bh m i).2.2.2.2.2.2.2.2.2.2.2.2.2.2.1) l m

/-- The classification loop performs exactly one ADC read per iteration. -/
lemma check_fold_readIdx (env : Env) (bh : ℤ) :
    ∀ (n : ℕ) (m : Mach),
      ((List.range n).foldl (check_step env bh) m).readIdx = m.readIdx + n := by
  intro n
  induction n with
  | zero => intro m; rfl
  | succ n ih =>
    intro m
    rw [List.range_succ, List.foldl_append, List.foldl_cons, List.foldl_nil,
      (check_step_frame env bh _ n).2.2.2.2.2.2.2.2.2.2.2.2.2.2.2, ih]
    omega

/-- Per-segment flags after the classification loop over `0..n-1`: a segment
beyond the loop keeps its flag, a segment inside it is classified from the
sample read at its position. -/
lemma check_fold_flags (env : Env) (bh : ℤ) :
    ∀ (n : ℕ) (m : Mach),
      (∀ i, n ≤ i →
        ((List.range n).foldl (check_step env bh) m).ecd.refreshSegmentNeeded i =
          m.ecd.refreshSegmentNeeded i) ∧
      (∀ i, i < n →
        ((List.range n).foldl (check_step env bh) m).ecd.refreshSegmentNeeded i =
          checkFlagVal (m.ecd.currentState i) m.ecd.refreshColorHalf m.ecd.refreshBleachLimitH
            bh (env.reads (m.readIdx + i) (m.ecd.segmentPinsList i))) := by
  intro n
  induction n with
  | zero => exact fun m => ⟨fun i _ => rfl, fun i hi => absurd hi (Nat.not_lt_zero i)⟩
  | succ n ih =>
    intro m
    rw [List.range_succ, List.foldl_append, List.foldl_cons, List.foldl_nil]
    obtain ⟨hcur, -, -, hpins, -, -, -, -, hchalf, hblimH, -, -, -, -, -⟩ :=
      check_fold_frame env bh (List.range n) m
    have hread := check_fold_readIdx env bh n m
    constructor
    · intro i hi
      rw [check_step_flags, updFlag]
      have hne : i ≠ n := by omega
      simp only [hne, if_false]
      exact (ih m).1 i (by omega)
    · intro i hi
      rw [check_step_flags, updFlag]
      by_cases hin : i = n
      · subst hin
        simp [hcur, hchalf, hblimH, hread, hpins]
      · simp only [hin, if_false]
        exact (ih m).2 i (by omega)

/-- The Color escalation flag after the classification loop over `0..n-1`. -/
lemma check_fold_colorNeeded (env : Env) (bh : ℤ) :
    ∀ (n : ℕ) (m : Mach),
      ((List.range n).foldl (check_step env bh) m).ecd.refresh_color_needed =
        (m.ecd.refresh_color_needed ||
          (List.range n).any (fun i =>
            colorEscalate (m.ecd.currentState i) m.ecd.refreshColorHalf
              m.ecd.refreshColorLimitL (env.reads (m.readIdx + i) (m.ecd.segmentPinsList i)))) := by
  intro n
  induction n with
  | zero => intro m; simp
  | succ n ih =>
    intro m
    rw [List.range_succ, List.foldl_append, List.foldl_cons, List.foldl_nil]
    obtain ⟨hcur, -, -, hpins, -, -, -, hclimL, hchalf, -, -, -, -, -, -⟩ :=
      check_fold_frame env bh (List.range n) m
    have hread := check_fold_readIdx env bh n m
    rw [check_step_colorNeeded, ih, hcur, hchalf, hclimL, hread, hpins,
      List.any_append]
    simp [Bool.or_assoc]

/-- The Bleach escalation flag after the classification loop over `0..n-1`. -/
lemma check_fold_bleachNeeded (env : Env) (bh : ℤ) :
    ∀ (n : ℕ) (m : Mach),
      ((List.range n).foldl (check_step env bh) m).ecd.refresh_bleach_needed =
        (m.ecd.refresh_bleach_needed ||
          (List.range n).any (fun i =>
            bleachEscalate (m.ecd.currentState i) m.ecd.refreshBleachLimitH
              (env.reads (m.readIdx + i) (m.ecd.segmentPinsList i)))) := by
  intro n
  induction n with
  | zero => intro m; simp
  | succ n ih =>
    intro m
    rw [List.range_succ, List.foldl_append, List.foldl_cons, List.foldl_nil]
    obtain ⟨hcur, -, -, hpins, -, -, -, -, -, hblimH, -, -, -, -, -⟩ :=
      check_fold_frame env bh (List.range n) m
    have hread := check_fold_readIdx env bh n m
    rw [check_step_bleachNeeded, ih, hcur, hblimH, hread, hpins, List.any_append]
    simp [Bool.or_assoc]

/-- The minimum observed Bleach OCP record after the classification loop
over `0..n-1` is the running minimum of the Bleach-state samples. -/
lemma check_fold_minB (env : Env) (bh : ℤ) :
    ∀ (n : ℕ) (m : Mach),
      ((List.range n).foldl (check_step env bh) m).ecd.minBleachOcpLSB =
        ((List.range n).filterMap (fun i =>
          if m.ecd.currentState i = SegState.bleach then
            some (env.reads (m.readIdx + i) (m.ecd.segmentPinsList i))
          else none)).foldl (fun a v => if v < a then v else a) m.ecd.minBleachOcpLSB := by
  intro n
  induction n with
  | zero => intro m; rfl
  | succ n ih =>
    intro m
    rw [List.range_succ, List.foldl_append, List.foldl_cons, List.foldl_nil,
      List.filterMap_append, List.foldl_append]
    obtain ⟨hcur, -, -, hpins, -, -, -, -, -, -, -, -, -, -, -⟩ :=
      check_fold_frame env bh (List.range n) m
    have hread := check_fold_readIdx env bh n m
    rw [check_step_minB, ih, hcur, hread, hpins]
    by_cases hb : m.ecd.currentState n = SegState.bleach
    · simp [hb]
    · simp [hb]

/-- `check_refresh`, entered with the stop flag clear, reduces to the
classification fold after the flag reset, the poll and the mid-supply
counter-electrode drive, followed by the release of every segment. -/
lemma check_refresh_run_eq (env : Env) (m : Mach) (h : env.stops m.pollIdx = false) :
    check_refresh env m =
      (checkFold env m,
        [Event.poll false,
         Event.ceDrive (m.ecd.supplyVoltage / 2)
           (truncQ ((ADC_DAC_MAX_LSB : ℚ) * (m.ecd.supplyVoltage / 2 / m.ecd.supplyVoltage))),
         Event.delayMs 50] ++
        (List.range (checkFold env m).ecd.numberOfSegments).map
          (fun i => Event.segRelease ((checkFold env m).ecd.segmentPinsList i))) := by
  simp [check_refresh, pollStop, enableCounterElectrode, disableAllSegments, h,
    checkFold, checkEntry, checkBh]

/-- Projections of the machine after the `check_refresh` classification
loop, expressed over the fields of the incoming machine. -/
lemma checkFold_fields (env : Env) (m : Mach) :
    ((checkFold env m).ecd.currentState = m.ecd.currentState) ∧
    ((checkFold env m).ecd.nextState = m.ecd.nextState) ∧
    ((checkFold env m).ecd.numberOfSegments = m.ecd.numberOfSegments) ∧
    ((checkFold env m).ecd.segmentPinsList = m.ecd.segmentPinsList) ∧
    ((checkFold env m).ecd.cfg = m.ecd.cfg) ∧
    ((checkFold env m).ecd.supplyVoltage = m.ecd.supplyVoltage) ∧
    ((checkFold env m).ecd.bleachRequiredFlag = m.ecd.bleachRequiredFlag) ∧
    ((checkFold env m).ecd.colorRequiredFlag = m.ecd.colorRequiredFlag) ∧
    ((checkFold env m).pollIdx = m.pollIdx + 1) ∧
    ((checkFold env m).readIdx = m.readIdx + m.ecd.numberOfSegments) ∧
    ((checkFold env m).ecd.refreshColorLimitH = m.ecd.refreshColorLimitH) ∧
    ((checkFold env m).ecd.refreshColorLimitL = m.ecd.refreshColorLimitL) ∧
    ((checkFold env m).ecd.refreshColorHalf = m.ecd.refreshColorHalf) ∧
    ((checkFold env m).ecd.refreshBleachLimitH = m.ecd.refreshBleachLimitH) ∧
    ((checkFold env m).ecd.refreshBleachLimitL = m.ecd.refreshBleachLimitL) ∧
    ((checkFold env m).ecd.refreshBleachHalf = m.ecd.refreshBleachHalf) := by
  unfold checkFold
  obtain ⟨h1, h2, h3, h4, h5, h6, h7, h8, h9, h10, h11, h12, h13, h14, h15⟩ :=
    check_fold_frame env (checkBh m.ecd) (List.range m.ecd.numberOfSegments) (checkEntry m)
  have hr := check_fold_readIdx env (checkBh m.ecd) m.ecd.numberOfSegments (checkEntry m)
  exact ⟨h1, h2, h3, h4, h5, h6, h13, h14, h15, hr, h7, h8, h9, h10, h11, h12⟩

/-- The per-segment flag after the classification loop, for an in-range
segment. -/
lemma checkFold_flag (env : Env) (m : Mach) (i : ℕ) (hi : i < m.ecd.numberOfSegments) :
    (checkFold env m).ecd.refreshSegmentNeeded i =
      checkFlagVal (m.ecd.currentState i) m.ecd.refreshColorHalf m.ecd.refreshBleachLimitH
        (checkBh m.ecd) (env.reads (m.readIdx + i) (m.ecd.segmentPinsList i)) := by
  unfold checkFold
  exact (check_fold_flags env (checkBh m.ecd) m.ecd.numberOfSegments (checkEntry m)).2 i hi

/-- The Color escalation flag after the classification loop. -/
lemma checkFold_colorNeeded (env : Env) (m : Mach) :
    (checkFold env m).ecd.refresh_color_needed =
      (List.range m.ecd.numberOfSegments).any (fun i =>
        colorEscalate (m.ecd.currentState i) m.ecd.refreshColorHalf m.ecd.refreshColorLimitL
          (env.reads (m.readIdx + i) (m.ecd.segmentPinsList i))) := by
  unfold checkFold
  rw [check_fold_colorNeeded]
  rfl

/-- The Bleach escalation flag after the classification loop. -/
lemma checkFold_bleachNeeded (env : Env) (m : Mach) :
    (checkFold env m).ecd.refresh_bleach_needed =
      (List.range m.ecd.numberOfSegments).any (fun i =>
        bleachEscalate (m.ecd.currentState i) m.ecd.refreshBleachLimitH
          (env.reads (m.readIdx + i) (m.ecd.segmentPinsList i))) := by
  unfold checkFold
  rw [check_fold_bleachNeeded]
  rfl

/-- The minimum observed Bleach OCP after the classification loop: the
running minimum, seeded with 1024, of the Bleach-state samples. -/
lemma checkFold_minB (env : Env) (m : Mach) :
    (checkFold env m).ecd.minBleachOcpLSB =
      (bleachSamples env m.ecd m.readIdx).foldl (fun a v => if v < a then v else a) 1024 := by
  unfold checkFold
  rw [check_fold_minB]
  rfl

/-- `ceDriveVolts` distributes over trace concatenation. -/
lemma ceDriveVolts_append (t1 t2 : List Event) :
    ceDriveVolts (t1 ++ t2) = ceDriveVolts t1 ++ ceDriveVolts t2 :=
  List.filterMap_append t1 t2 _

/-- Segment pulses contain no counter-electrode drives. -/
lemma ceDriveVolts_bleachPulses (e : YNV_ECD) : ceDriveVolts (bleachPulseEvents e) = [] := by
  unfold ceDriveVolts bleachPulseEvents
  rw [List.filterMap_eq_nil_iff]
  intro ev hev
  rw [List.mem_filterMap] at hev
  obtain ⟨i, -, hi⟩ := hev
  split_ifs at hi
  rw [Option.some.injEq] at hi
  subst hi
  rfl

/-- Segment pulses contain no counter-electrode drives. -/
lemma ceDriveVolts_colorPulses (e : YNV_ECD) : ceDriveVolts (colorPulseEvents e) = [] := by
  unfold ceDriveVolts colorPulseEvents
  rw [List.filterMap_eq_nil_iff]
  intro ev hev
  rw [List.mem_filterMap] at hev
  obtain ⟨i, -, hi⟩ := hev
  split_ifs at hi
  rw [Option.some.injEq] at hi
  subst hi
  rfl

/-- Segment releases contain no counter-electrode drives. -/
lemma ceDriveVolts_releases (l : List ℕ) (p : ℕ → ℤ) :
    ceDriveVolts (l.map (fun i => Event.segRelease (p i))) = [] := by
  induction l with
  | nil => rfl
  | cons a l ih => simpa [ceDriveVolts] using ih

/-- Singleton traces without a drive have no counter-electrode drives. -/
lemma ceDriveVolts_poll (b : Bool) : ceDriveVolts [Event.poll b] = [] := rfl

/-- Singleton traces without a drive have no counter-electrode drives. -/
lemma ceDriveVolts_delay (t : ℤ) : ceDriveVolts [Event.delayMs t] = [] := rfl

/-- A leading poll does not contribute a counter-electrode drive. -/
lemma ceDriveVolts_cons_poll (b : Bool) (t : List Event) :
    ceDriveVolts (Event.poll b :: t) = ceDriveVolts t := rfl

/-- A leading delay does not contribute a counter-electrode drive. -/
lemma ceDriveVolts_cons_delay (d : ℤ) (t : List Event) :
    ceDriveVolts (Event.delayMs d :: t) = ceDriveVolts t := rfl

/-- The BLEACH refresh retry loop never re-drives the counter electrode:
its trace contains no `ceDrive` event in any iteration. -/
lemma refreshBleachLoop_no_ceDrive (env : Env) :
    ∀ (fuel : ℕ) (m : Mach), ceDriveVolts (refreshBleachLoop env fuel m).2.1 = [] := by
  intro fuel
  induction fuel with
  | zero => intro m; rfl
  | succ fuel ih =>
    intro m
    rw [refreshBleachLoop]
    by_cases hn : m.ecd.refresh_bleach_needed
    · simp only [hn, if_true, pollStop, disableAllSegments]
      by_cases hb : env.stops m.pollIdx
      · simp [hb, ceDriveVolts_poll]
      · simp [hb, ceDriveVolts_append, ceDriveVolts_poll, ceDriveVolts_delay,
          ceDriveVolts_cons_poll, ceDriveVolts_cons_delay,
          ceDriveVolts_bleachPulses, ceDriveVolts_releases, ih]
    · simp [hn]
      rfl

/-- The COLOR refresh retry loop never re-drives the counter electrode. -/
lemma refreshColorLoop_no_ceDrive (env : Env) :
    ∀ (fuel : ℕ) (m : Mach), ceDriveVolts (refreshColorLoop env fuel m).2.1 = [] := by
  intro fuel
  induction fuel with
  | zero => intro m; rfl
  | succ fuel ih =>
    intro m
    rw [refreshColorLoop]
    by_cases hn : m.ecd.refresh_color_needed
    · simp only [hn, if_true, pollStop, disableAllSegments]
      by_cases hb : env.stops m.pollIdx
      · simp [hb, ceDriveVolts_poll]
      · by_cases hb2 : env.stops (m.pollIdx + 1)
        · simp [hb, hb2, ceDriveVolts_append, ceDriveVolts_poll, ceDriveVolts_delay,
            ceDriveVolts_cons_poll, ceDriveVolts_cons_delay, ceDriveVolts_colorPulses]
          rfl
        · simp [hb, hb2, ceDriveVolts_append, ceDriveVolts_poll, ceDriveVolts_delay,
            ceDriveVolts_cons_poll, ceDriveVolts_cons_delay,
            ceDriveVolts_colorPulses, ceDriveVolts_releases, ih]
    · simp [hn]
      rfl

/-- The guarded assignment `if (minAmpV > cfg) CE = minAmpV else CE = cfg`
is the maximum of the two. -/
lemma ite_gt_eq_max (a b : ℚ) : (if a > b then a else b) = max b a := by
  rcases le_or_lt a b with h | h
  · rw [if_neg (not_lt.mpr h), max_eq_left h]
  · rw [if_pos h, max_eq_right (le_of_lt h)]

/-- Fields of the machine that one BLEACH re-check iteration never
writes. -/
lemma bleachRecheckStep_frame (env : Env) (m : Mach) (i : ℕ) :
    (bleachRecheckStep env m i).ecd.currentState = m.ecd.currentState ∧
    (bleachRecheckStep env m i).ecd.nextState = m.ecd.nextState ∧
    (bleachRecheckStep env m i).ecd.numberOfSegments = m.ecd.numberOfSegments ∧
    (bleachRecheckStep env m i).ecd.segmentPinsList = m.ecd.segmentPinsList ∧
    (bleachRecheckStep env m i).ecd.cfg = m.ecd.cfg ∧
    (bleachRecheckStep env m i).ecd.supplyVoltage = m.ecd.supplyVoltage ∧
    (bleachRecheckStep env m i).ecd.refreshColorLimitH = m.ecd.refreshColorLimitH ∧
    (bleachRecheckStep env m i).ecd.refreshColorLimitL = m.ecd.refreshColorLimitL ∧
    (bleachRecheckStep env m i).ecd.refreshColorHalf = m.ecd.refreshColorHalf ∧
    (bleachRecheckStep env m i).ecd.refreshBleachLimitH = m.ecd.refreshBleachLimitH ∧
    (bleachRecheckStep env m i).ecd.refreshBleachLimitL = m.ecd.refreshBleachLimitL ∧
    (bleachRecheckStep env m i).ecd.refreshBleachHalf = m.ecd.refreshBleachHalf ∧
    (bleachRecheckStep env m i).ecd.bleachRequiredFlag = m.ecd.bleachRequiredFlag ∧
    (bleachRecheckStep env m i).ecd.colorRequiredFlag = m.ecd.colorRequiredFlag ∧
    (bleachRecheckStep env m i).ecd.refresh_color_needed = m.ecd.refresh_color_needed ∧
    (bleachRecheckStep env m i).ecd.minBleachOcpLSB = m.ecd.minBleachOcpLSB ∧
    (bleachRecheckStep env m i).pollIdx = m.pollIdx := by
  simp only [bleachRecheckStep, readPin]
  split_ifs <;>
    exact ⟨rfl, rfl, rfl, rfl, rfl, rfl, rfl, rfl, rfl, rfl, rfl, rfl, rfl, rfl, rfl, rfl, rfl⟩

/-- Fields of the machine that one COLOR re-check iteration never writes. -/
lemma colorRecheckStep_frame (env : Env) (m : Mach) (i : ℕ) :
    (colorRecheckStep env m i).ecd.currentState = m.ecd.currentState ∧
    (colorRecheckStep env m i).ecd.nextState = m.ecd.nextState ∧
    (colorRecheckStep env m i).ecd.numberOfSegments = m.ecd.numberOfSegments ∧
    (colorRecheckStep env m i).ecd.segmentPinsList = m.ecd.segmentPinsList ∧
    (colorRecheckStep env m i).ecd.cfg = m.ecd.cfg ∧
    (colorRecheckStep env m i).ecd.supplyVoltage = m.ecd.supplyVoltage ∧
    (colorRecheckStep env m i).ecd.refreshColorLimitH = m.ecd.refreshColorLimitH ∧
    (colorRecheckStep env m i).ecd.refreshColorLimitL = m.ecd.refreshColorLimitL ∧
    (colorRecheckStep env m i).ecd.refreshColorHalf = m.ecd.refreshColorHalf ∧
    (colorRecheckStep env m i).ecd.refreshBleachLimitH = m.ecd.refreshBleachLimitH ∧
    (colorRecheckStep env m i).ecd.refreshBleachLimitL = m.ecd.refreshBleachLimitL ∧
    (colorRecheckStep env m i).ecd.refreshBleachHalf = m.ecd.refreshBleachHalf ∧
    (colorRecheckStep env m i).ecd.bleachRequiredFlag = m.ecd.bleachRequiredFlag ∧
    (colorRecheckStep env m i).ecd.colorRequiredFlag = m.ecd.colorRequiredFlag ∧
    (colorRecheckStep env m i).ecd.refresh_bleach_needed = m.ecd.refresh_bleach_needed ∧
    (colorRecheckStep env m i).ecd.minBleachOcpLSB = m.ecd.minBleachOcpLSB ∧
    (colorRecheckStep env m i).pollIdx = m.pollIdx := by
  simp only [colorRecheckStep, readPin]
  split_ifs <;>
    exact ⟨rfl, rfl, rfl, rfl, rfl, rfl, rfl, rfl, rfl, rfl, rfl, rfl, rfl, rfl, rfl, rfl, rfl⟩

/-- The escalation flag is only ever raised, never cleared, inside a BLEACH
re-check pass. -/
lemma bleachRecheckStep_needed_mono (env : Env) (m : Mach) (i : ℕ)
    (h : m.ecd.refresh_bleach_needed = true) :
    (bleachRecheckStep env m i).ecd.refresh_bleach_needed = true := by
  simp only [bleachRecheckStep, readPin]
  split_ifs <;> simp_all

/-- The escalation flag is only ever raised, never cleared, inside a COLOR
re-check pass. -/
lemma colorRecheckStep_needed_mono (env : Env) (m : Mach) (i : ℕ)
    (h : m.ecd.refresh_color_needed = true) :
    (colorRecheckStep env m i).ecd.refresh_color_needed = true := by
  simp only [colorRecheckStep, readPin]
  split_ifs <;> simp_all

/-- A BLEACH re-check iteration touches only its own segment's flag. -/
lemma bleachRecheckStep_flag_other (env : Env) (m : Mach) (i j : ℕ) (hij : j ≠ i) :
    (bleachRecheckStep env m i).ecd.refreshSegmentNeeded j =
      m.ecd.refreshSegmentNeeded j := by
  simp only [bleachRecheckStep, readPin]
  split_ifs <;> simp_all [updFlag]

/-- A COLOR re-check iteration touches only its own segment's flag. -/
lemma colorRecheckStep_flag_other (env : Env) (m : Mach) (i j : ℕ) (hij : j ≠ i) :
    (colorRecheckStep env m i).ecd.refreshSegmentNeeded j =
      m.ecd.refreshSegmentNeeded j := by
  simp only [colorRecheckStep, readPin]
  split_ifs <;> simp_all [updFlag]

/-- A BLEACH re-check iteration on a still-flagged hostile segment — one
whose pin always samples above `BleachLimitLow` — keeps the segment flagged
and raises the escalation flag. -/
lemma bleachRecheckStep_hostile (env : Env) (m : Mach) (i : ℕ)
    (hc : m.ecd.currentState i = SegState.bleach)
    (hf : m.ecd.refreshSegmentNeeded i = true)
    (hp : ∀ k, (env.reads k (m.ecd.segmentPinsList i) : ℚ) > m.ecd.refreshBleachLimitL) :
    (bleachRecheckStep env m i).ecd.refreshSegmentNeeded i = true ∧
    (bleachRecheckStep env m i).ecd.refresh_bleach_needed = true := by
  simp only [bleachRecheckStep, readPin]
  rw [if_pos ⟨hc, hf⟩, if_pos (hp m.readIdx)]
  exact ⟨hf, rfl⟩

/-- A COLOR re-check iteration on a still-flagged hostile segment — one
whose pin always samples below `ColorLimitHigh` — keeps the segment flagged
and raises the escalation flag. -/
lemma colorRecheckStep_hostile (env : Env) (m : Mach) (i : ℕ)
    (hc : m.ecd.currentState i = SegState.color)
    (hf : m.ecd.refreshSegmentNeeded i = true)
    (hp : ∀ k, (env.reads k (m.ecd.segmentPinsList i) : ℚ) < m.ecd.refreshColorLimitH) :
    (colorRecheckStep env m i).ecd.refreshSegmentNeeded i = true ∧
    (colorRecheckStep env m i).ecd.refresh_color_needed = true := by
  simp only [colorRecheckStep, readPin]
  rw [if_pos ⟨hc, hf⟩, if_pos (hp m.readIdx)]
  exact ⟨by simp [updFlag], rfl⟩

/-- Entered with the stop flag clear, `refreshBleach` drives the counter
electrode exactly once, to the maximum of the configured refresh voltage and
the adaptive amplitude computed with the fixed LSB-to-volt constant. -/
lemma refreshBleach_ceVolts (env : Env) (m : Mach) (h : env.stops m.pollIdx = false) :
    ceDriveVolts (refreshBleach env m).2.1 =
      [max m.ecd.cfg.refreshBleachingVoltage
        (m.ecd.supplyVoltage / 2 - (m.ecd.minBleachOcpLSB : ℚ) * LSB_TO_VOLT_CONV)] := by
  rw [refreshBleach]
  simp only [pollStop, enableCounterElectrode, h, Bool.false_eq_true, if_false]
  rw [ceDriveVolts_append, ceDriveVolts_append, refreshBleachLoop_no_ceDrive env]
  simp [ceDriveVolts, ite_gt_eq_max]

/-- Fields preserved by the whole BLEACH re-check loop. -/
lemma bleachRecheckStep_fold_frame (env : Env) (l : List ℕ) (m : Mach) :
    ((l.foldl (bleachRecheckStep env) m).ecd.currentState = m.ecd.currentState) ∧
    ((l.foldl (bleachRecheckStep env) m).ecd.nextState = m.ecd.nextState) ∧
    ((l.foldl (bleachRecheckStep env) m).ecd.numberOfSegments = m.ecd.numberOfSegments) ∧
    ((l.foldl (bleachRecheckStep env) m).ecd.segmentPinsList = m.ecd.segmentPinsList) ∧
    ((l.foldl (bleachRecheckStep env) m).ecd.cfg = m.ecd.cfg) ∧
    ((l.foldl (bleachRecheckStep env) m).ecd.supplyVoltage = m.ecd.supplyVoltage) ∧
    ((l.foldl (bleachRecheckStep env) m).ecd.refreshColorLimitH = m.ecd.refreshColorLimitH) ∧
    ((l.foldl (bleachRecheckStep env) m).ecd.refreshColorLimitL = m.ecd.refreshColorLimitL) ∧
    ((l.foldl (bleachRecheckStep env) m).ecd.refreshColorHalf = m.ecd.refreshColorHalf) ∧
    ((l.foldl (bleachRecheckStep env) m).ecd.refreshBleachLimitH = m.ecd.refreshBleachLimitH) ∧
    ((l.foldl (bleachRecheckStep env) m).ecd.refreshBleachLimitL = m.ecd.refreshBleachLimitL) ∧
    ((l.foldl (bleachRecheckStep env) m).ecd.refreshBleachHalf = m.ecd.refreshBleachHalf) ∧
    ((l.foldl (bleachRecheckStep env) m).ecd.bleachRequiredFlag = m.ecd.bleachRequiredFlag) ∧
    ((l.foldl (bleachRecheckStep env) m).ecd.colorRequiredFlag = m.ecd.colorRequiredFlag) ∧
    ((l.foldl (bleachRecheckStep env) m).ecd.refresh_color_needed = m.ecd.refresh_color_needed) ∧
    ((l.foldl (bleachRecheckStep env) m).ecd.minBleachOcpLSB = m.ecd.minBleachOcpLSB) ∧
    ((l.foldl (bleachRecheckStep env) m).pollIdx = m.pollIdx) := by
  refine ⟨?_, ?_, ?_, ?_, ?_, ?_, ?_, ?_, ?_, ?_, ?_, ?_, ?_, ?_, ?_, ?_, ?_⟩
  · exact foldl_fix (fun mm => mm.ecd.currentState) (bleachRecheckStep env)
      (fun m i => (bleachRecheckStep_frame env m i).1) l m
  · exact foldl_fix (fun mm => mm.ecd.nextState) (bleachRecheckStep env)
      (fun m i => (bleachRecheckStep_frame env m i).2.1) l m
  · exact foldl_fix (fun mm => mm.ecd.numberOfSegments) (bleachRecheckStep env)
      (fun m i => (bleachRecheckStep_frame env m i).2.2.1) l m
  · exact foldl_fix (fun mm => mm.ecd.segmentPinsList) (bleachRecheckStep env)
      (fun m i => (bleachRecheckStep_frame env m i).2.2.2.1) l m
  · exact foldl_fix (fun mm => mm.ecd.cfg) (bleachRecheckStep env)
      (fun m i => (bleachRecheckStep_frame env m i).2.2.2.2.1) l m
  · exact foldl_fix (fun mm => mm.ecd.supplyVoltage) (bleachRecheckStep env)
      (fun m i => (bleachRecheckStep_frame env m i).2.2.2.2.2.1) l m
  · exact foldl_fix (fun mm => mm.ecd.refreshColorLimitH) (bleachRecheckStep env)
      (fun m i => (bleachRecheckStep_frame env m i).2.2.2.2.2.2.1) l m
  · exact foldl_fix (fun mm => mm.ecd.refreshColorLimitL) (bleachRecheckStep env)
      (fun m i => (bleachRecheckStep_frame env m i).2.2.2.2.2.2.2.1) l m
  · exact foldl_fix (fun mm => mm.ecd.refreshColorHalf) (bleachRecheckStep env)
      (fun m i => (bleachRecheckStep_frame env m i).2.2.2.2.2.2.2.2.1) l m
  · exact foldl_fix (fun mm => mm.ecd.refreshBleachLimitH) (bleachRecheckStep env)
      (fun m i => (bleachRecheckStep_frame env m i).2.2.2.2.2.2.2.2.2.1) l m
  · exact foldl_fix (fun mm => mm.ecd.refreshBleachLimitL) (bleachRecheckStep env)
      (fun m i => (bleachRecheckStep_frame env m i).2.2.2.2.2.2.2.2.2.2.1) l m
  · exact foldl_fix (fun mm => mm.ecd.refreshBleachHalf) (bleachRecheckStep env)
      (fun m i => (bleachRecheckStep_frame env m i).2.2.2.2.2.2.2.2.2.2.2.1) l m
  · exact foldl_fix (fun mm => mm.ecd.bleachRequiredFlag) (bleachRecheckStep env)
      (fun m i => (bleachRecheckStep_frame env m i).2.2.2.2.2.2.2.2.2.2.2.2.1) l m
  · exact foldl_fix (fun mm => mm.ecd.colorRequiredFlag) (bleachRecheckStep env)
      (fun m i => (bleachRecheckStep_frame env m i).2.2.2.2.2.2.2.2.2.2.2.2.2.1) l m
  · exact foldl_fix (fun mm => mm.ecd.refresh_color_needed) (bleachRecheckStep env)
      (fun m i => (bleachRecheckStep_frame env m i).2.2.2.2.2.2.2.2.2.2.2.2.2.2.1) l m
  · exact foldl_fix (fun mm => mm.ecd.minBleachOcpLSB) (bleachRecheckStep env)
      (fun m i => (bleachRecheckStep_frame env m i).2.2.2.2.2.2.2.2.2.2.2.2.2.2.2.1) l m
  · exact foldl_fix (fun mm => mm.pollIdx) (bleachRecheckStep env)
      (fun m i => (bleachRecheckStep_frame env m i).2.2.2.2.2.2.2.2.2.2.2.2.2.2.2.2) l m

/-- Fields preserved by the whole COLOR re-check loop. -/
lemma colorRecheckStep_fold_frame (env : Env) (l : List ℕ) (m : Mach) :
    ((l.foldl (colorRecheckStep env) m).ecd.currentState = m.ecd.currentState) ∧
    ((l.foldl (colorRecheckStep env) m).ecd.nextState = m.ecd.nextState) ∧
    ((l.foldl (colorRecheckStep env) m).ecd.numberOfSegments = m.ecd.numberOfSegments) ∧
    ((l.foldl (colorRecheckStep env) m).ecd.segmentPinsList = m.ecd.segmentPinsList) ∧
    ((l.foldl (colorRecheckStep env) m).ecd.cfg = m.ecd.cfg) ∧
    ((l.foldl (colorRecheckStep env) m).ecd.supplyVoltage = m.ecd.supplyVoltage) ∧
    ((l.foldl (colorRecheckStep env) m).ecd.refreshColorLimitH = m.ecd.refreshColorLimitH) ∧
    ((l.foldl (colorRecheckStep env) m).ecd.refreshColorLimitL = m.ecd.refreshColorLimitL) ∧
    ((l.foldl (colorRecheckStep env) m).ecd.refreshColorHalf = m.ecd.refreshColorHalf) ∧
    ((l.foldl (colorRecheckStep env) m).ecd.refreshBleachLimitH = m.ecd.refreshBleachLimitH) ∧
    ((l.foldl (colorRecheckStep env) m).ecd.refreshBleachLimitL = m.ecd.refreshBleachLimitL) ∧
    ((l.foldl (colorRecheckStep env) m).ecd.refreshBleachHalf = m.ecd.refreshBleachHalf) ∧
    ((l.foldl (colorRecheckStep env) m).ecd.bleachRequiredFlag = m.ecd.bleachRequiredFlag) ∧
    ((l.foldl (colorRecheckStep env) m).ecd.colorRequiredFlag = m.ecd.colorRequiredFlag) ∧
    ((l.foldl (colorRecheckStep env) m).ecd.refresh_bleach_needed = m.ecd.refresh_bleach_needed) ∧
    ((l.foldl (colorRecheckStep env) m).ecd.minBleachOcpLSB = m.ecd.minBleachOcpLSB) ∧
    ((l.foldl (colorRecheckStep env) m).pollIdx = m.pollIdx) := by
  refine ⟨?_, ?_, ?_, ?_, ?_, ?_, ?_, ?_, ?_, ?_, ?_, ?_, ?_, ?_, ?_, ?_, ?_⟩
  · exact foldl_fix (fun mm => mm.ecd.currentState) (colorRecheckStep env)
      (fun m i => (colorRecheckStep_frame env m i).1) l m
  · exact foldl_fix (fun mm => mm.ecd.nextState) (colorRecheckStep env)
      (fun m i => (colorRecheckStep_frame env m i).2.1) l m
  · exact foldl_fix (fun mm => mm.ecd.numberOfSegments) (colorRecheckStep env)
      (fun m i => (colorRecheckStep_frame env m i).2.2.1) l m
  · exact foldl_fix (fun mm => mm.ecd.segmentPinsList) (colorRecheckStep env)
      (fun m i => (colorRecheckStep_frame env m i).2.2.2.1) l m
  · exact foldl_fix (fun mm => mm.ecd.cfg) (colorRecheckStep env)
      (fun m i => (colorRecheckStep_frame env m i).2.2.2.2.1) l m
  · exact foldl_fix (fun mm => mm.ecd.supplyVoltage) (colorRecheckStep env)
      (fun m i => (colorRecheckStep_frame env m i).2.2.2.2.2.1) l m
  · exact foldl_fix (fun mm => mm.ecd.refreshColorLimitH) (colorRecheckStep env)
      (fun m i => (colorRecheckStep_frame env m i).2.2.2.2.2.2.1) l m
  · exact foldl_fix (fun mm => mm.ecd.refreshColorLimitL) (colorRecheckStep env)
      (fun m i => (colorRecheckStep_frame env m i).2.2.2.2.2.2.2.1) l m
  · exact foldl_fix (fun mm => mm.ecd.refreshColorHalf) (colorRecheckStep env)
      (fun m i => (colorRecheckStep_frame env m i).2.2.2.2.2.2.2.2.1) l m
  · exact foldl_fix (fun mm => mm.ecd.refreshBleachLimitH) (colorRecheckStep env)
      (fun m i => (colorRecheckStep_frame env m i).2.2.2.2.2.2.2.2.2.1) l m
  · exact foldl_fix (fun mm => mm.ecd.refreshBleachLimitL) (colorRecheckStep env)
      (fun m i => (colorRecheckStep_frame env m i).2.2.2.2.2.2.2.2.2.2.1) l m
  · exact foldl_fix (fun mm => mm.ecd.refreshBleachHalf) (colorRecheckStep env)
      (fun m i => (colorRecheckStep_frame env m i).2.2.2.2.2.2.2.2.2.2.2.1) l m
  · exact foldl_fix (fun mm => mm.ecd.bleachRequiredFlag) (colorRecheckStep env)
      (fun m i => (colorRecheckStep_frame env m i).2.2.2.2.2.2.2.2.2.2.2.2.1) l m
  · exact foldl_fix (fun mm => mm.ecd.colorRequiredFlag) (colorRecheckStep env)
      (fun m i => (colorRecheckStep_frame env m i).2.2.2.2.2.2.2.2.2.2.2.2.2.1) l m
  · exact foldl_fix (fun mm => mm.ecd.refresh_bleach_needed) (colorRecheckStep env)
      (fun m i => (colorRecheckStep_frame env m i).2.2.2.2.2.2.2.2.2.2.2.2.2.2.1) l m
  · exact foldl_fix (fun mm => mm.ecd.minBleachOcpLSB) (colorRecheckStep env)
      (fun m i => (colorRecheckStep_frame env m i).2.2.2.2.2.2.2.2.2.2.2.2.2.2.2.1) l m
  · exact foldl_fix (fun mm => mm.pollIdx) (colorRecheckStep env)
      (fun m i => (colorRecheckStep_frame env m i).2.2.2.2.2.2.2.2.2.2.2.2.2.2.2.2) l m

/-- The BLEACH retry count never exceeds the remaining fuel. -/
lemma refreshBleachLoop_count_le (env : Env) :
    ∀ (fuel : ℕ) (m : Mach), (refreshBleachLoop env fuel m).2.2 ≤ fuel := by
  intro fuel
  induction fuel with
  | zero => intro m; exact Nat.le_refl 0
  | succ fuel ih =>
    intro m
    rw [refreshBleachLoop]
    by_cases hn : m.ecd.refresh_bleach_needed
    · simp only [hn, if_true, pollStop]
      by_cases hb : env.stops m.pollIdx
      · simp [hb]
      · simp only [hb, Bool.false_eq_true, if_false]
        exact Nat.succ_le_succ (ih _)
    · simp [hn]

/-- The COLOR retry count never exceeds the remaining fuel. -/
lemma refreshColorLoop_count_le (env : Env) :
    ∀ (fuel : ℕ) (m : Mach), (refreshColorLoop env fuel m).2.2 ≤ fuel := by
  intro fuel
  induction fuel with
  | zero => intro m; exact Nat.le_refl 0
  | succ fuel ih =>
    intro m
    rw [refreshColorLoop]
    by_cases hn : m.ecd.refresh_color_needed
    · simp only [hn, if_true, pollStop]
      by_cases hb : env.stops m.pollIdx
      · simp [hb]
      · by_cases hb2 : env.stops (m.pollIdx + 1)
        · simp [hb, hb2]
        · simp only [hb, hb2, Bool.false_eq_true, if_false]
          exact Nat.succ_le_succ (ih _)
    · simp [hn]

/-- With no segment flagged for its direction, the BLEACH retry loop exits
immediately: no events, zero iterations. -/
lemma refreshBleachLoop_not_needed (env : Env) (fuel : ℕ) (m : Mach)
    (h : m.ecd.refresh_bleach_needed = false) :
    refreshBleachLoop env fuel m = (m, [], 0) := by
  cases fuel <;> simp [refreshBleachLoop, h]

/-- With no segment flagged for its direction, the COLOR retry loop exits
immediately: no events, zero iterations. -/
lemma refreshColorLoop_not_needed (env : Env) (fuel : ℕ) (m : Mach)
    (h : m.ecd.refresh_color_needed = false) :
    refreshColorLoop env fuel m = (m, [], 0) := by
  cases fuel <;> simp [refreshColorLoop, h]

/-- Without a stop request, the BLEACH retry loop ends either with the
escalation flag cleared or with the fuel exhausted. -/
lemma refreshBleachLoop_final (env : Env) (hstop : ∀ k, env.stops k = false) :
    ∀ (fuel : ℕ) (m : Mach),
      (refreshBleachLoop env fuel m).1.ecd.refresh_bleach_needed = false ∨
      (refreshBleachLoop env fuel m).2.2 = fuel := by
  intro fuel
  induction fuel with
  | zero => intro m; exact Or.inr rfl
  | succ fuel ih =>
    intro m
    rw [refreshBleachLoop]
    by_cases hn : m.ecd.refresh_bleach_needed
    · simp only [hn, if_true, pollStop, hstop, Bool.false_eq_true, if_false]
      rcases ih _ with h | h
      · exact Or.inl h
      · exact Or.inr (by rw [h])
    · simp [hn]

/-- Without a stop request, the COLOR retry loop ends either with the
escalation flag cleared or with the fuel exhausted. -/
lemma refreshColorLoop_final (env : Env) (hstop : ∀ k, env.stops k = false) :
    ∀ (fuel : ℕ) (m : Mach),
      (refreshColorLoop env fuel m).1.ecd.refresh_color_needed = false ∨
      (refreshColorLoop env fuel m).2.2 = fuel := by
  intro fuel
  induction fuel with
  | zero => intro m; exact Or.inr rfl
  | succ fuel ih =>
    intro m
    rw [refreshColorLoop]
    by_cases hn : m.ecd.refresh_color_needed
    · simp only [hn, if_true, pollStop, hstop, Bool.false_eq_true, if_false]
      rcases ih _ with h | h
      · exact Or.inl h
      · exact Or.inr (by rw [h])
    · simp [hn]

/-- Through a whole BLEACH re-check pass, a hostile flagged segment — whose
pin always samples above `BleachLimitLow` — stays flagged, and once it is
processed (or the flag was already up) the escalation flag is up. -/
lemma bleachRecheck_fold_hostile (env : Env) (i0 : ℕ) (p : ℤ) (L : ℚ)
    (hp : ∀ k, (env.reads k p : ℚ) > L) :
    ∀ (l : List ℕ) (m : Mach),
      m.ecd.currentState i0 = SegState.bleach →
      m.ecd.refreshSegmentNeeded i0 = true →
      m.ecd.segmentPinsList i0 = p →
      m.ecd.refreshBleachLimitL = L →
      ((l.foldl (bleachRecheckStep env) m).ecd.refreshSegmentNeeded i0 = true ∧
       (i0 ∈ l → (l.foldl (bleachRecheckStep env) m).ecd.refresh_bleach_needed = true) ∧
       (m.ecd.refresh_bleach_needed = true →
        (l.foldl (bleachRecheckStep env) m).ecd.refresh_bleach_needed = true)) := by
  intro l
  induction l with
  | nil => exact fun m _ hf _ _ => ⟨hf, fun h => absurd h (List.not_mem_nil i0), fun h => h⟩
  | cons a l ih =>
    intro m hc hf hpin hlim
    rw [List.foldl_cons]
    obtain ⟨f1, f2, -, f4, -, -, -, -, -, -, f11, -, -, -, -, -, -⟩ :=
      bleachRecheckStep_frame env m a
    have hc1 : (bleachRecheckStep env m a).ecd.currentState i0 = SegState.bleach := by
      rw [f1]; exact hc
    have hpin1 : (bleachRecheckStep env m a).ecd.segmentPinsList i0 = p := by
      rw [f4]; exact hpin
    have hlim1 : (bleachRecheckStep env m a).ecd.refreshBleachLimitL = L := by
      rw [f11]; exact hlim
    by_cases hai : a = i0
    · subst hai
      have hstep := bleachRecheckStep_hostile env m a hc hf
        (fun k => by rw [hpin, hlim]; exact hp k)
      obtain ⟨hsf, hsn⟩ := hstep
      obtain ⟨g1, g2, g3⟩ := ih (bleachRecheckStep env m a) hc1 hsf hpin1 hlim1
      exact ⟨g1, fun _ => g3 hsn, fun _ => g3 hsn⟩
    · have hf1 : (bleachRecheckStep env m a).ecd.refreshSegmentNeeded i0 = true := by
        rw [bleachRecheckStep_flag_other env m a i0 (Ne.symm hai)]
        exact hf
      obtain ⟨g1, g2, g3⟩ := ih (bleachRecheckStep env m a) hc1 hf1 hpin1 hlim1
      refine ⟨g1, ?_, fun h => g3 (bleachRecheckStep_needed_mono env m a h)⟩
      intro hmem
      rcases List.mem_cons.mp hmem with h | h
      · exact absurd h.symm hai
      · exact g2 h

/-- Through a whole COLOR re-check pass, a hostile flagged segment — whose
pin always samples below `ColorLimitHigh` — stays flagged, and once it is
processed (or the flag was already up) the escalation flag is up. -/
lemma colorRecheck_fold_hostile (env : Env) (i0 : ℕ) (p : ℤ) (L : ℚ)
    (hp : ∀ k, (env.reads k p : ℚ) < L) :
    ∀ (l : List ℕ) (m : Mach),
      m.ecd.currentState i0 = SegState.color →
      m.ecd.refreshSegmentNeeded i0 = true →
      m.ecd.segmentPinsList i0 = p →
      m.ecd.refreshColorLimitH = L →
      ((l.foldl (colorRecheckStep env) m).ecd.refreshSegmentNeeded i0 = true ∧
       (i0 ∈ l → (l.foldl (colorRecheckStep env) m).ecd.refresh_color_needed = true) ∧
       (m.ecd.refresh_color_needed = true →
        (l.foldl (colorRecheckStep env) m).ecd.refresh_color_needed = true)) := by
  intro l
  induction l with
  | nil => exact fun m _ hf _ _ => ⟨hf, fun h => absurd h (List.not_mem_nil i0), fun h => h⟩
  | cons a l ih =>
    intro m hc hf hpin hlim
    rw [List.foldl_cons]
    obtain ⟨f1, f2, -, f4, -, -, f7, -, -, -, -, -, -, -, -, -, -⟩ :=
      colorRecheckStep_frame env m a
    have hc1 : (colorRecheckStep env m a).ecd.currentState i0 = SegState.color := by
      rw [f1]; exact hc
    have hpin1 : (colorRecheckStep env m a).ecd.segmentPinsList i0 = p := by
      rw [f4]; exact hpin
    have hlim1 : (colorRecheckStep env m a).ecd.refreshColorLimitH = L := by
      rw [f7]; exact hlim
    by_cases hai : a = i0
    · subst hai
      have hstep := colorRecheckStep_hostile env m a hc hf
        (fun k => by rw [hpin, hlim]; exact hp k)
      obtain ⟨hsf, hsn⟩ := hstep
      obtain ⟨g1, g2, g3⟩ := ih (colorRecheckStep env m a) hc1 hsf hpin1 hlim1
      exact ⟨g1, fun _ => g3 hsn, fun _ => g3 hsn⟩
    · have hf1 : (colorRecheckStep env m a).ecd.refreshSegmentNeeded i0 = true := by
        rw [colorRecheckStep_flag_other env m a i0 (Ne.symm hai)]
        exact hf
      obtain ⟨g1, g2, g3⟩ := ih (colorRecheckStep env m a) hc1 hf1 hpin1 hlim1
      refine ⟨g1, ?_, fun h => g3 (colorRecheckStep_needed_mono env m a h)⟩
      intro hmem
      rcases List.mem_cons.mp hmem with h | h
      · exact absurd h.symm hai
      · exact g2 h

/-- A BLEACH re-check pass keeps a hostile flagged segment flagged and
leaves the escalation flag raised. -/
lemma bleachRecheckPass_hostile (env : Env) (i0 : ℕ) (p : ℤ) (L : ℚ)
    (hp : ∀ k, (env.reads k p : ℚ) > L) (M : Mach)
    (hc : M.ecd.currentState i0 = SegState.bleach)
    (hf : M.ecd.refreshSegmentNeeded i0 = true)
    (hpin : M.ecd.segmentPinsList i0 = p)
    (hlim : M.ecd.refreshBleachLimitL = L)
    (hi : i0 < M.ecd.numberOfSegments) :
    (bleachRecheckPass env M).ecd.currentState i0 = SegState.bleach ∧
    (bleachRecheckPass env M).ecd.refreshSegmentNeeded i0 = true ∧
    (bleachRecheckPass env M).ecd.segmentPinsList i0 = p ∧
    (bleachRecheckPass env M).ecd.refreshBleachLimitL = L ∧
    i0 < (bleachRecheckPass env M).ecd.numberOfSegments ∧
    (bleachRecheckPass env M).ecd.refresh_bleach_needed = true := by
  obtain ⟨B1, B2, -⟩ := bleachRecheck_fold_hostile env i0 p L hp
    (List.range M.ecd.numberOfSegments)
    { M with ecd := { M.ecd with refresh_bleach_needed := false } } hc hf hpin hlim
  obtain ⟨F1, -, F3, F4, -, -, -, -, -, -, F11, -, -, -, -, -, -⟩ :=
    bleachRecheckStep_fold_frame env (List.range M.ecd.numberOfSegments)
      { M with ecd := { M.ecd with refresh_bleach_needed := false } }
  have hmem : i0 ∈ List.range M.ecd.numberOfSegments := List.mem_range.mpr hi
  exact ⟨(congrFun F1 i0).trans hc, B1, (congrFun F4 i0).trans hpin, F11.trans hlim,
    lt_of_lt_of_eq hi F3.symm, B2 hmem⟩

/-- A COLOR re-check pass keeps a hostile flagged segment flagged and
leaves the escalation flag raised. -/
lemma colorRecheckPass_hostile (env : Env) (i0 : ℕ) (p : ℤ) (L : ℚ)
    (hp : ∀ k, (env.reads k p : ℚ) < L) (M : Mach)
    (hc : M.ecd.currentState i0 = SegState.color)
    (hf : M.ecd.refreshSegmentNeeded i0 = true)
    (hpin : M.ecd.segmentPinsList i0 = p)
    (hlim : M.ecd.refreshColorLimitH = L)
    (hi : i0 < M.ecd.numberOfSegments) :
    (colorRecheckPass env M).ecd.currentState i0 = SegState.color ∧
    (colorRecheckPass env M).ecd.refreshSegmentNeeded i0 = true ∧
    (colorRecheckPass env M).ecd.segmentPinsList i0 = p ∧
    (colorRecheckPass env M).ecd.refreshColorLimitH = L ∧
    i0 < (colorRecheckPass env M).ecd.numberOfSegments ∧
    (colorRecheckPass env M).ecd.refresh_color_needed = true := by
  obtain ⟨B1, B2, -⟩ := colorRecheck_fold_hostile env i0 p L hp
    (List.range M.ecd.numberOfSegments)
    { M with ecd := { M.ecd with refresh_color_needed := false } } hc hf hpin hlim
  obtain ⟨F1, -, F3, F4, -, -, F7, -, -, -, -, -, -, -, -, -, -⟩ :=
    colorRecheckStep_fold_frame env (List.range M.ecd.numberOfSegments)
      { M with ecd := { M.ecd with refresh_color_needed := false } }
  have hmem : i0 ∈ List.range M.ecd.numberOfSegments := List.mem_range.mpr hi
  exact ⟨(congrFun F1 i0).trans hc, B1, (congrFun F4 i0).trans hpin, F7.trans hlim,
    lt_of_lt_of_eq hi F3.symm, B2 hmem⟩

/-- With a hostile flagged Bleach segment and no stop request, the BLEACH
retry loop always runs its full fuel. -/
lemma refreshBleachLoop_hostile (env : Env) (hstop : ∀ k, env.stops k = false)
    (i0 : ℕ) (p : ℤ) (L : ℚ) (hp : ∀ k, (env.reads k p : ℚ) > L) :
    ∀ (fuel : ℕ) (m : Mach),
      m.ecd.currentState i0 = SegState.bleach →
      m.ecd.refreshSegmentNeeded i0 = true →
      m.ecd.segmentPinsList i0 = p →
      m.ecd.refreshBleachLimitL = L →
      i0 < m.ecd.numberOfSegments →
      m.ecd.refresh_bleach_needed = true →
      (refreshBleachLoop env fuel m).2.2 = fuel := by
  intro fuel
  induction fuel with
  | zero => intro m _ _ _ _ _ _; rfl
  | succ fuel ih =>
    intro m hc hf hpin hlim hi hn
    rw [refreshBleachLoop]
    simp only [hn, if_true, pollStop, hstop, Bool.false_eq_true, if_false, disableAllSegments]
    obtain ⟨c1, c2, c3, c4, c5, c6⟩ := bleachRecheckPass_hostile env i0 p L hp
      { ecd := m.ecd, readIdx := m.readIdx, pollIdx := m.pollIdx + 1 } hc hf hpin hlim hi
    have h := ih (bleachRecheckPass env
      { ecd := m.ecd, readIdx := m.readIdx, pollIdx := m.pollIdx + 1 }) c1 c2 c3 c4 c5 c6
    exact congrArg Nat.succ h

/-- With a hostile flagged Color segment and no stop request, the COLOR
retry loop always runs its full fuel. -/
lemma refreshColorLoop_hostile (env : Env) (hstop : ∀ k, env.stops k = false)
    (i0 : ℕ) (p : ℤ) (L : ℚ) (hp : ∀ k, (env.reads k p : ℚ) < L) :
    ∀ (fuel : ℕ) (m : Mach),
      m.ecd.currentState i0 = SegState.color →
      m.ecd.refreshSegmentNeeded i0 = true →
      m.ecd.segmentPinsList i0 = p →
      m.ecd.refreshColorLimitH = L →
      i0 < m.ecd.numberOfSegments →
      m.ecd.refresh_color_needed = true →
      (refreshColorLoop env fuel m).2.2 = fuel := by
  intro fuel
  induction fuel with
  | zero => intro m _ _ _ _ _ _; rfl
  | succ fuel ih =>
    intro m hc hf hpin hlim hi hn
    rw [refreshColorLoop]
    simp only [hn, if_true, pollStop, hstop, Bool.false_eq_true, if_false, disableAllSegments]
    obtain ⟨c1, c2, c3, c4, c5, c6⟩ := colorRecheckPass_hostile env i0 p L hp
      { ecd := m.ecd, readIdx := m.readIdx, pollIdx := m.pollIdx + 2 } hc hf hpin hlim hi
    have h := ih (colorRecheckPass env
      { ecd := m.ecd, readIdx := m.readIdx, pollIdx := m.pollIdx + 2 }) c1 c2 c3 c4 c5 c6
    exact congrArg Nat.succ h

/-- Fields of the engine that `setSegmentState` never writes. -/
lemma setSegmentState_frame (i : ℕ) (s : Bool) (e : YNV_ECD) :
    (setSegmentState i s e).currentState = e.currentState ∧
    (setSegmentState i s e).numberOfSegments = e.numberOfSegments ∧
    (setSegmentState i s e).segmentPinsList = e.segmentPinsList ∧
    (setSegmentState i s e).refreshSegmentNeeded = e.refreshSegmentNeeded ∧
    (setSegmentState i s e).minBleachOcpLSB = e.minBleachOcpLSB ∧
    (setSegmentState i s e).refresh_color_needed = e.refresh_color_needed ∧
    (setSegmentState i s e).refresh_bleach_needed = e.refresh_bleach_needed ∧
    (setSegmentState i s e).cfg = e.cfg ∧
    (setSegmentState i s e).supplyVoltage = e.supplyVoltage := by
  unfold setSegmentState
  split_ifs <;> cases s <;>
    exact ⟨rfl, rfl, rfl, rfl, rfl, rfl, rfl, rfl, rfl⟩

/-- The next-state entry written by one request. -/
lemma setSegmentState_nextState (i : ℕ) (s : Bool) (e : YNV_ECD) (j : ℕ) :
    (setSegmentState i s e).nextState j =
      (if stateOfBool s ≠ e.currentState i ∧ j = i then stateOfBool s else e.nextState j) := by
  unfold setSegmentState
  by_cases hacc : e.currentState i ≠ stateOfBool s
  · have hacc' : stateOfBool s ≠ e.currentState i := Ne.symm hacc
    cases s <;> by_cases hj : j = i <;>
      simp_all [updState]
  · push_neg at hacc
    have hacc2 : ¬(e.currentState i ≠ stateOfBool s) := by
      rw [hacc]
      exact fun h => h rfl
    have hno : ¬(stateOfBool s ≠ e.currentState i ∧ j = i) := by
      intro h
      exact absurd hacc.symm h.1
    simp [hacc2, hno]

/-- The pending flags raised by one request. -/
lemma setSegmentState_flags (i : ℕ) (s : Bool) (e : YNV_ECD) :
    (setSegmentState i s e).bleachRequiredFlag =
      (e.bleachRequiredFlag || (decide (stateOfBool s ≠ e.currentState i) && !s)) ∧
    (setSegmentState i s e).colorRequiredFlag =
      (e.colorRequiredFlag || (decide (stateOfBool s ≠ e.currentState i) && s)) := by
  unfold setSegmentState
  by_cases hacc : e.currentState i ≠ stateOfBool s
  · have hacc' : stateOfBool s ≠ e.currentState i := Ne.symm hacc
    cases s <;> simp [hacc, hacc']
  · push_neg at hacc
    have hacc' : ¬(stateOfBool s ≠ e.currentState i) := by
      rw [hacc]
      exact fun h => h rfl
    cases s <;> simp [hacc, hacc']

/-- `requestsFor` on a cons. -/
lemma requestsFor_cons (i : ℕ) (r : ℕ × Bool) (rs : List (ℕ × Bool)) :
    requestsFor i (r :: rs) =
      (if r.1 = i then r.2 :: requestsFor i rs else requestsFor i rs) := by
  rw [requestsFor, requestsFor]
  by_cases h : r.1 = i
  · simp [List.filter_cons, h]
  · simp [List.filter_cons, h]

/-- Characterization of a whole request sequence: the current state is
untouched, the surviving next state of each segment is the fold of its
accepted requests, and each pending flag is its old value or-ed with the
presence of an accepted request in its direction. -/
lemma applyRequests_char :
    ∀ (reqs : List (ℕ × Bool)) (e : YNV_ECD),
      ((applyRequests e reqs).currentState = e.currentState) ∧
      ((applyRequests e reqs).numberOfSegments = e.numberOfSegments) ∧
      (∀ i, (applyRequests e reqs).nextState i =
        (requestsFor i reqs).foldl
          (fun v s => if stateOfBool s ≠ e.currentState i then stateOfBool s else v)
          (e.nextState i)) ∧
      ((applyRequests e reqs).bleachRequiredFlag =
        (e.bleachRequiredFlag ||
          reqs.any (fun r => decide (stateOfBool r.2 ≠ e.currentState r.1) && !r.2))) ∧
      ((applyRequests e reqs).colorRequiredFlag =
        (e.colorRequiredFlag ||
          reqs.any (fun r => decide (stateOfBool r.2 ≠ e.currentState r.1) && r.2))) := by
  intro reqs
  induction reqs with
  | nil => exact fun e => ⟨rfl, rfl, fun i => rfl, by simp [applyRequests], by simp [applyRequests]⟩
  | cons r rs ih =>
    intro e
    have hstep : applyRequests e (r :: rs) = applyRequests (setSegmentState r.1 r.2 e) rs := rfl
    obtain ⟨scur, snum, -, -, -, -, -, -, -⟩ := setSegmentState_frame r.1 r.2 e
    obtain ⟨ih1, ih2, ih3, ih4, ih5⟩ := ih (setSegmentState r.1 r.2 e)
    refine ⟨?_, ?_, ?_, ?_, ?_⟩
    · rw [hstep, ih1, scur]
    · rw [hstep, ih2, snum]
    · intro i
      rw [hstep, ih3 i, requestsFor_cons]
      by_cases hr : r.1 = i
      · rw [if_pos hr, List.foldl_cons]
        congr 1
        · funext v s
          rw [scur]
        · rw [setSegmentState_nextState, hr]
          by_cases hacc : stateOfBool r.2 ≠ e.currentState i
          · simp [hacc]
          · simp [hacc]
      · rw [if_neg hr]
        congr 1
        · funext v s
          rw [scur]
        · rw [setSegmentState_nextState]
          have : ¬(stateOfBool r.2 ≠ e.currentState r.1 ∧ i = r.1) := by
            intro h
            exact hr (h.2.symm)
          simp [this]
    · rw [hstep, ih4, (setSegmentState_flags r.1 r.2 e).1, scur, List.any_cons]
      simp [Bool.or_assoc, Bool.or_comm, Bool.or_left_comm]
    · rw [hstep, ih5, (setSegmentState_flags r.1 r.2 e).2, scur, List.any_cons]
      simp [Bool.or_assoc, Bool.or_comm, Bool.or_left_comm]

/-- `lastAccepted` over a request run extended by one more request. -/
lemma lastAccepted_append (cur : SegState) (l : List Bool) (s : Bool) :
    lastAccepted cur (l ++ [s]) =
      (if stateOfBool s ≠ cur then some s else lastAccepted cur l) := by
  unfold lastAccepted
  rw [List.foldl_append]
  rfl

/-- The fold that `applyRequests` leaves in a segment's next state equals the
last request whose state differed from the segment's current state, or the
initial next state when no request differed. -/
lemma foldl_lastAccepted (cur : SegState) (l : List Bool) (init : SegState) :
    l.foldl (fun v s => if stateOfBool s ≠ cur then stateOfBool s else v) init =
      (match lastAccepted cur l with
       | some s => stateOfBool s
       | none => init) := by
  induction l using List.reverseRecOn with
  | nil => rfl
  | append_singleton l s ih =>
    rw [List.foldl_append, lastAccepted_append]
    simp only [List.foldl_cons, List.foldl_nil]
    by_cases h : stateOfBool s ≠ cur
    · rw [if_pos h, if_pos h]
    · rw [if_neg h, if_neg h, ih]

/-- A surviving accepted request differs from the segment's current state. -/
lemma lastAccepted_ne (cur : SegState) (l : List Bool) (s : Bool)
    (h : lastAccepted cur l = some s) : stateOfBool s ≠ cur := by
  induction l using List.reverseRecOn with
  | nil => simp [lastAccepted] at h
  | append_singleton l a ih =>
    rw [lastAccepted_append] at h
    by_cases ha : stateOfBool a ≠ cur
    · rw [if_pos ha] at h
      injection h with h2
      rw [← h2]
      exact ha
    · rw [if_neg ha] at h
      exact ih h

/-- A surviving accepted request was one of the submitted requests. -/
lemma lastAccepted_mem (cur : SegState) (l : List Bool) (s : Bool)
    (h : lastAccepted cur l = some s) : s ∈ l := by
  induction l using List.reverseRecOn with
  | nil => simp [lastAccepted] at h
  | append_singleton l a ih =>
    rw [lastAccepted_append] at h
    by_cases ha : stateOfBool a ≠ cur
    · rw [if_pos ha] at h
      injection h with h2
      rw [← h2]
      exact List.mem_append_right l (List.mem_singleton_self a)
    · rw [if_neg ha] at h
      exact List.mem_append_left _ (ih h)

/-- Membership transport from `requestsFor` back to the request list. -/
lemma mem_requestsFor (i : ℕ) (s : Bool) (reqs : List (ℕ × Bool))
    (h : s ∈ requestsFor i reqs) : (i, s) ∈ reqs := by
  unfold requestsFor at h
  rw [List.mem_map] at h
  obtain ⟨q, hq, hqs⟩ := h
  rw [List.mem_filter] at hq
  obtain ⟨hmem, hdec⟩ := hq
  have h1 : q.1 = i := by simpa using hdec
  have h2 : q = (i, s) := by
    rw [Prod.ext_iff]
    exact ⟨h1, hqs⟩
  rw [← h2]
  exact hmem

/-- The machine after `execute_bleach`, by cases on the pending flag and the
polled stop value. -/
lemma execute_bleach_mach (env : Env) (m : Mach) :
    (execute_bleach env m).1 =
      (if m.ecd.bleachRequiredFlag then
        (if env.stops m.pollIdx then { m with pollIdx := m.pollIdx + 1 }
         else
           { ecd := { m.ecd with
               currentState := phaseCurrent m.ecd.numberOfSegments m.ecd.currentState
                 m.ecd.nextState SegState.bleach
               bleachRequiredFlag := false }
             readIdx := m.readIdx
             pollIdx := m.pollIdx + 1 })
       else m) := by
  unfold execute_bleach
  simp only [pollStop, enableCounterElectrode, disableAllSegments]
  split_ifs <;> rfl

/-- The trace of `execute_bleach`, by cases on the pending flag and the
polled stop value. -/
lemma execute_bleach_trace (env : Env) (m : Mach) :
    (execute_bleach env m).2 =
      (if m.ecd.bleachRequiredFlag then
        (if env.stops m.pollIdx then [Event.poll (env.stops m.pollIdx)]
         else
           Event.poll (env.stops m.pollIdx) ::
           Event.ceDrive m.ecd.cfg.bleachingVoltage
             (truncQ ((ADC_DAC_MAX_LSB : ℚ) *
               (m.ecd.cfg.bleachingVoltage / m.ecd.supplyVoltage))) ::
           Event.delayMs 50 ::
           ((phasePulses m.ecd.numberOfSegments m.ecd.segmentPinsList m.ecd.currentState
               m.ecd.nextState SegState.bleach Event.segLow ++
             [Event.delayMs m.ecd.cfg.bleachingTime]) ++
            (List.range m.ecd.numberOfSegments).map
              (fun i => Event.segRelease (m.ecd.segmentPinsList i))))
       else []) := by
  unfold execute_bleach
  simp only [pollStop, enableCounterElectrode, disableAllSegments]
  split_ifs <;> rfl

/-- The machine after `execute_color`, by cases on the pending flag and the
polled stop value. -/
lemma execute_color_mach (env : Env) (m : Mach) :
    (execute_color env m).1 =
      (if m.ecd.colorRequiredFlag then
        (if env.stops m.pollIdx then { m with pollIdx := m.pollIdx + 1 }
         else
           { ecd := { m.ecd with
               currentState := phaseCurrent m.ecd.numberOfSegments m.ecd.currentState
                 m.ecd.nextState SegState.color
               colorRequiredFlag := false }
             readIdx := m.readIdx
             pollIdx := m.pollIdx + 1 })
       else m) := by
  unfold execute_color
  simp only [pollStop, enableCounterElectrode, disableAllSegments]
  split_ifs <;> rfl

/-- The trace of `execute_color`, by cases on the pending flag and the
polled stop value. -/
lemma execute_color_trace (env : Env) (m : Mach) :
    (execute_color env m).2 =
      (if m.ecd.colorRequiredFlag then
        (if env.stops m.pollIdx then [Event.poll (env.stops m.pollIdx)]
         else
           Event.poll (env.stops m.pollIdx) ::
           Event.ceDrive (m.ecd.supplyVoltage - m.ecd.cfg.coloringVoltage)
             (truncQ ((ADC_DAC_MAX_LSB : ℚ) *
               ((m.ecd.supplyVoltage - m.ecd.cfg.coloringVoltage) / m.ecd.supplyVoltage))) ::
           Event.delayMs 50 ::
           ((phasePulses m.ecd.numberOfSegments m.ecd.segmentPinsList m.ecd.currentState
               m.ecd.nextState SegState.color Event.segHigh ++
             [Event.delayMs m.ecd.cfg.coloringTime]) ++
            (List.range m.ecd.numberOfSegments).map
              (fun i => Event.segRelease (m.ecd.segmentPinsList i))))
       else []) := by
  unfold execute_color
  simp only [pollStop, enableCounterElectrode, disableAllSegments]
  split_ifs <;> rfl

/-- The machine after `check_refresh`, by cases on the polled stop value. -/
lemma check_refresh_mach (env : Env) (m : Mach) :
    (check_refresh env m).1 =
      (if env.stops m.pollIdx then
        { ecd := { m.ecd with
            minBleachOcpLSB := 1024
            refresh_color_needed := false
            refresh_bleach_needed := false }
          readIdx := m.readIdx
          pollIdx := m.pollIdx + 1 }
       else checkFold env m) := by
  unfold check_refresh
  simp only [pollStop, enableCounterElectrode, disableAllSegments, checkFold, checkEntry,
    checkBh]
  split_ifs <;> rfl

/-- `check_refresh` never writes the segment states or the segment count. -/
lemma check_refresh_cur (env : Env) (m : Mach) :
    ((check_refresh env m).1.ecd.currentState = m.ecd.currentState) ∧
    ((check_refresh env m).1.ecd.nextState = m.ecd.nextState) ∧
    ((check_refresh env m).1.ecd.numberOfSegments = m.ecd.numberOfSegments) := by
  rw [check_refresh_mach]
  split_ifs with h
  · exact ⟨rfl, rfl, rfl⟩
  · obtain ⟨c1, c2, c3, -⟩ := checkFold_fields env m
    exact ⟨c1, c2, c3⟩

/-- Fields of the engine that `execute_bleach` leaves unchanged when entered
with the stop flag clear. -/
lemma execute_bleach_fields (env : Env) (m : Mach) (h : env.stops m.pollIdx = false) :
    ((execute_bleach env m).1.ecd.nextState = m.ecd.nextState) ∧
    ((execute_bleach env m).1.ecd.numberOfSegments = m.ecd.numberOfSegments) ∧
    ((execute_bleach env m).1.ecd.colorRequiredFlag = m.ecd.colorRequiredFlag) := by
  rw [execute_bleach_mach]
  simp only [h, Bool.false_eq_true, if_false]
  split_ifs <;> exact ⟨rfl, rfl, rfl⟩

/-- The segment state written by `execute_bleach` at one index, when entered
with the stop flag clear: exactly the pending Bleach transitions commit. -/
lemma execute_bleach_cur_pt (env : Env) (m : Mach) (h : env.stops m.pollIdx = false)
    (i : ℕ) :
    (execute_bleach env m).1.ecd.currentState i =
      (if m.ecd.bleachRequiredFlag = true ∧ i < m.ecd.numberOfSegments ∧
          m.ecd.nextState i ≠ m.ecd.currentState i ∧ m.ecd.nextState i = SegState.bleach
       then m.ecd.nextState i else m.ecd.currentState i) := by
  rw [execute_bleach_mach]
  simp only [h, Bool.false_eq_true, if_false]
  by_cases hf : m.ecd.bleachRequiredFlag
  · simp only [hf, if_true]
    show phaseCurrent _ _ _ _ i = _
    unfold phaseCurrent
    simp [hf]
  · simp [hf]

/-- The segment state written by `execute_color` at one index, when entered
with the stop flag clear: exactly the pending Color transitions commit. -/
lemma execute_color_cur_pt (env : Env) (m : Mach) (h : env.stops m.pollIdx = false)
    (i : ℕ) :
    (execute_color env m).1.ecd.currentState i =
      (if m.ecd.colorRequiredFlag = true ∧ i < m.ecd.numberOfSegments ∧
          m.ecd.nextState i ≠ m.ecd.currentState i ∧ m.ecd.nextState i = SegState.color
       then m.ecd.nextState i else m.ecd.currentState i) := by
  rw [execute_color_mach]
  simp only [h, Bool.false_eq_true, if_false]
  by_cases hf : m.ecd.colorRequiredFlag
  · simp only [hf, if_true]
    show phaseCurrent _ _ _ _ i = _
    unfold phaseCurrent
    simp [hf]
  · simp [hf]

/-- Fields of the machine that a whole COLOR re-check pass never writes. -/
lemma colorRecheckPass_frame (env : Env) (m : Mach) :
    ((colorRecheckPass env m).ecd.currentState = m.ecd.currentState) ∧
    ((colorRecheckPass env m).ecd.nextState = m.ecd.nextState) ∧
    ((colorRecheckPass env m).ecd.numberOfSegments = m.ecd.numberOfSegments) ∧
    ((colorRecheckPass env m).ecd.segmentPinsList = m.ecd.segmentPinsList) ∧
    ((colorRecheckPass env m).pollIdx = m.pollIdx) := by
  simp only [colorRecheckPass]
  obtain ⟨c1, c2, c3, c4, -, -, -, -, -, -, -, -, -, -, -, -, c17⟩ :=
    colorRecheckStep_fold_frame env
      (List.range ({ m with ecd := { m.ecd with refresh_color_needed := false } } :
        Mach).ecd.numberOfSegments)
      { m with ecd := { m.ecd with refresh_color_needed := false } }
  exact ⟨c1, c2, c3, c4, c17⟩

/-- Fields of the machine that a whole BLEACH re-check pass never writes. -/
lemma bleachRecheckPass_frame (env : Env) (m : Mach) :
    ((bleachRecheckPass env m).ecd.currentState = m.ecd.currentState) ∧
    ((bleachRecheckPass env m).ecd.nextState = m.ecd.nextState) ∧
    ((bleachRecheckPass env m).ecd.numberOfSegments = m.ecd.numberOfSegments) ∧
    ((bleachRecheckPass env m).ecd.segmentPinsList = m.ecd.segmentPinsList) ∧
    ((bleachRecheckPass env m).pollIdx = m.pollIdx) := by
  simp only [bleachRecheckPass]
  obtain ⟨c1, c2, c3, c4, -, -, -, -, -, -, -, -, -, -, -, -, c17⟩ :=
    bleachRecheckStep_fold_frame env
      (List.range ({ m with ecd := { m.ecd with refresh_bleach_needed := false } } :
        Mach).ecd.numberOfSegments)
      { m with ecd := { m.ecd with refresh_bleach_needed := false } }
  exact ⟨c1, c2, c3, c4, c17⟩

/-- The COLOR retry loop never writes the segment states, the segment count
or the pin list, and only advances the poll position. -/
lemma refreshColorLoop_frame (env : Env) :
    ∀ (fuel : ℕ) (m : Mach),
      ((refreshColorLoop env fuel m).1.ecd.currentState = m.ecd.currentState) ∧
      ((refreshColorLoop env fuel m).1.ecd.nextState = m.ecd.nextState) ∧
      ((refreshColorLoop env fuel m).1.ecd.numberOfSegments = m.ecd.numberOfSegments) ∧
      ((refreshColorLoop env fuel m).1.ecd.segmentPinsList = m.ecd.segmentPinsList) ∧
      (m.pollIdx ≤ (refreshColorLoop env fuel m).1.pollIdx) := by
  intro fuel
  induction fuel with
  | zero => intro m; exact ⟨rfl, rfl, rfl, rfl, Nat.le_refl _⟩
  | succ fuel ih =>
    intro m
    rw [refreshColorLoop]
    by_cases hn : m.ecd.refresh_color_needed
    · simp only [hn, if_true, pollStop]
      by_cases hb : env.stops m.pollIdx
      · simp only [hb, if_true]
        refine ⟨?_, ?_, ?_, ?_, ?_⟩ <;> first | trivial | omega
      · by_cases hb2 : env.stops (m.pollIdx + 1)
        · simp only [hb, Bool.false_eq_true, if_false, hb2, if_true]
          refine ⟨?_, ?_, ?_, ?_, ?_⟩ <;> first | trivial | omega
        · simp only [hb, hb2, Bool.false_eq_true, if_false]
          have hp := colorRecheckPass_frame env
            { ecd := m.ecd, readIdx := m.readIdx, pollIdx := m.pollIdx + 2 }
          obtain ⟨i1, i2, i3, i4, i5⟩ := ih (colorRecheckPass env
            { ecd := m.ecd, readIdx := m.readIdx, pollIdx := m.pollIdx + 2 })
          refine ⟨i1.trans hp.1, i2.trans hp.2.1, i3.trans hp.2.2.1,
            i4.trans hp.2.2.2.1, ?_⟩
          have h6 : m.pollIdx ≤ (colorRecheckPass env
              { ecd := m.ecd, readIdx := m.readIdx, pollIdx := m.pollIdx + 2 }).pollIdx := by
            rw [hp.2.2.2.2]
            show m.pollIdx ≤ m.pollIdx + 2
            omega
          exact h6.trans i5
    · simp only [hn, Bool.false_eq_true, if_false]
      refine ⟨?_, ?_, ?_, ?_, ?_⟩ <;> first | trivial | omega

/-- The BLEACH retry loop never writes the segment states, the segment count
or the pin list, and only advances the poll position. -/
lemma refreshBleachLoop_frame (env : Env) :
    ∀ (fuel : ℕ) (m : Mach),
      ((refreshBleachLoop env fuel m).1.ecd.currentState = m.ecd.currentState) ∧
      ((refreshBleachLoop env fuel m).1.ecd.nextState = m.ecd.nextState) ∧
      ((refreshBleachLoop env fuel m).1.ecd.numberOfSegments = m.ecd.numberOfSegments) ∧
      ((refreshBleachLoop env fuel m).1.ecd.segmentPinsList = m.ecd.segmentPinsList) ∧
      (m.pollIdx ≤ (refreshBleachLoop env fuel m).1.pollIdx) := by
  intro fuel
  induction fuel with
  | zero => intro m; exact ⟨rfl, rfl, rfl, rfl, Nat.le_refl _⟩
  | succ fuel ih =>
    intro m
    rw [refreshBleachLoop]
    by_cases hn : m.ecd.refresh_bleach_needed
    · simp only [hn, if_true, pollStop]
      by_cases hb : env.stops m.pollIdx
      · simp only [hb, if_true]
        refine ⟨?_, ?_, ?_, ?_, ?_⟩ <;> first | trivial | omega
      · simp only [hb, Bool.false_eq_true, if_false]
        have hp := bleachRecheckPass_frame env
          { ecd := m.ecd, readIdx := m.readIdx, pollIdx := m.pollIdx + 1 }
        obtain ⟨i1, i2, i3, i4, i5⟩ := ih (bleachRecheckPass env
          { ecd := m.ecd, readIdx := m.readIdx, pollIdx := m.pollIdx + 1 })
        refine ⟨i1.trans hp.1, i2.trans hp.2.1, i3.trans hp.2.2.1,
          i4.trans hp.2.2.2.1, ?_⟩
        have h6 : m.pollIdx ≤ (bleachRecheckPass env
            { ecd := m.ecd, readIdx := m.readIdx, pollIdx := m.pollIdx + 1 }).pollIdx := by
          rw [hp.2.2.2.2]
          show m.pollIdx ≤ m.pollIdx + 1
          omega
        exact h6.trans i5
    · simp only [hn, Bool.false_eq_true, if_false]
      refine ⟨?_, ?_, ?_, ?_, ?_⟩ <;> first | trivial | omega

/-- `refreshColor` never writes the segment states or the segment count. -/
lemma refreshColor_frame (env : Env) (m : Mach) :
    ((refreshColor env m).1.ecd.currentState = m.ecd.currentState) ∧
    ((refreshColor env m).1.ecd.nextState = m.ecd.nextState) ∧
    ((refreshColor env m).1.ecd.numberOfSegments = m.ecd.numberOfSegments) := by
  unfold refreshColor
  simp only [pollStop, enableCounterElectrode]
  by_cases hb : env.stops m.pollIdx
  · simp only [hb, if_true]
    refine ⟨?_, ?_, ?_⟩ <;> trivial
  · simp only [hb, Bool.false_eq_true, if_false]
    obtain ⟨i1, i2, i3, -, -⟩ := refreshColorLoop_frame env MAX_REFRESH_RETRIES
      { ecd := m.ecd, readIdx := m.readIdx, pollIdx := m.pollIdx + 1 }
    exact ⟨i1, i2, i3⟩

/-- `refreshBleach` never writes the segment states or the segment count. -/
lemma refreshBleach_frame (env : Env) (m : Mach) :
    ((refreshBleach env m).1.ecd.currentState = m.ecd.currentState) ∧
    ((refreshBleach env m).1.ecd.nextState = m.ecd.nextState) ∧
    ((refreshBleach env m).1.ecd.numberOfSegments = m.ecd.numberOfSegments) := by
  unfold refreshBleach
  simp only [pollStop, enableCounterElectrode]
  by_cases hb : env.stops m.pollIdx
  · simp only [hb, if_true]
    refine ⟨?_, ?_, ?_⟩ <;> trivial
  · simp only [hb, Bool.false_eq_true, if_false]
    obtain ⟨i1, i2, i3, -, -⟩ := refreshBleachLoop_frame env MAX_REFRESH_RETRIES
      { ecd := m.ecd, readIdx := m.readIdx, pollIdx := m.pollIdx + 1 }
    exact ⟨i1, i2, i3⟩

/-- `execute_refresh` never writes the segment states or the segment count. -/
lemma execute_refresh_frame (env : Env) (m : Mach) :
    ((execute_refresh env m).1.ecd.currentState = m.ecd.currentState) ∧
    ((execute_refresh env m).1.ecd.nextState = m.ecd.nextState) ∧
    ((execute_refresh env m).1.ecd.numberOfSegments = m.ecd.numberOfSegments) := by
  have hcr : ∀ (mm : Mach),
      (((if mm.ecd.refresh_color_needed then refreshColor env mm
          else (mm, [], 0)).1.ecd.currentState = mm.ecd.currentState) ∧
       ((if mm.ecd.refresh_color_needed then refreshColor env mm
          else (mm, [], 0)).1.ecd.nextState = mm.ecd.nextState) ∧
       ((if mm.ecd.refresh_color_needed then refreshColor env mm
          else (mm, [], 0)).1.ecd.numberOfSegments = mm.ecd.numberOfSegments)) := by
    intro mm
    split_ifs with hf
    · exact refreshColor_frame env mm
    · exact ⟨rfl, rfl, rfl⟩
  have hbr : ∀ (mm : Mach),
      (((if mm.ecd.refresh_bleach_needed then refreshBleach env mm
          else (mm, [], 0)).1.ecd.currentState = mm.ecd.currentState) ∧
       ((if mm.ecd.refresh_bleach_needed then refreshBleach env mm
          else (mm, [], 0)).1.ecd.nextState = mm.ecd.nextState) ∧
       ((if mm.ecd.refresh_bleach_needed then refreshBleach env mm
          else (mm, [], 0)).1.ecd.numberOfSegments = mm.ecd.numberOfSegments)) := by
    intro mm
    split_ifs with hf
    · exact refreshBleach_frame env mm
    · exact ⟨rfl, rfl, rfl⟩
  simp only [execute_refresh]
  obtain ⟨a1, a2, a3⟩ := hcr m
  obtain ⟨b1, b2, b3⟩ :=
    hbr (if m.ecd.refresh_color_needed then refreshColor env m else (m, [], 0)).1
  exact ⟨b1.trans a1, b2.trans a2, b3.trans a3⟩

/-- The final machine of `executeDisplay` is the one left by its four
phases; the trailing counter-electrode release does not touch it. -/
lemma executeDisplay_mach (env : Env) (m : Mach) :
    (executeDisplay env m).1 =
      (execute_refresh env
        (check_refresh env (execute_color env (execute_bleach env m).1).1).1).1 := rfl

/-- A trace with no positive stop observation trivially has no drive after a
stop. -/
lemma noDriveAfterStop_of_no_stop : ∀ (t : List Event), sawStop t = false →
    noDriveAfterStop t = true := by
  intro t
  induction t with
  | nil => intro h; rfl
  | cons ev t ih =>
    intro h
    rw [sawStop, List.any_cons, Bool.or_eq_false_iff] at h
    rw [noDriveAfterStop, h.1]
    simp only [Bool.false_eq_true, if_false]
    exact ih (by rw [sawStop]; exact h.2)

/-- `noDriveAfterStop` composes across concatenation: the suffix must be
drive-free whenever the prefix observed the stop request. -/
lemma noDriveAfterStop_append (t1 t2 : List Event)
    (h1 : noDriveAfterStop t1 = true) (h2 : noDriveAfterStop t2 = true)
    (h3 : sawStop t1 = true → t2.all (fun x => !isDrive x) = true) :
    noDriveAfterStop (t1 ++ t2) = true := by
  induction t1 with
  | nil => exact h2
  | cons ev t ih =>
    rw [List.cons_append, noDriveAfterStop]
    rw [noDriveAfterStop] at h1
    by_cases hev : isStopPoll ev
    · rw [if_pos hev] at h1 ⊢
      rw [List.all_append, h1, h3 (by simp [sawStop, hev])]
      rfl
    · rw [if_neg hev] at h1 ⊢
      exact ih h1 (fun hs => h3 (by simp [sawStop, List.any_cons]; right; rw [sawStop] at hs; simpa using hs))

/-- A single stop-flag observation is drive-free and stop-safe. -/
lemma noDriveAfterStop_single_poll (b : Bool) :
    noDriveAfterStop [Event.poll b] = true := by
  cases b <;> rfl

/-- The pulse list of a transition phase contains no stop observations. -/
lemma sawStop_phasePulses (n : ℕ) (pins : ℕ → ℤ) (cur nxt : ℕ → SegState)
    (tgt : SegState) (mk : ℤ → Event) (hmk : ∀ z, isStopPoll (mk z) = false) :
    sawStop (phasePulses n pins cur nxt tgt mk) = false := by
  rw [sawStop, List.any_eq_false]
  intro x hx
  rw [phasePulses, List.mem_filterMap] at hx
  obtain ⟨i, -, hi⟩ := hx
  split_ifs at hi
  · injection hi with hi2
    rw [← hi2, hmk]
    exact Bool.false_ne_true

/-- A release sweep contains no stop observations. -/
lemma sawStop_releases (l : List ℕ) (p : ℕ → ℤ) :
    sawStop (l.map (fun i => Event.segRelease (p i))) = false := by
  rw [sawStop, List.any_eq_false]
  intro x hx
  rw [List.mem_map] at hx
  obtain ⟨i, -, hi⟩ := hx
  rw [← hi]
  exact Bool.false_ne_true

/-- The COLOR refresh pulse list contains no stop observations. -/
lemma sawStop_colorPulses (e : YNV_ECD) : sawStop (colorPulseEvents e) = false := by
  rw [sawStop, List.any_eq_false]
  intro x hx
  rw [colorPulseEvents, List.mem_filterMap] at hx
  obtain ⟨i, -, hi⟩ := hx
  split_ifs at hi
  · injection hi with hi2
    rw [← hi2]
    exact Bool.false_ne_true

/-- The BLEACH refresh pulse list contains no stop observations. -/
lemma sawStop_bleachPulses (e : YNV_ECD) : sawStop (bleachPulseEvents e) = false := by
  rw [sawStop, List.any_eq_false]
  intro x hx
  rw [bleachPulseEvents, List.mem_filterMap] at hx
  obtain ⟨i, -, hi⟩ := hx
  split_ifs at hi
  · injection hi with hi2
    rw [← hi2]
    exact Bool.false_ne_true

/-- The trace of `check_refresh`, by cases on the polled stop value. -/
lemma check_refresh_trace (env : Env) (m : Mach) :
    (check_refresh env m).2 =
      (if env.stops m.pollIdx then [Event.poll (env.stops m.pollIdx)]
       else
         Event.poll (env.stops m.pollIdx) ::
         Event.ceDrive (m.ecd.supplyVoltage / 2)
           (truncQ ((ADC_DAC_MAX_LSB : ℚ) *
             (m.ecd.supplyVoltage / 2 / m.ecd.supplyVoltage))) ::
         Event.delayMs 50 ::
         (List.range (checkFold env m).ecd.numberOfSegments).map
           (fun i => Event.segRelease ((checkFold env m).ecd.segmentPinsList i))) := by
  unfold check_refresh
  simp only [pollStop, enableCounterElectrode, disableAllSegments, checkFold, checkEntry,
    checkBh]
  split_ifs <;> rfl

/-- Splitting a stop observation across a concatenation. -/
lemma sawStop_append_cases (t1 t2 : List Event) (h : sawStop (t1 ++ t2) = true) :
    sawStop t1 = true ∨ sawStop t2 = true := by
  rw [sawStop, List.any_append] at h
  rw [sawStop, sawStop]
  simpa using h

/-- Entered with the stop flag clear, `execute_bleach` records no positive
stop observation. -/
lemma execute_bleach_sawStop_false (env : Env) (m : Mach)
    (hb : env.stops m.pollIdx = false) :
    sawStop (execute_bleach env m).2 = false := by
  rw [execute_bleach_trace]
  by_cases hf : m.ecd.bleachRequiredFlag
  · simp only [hf, if_true, hb, Bool.false_eq_true, if_false]
    have hp := sawStop_phasePulses m.ecd.numberOfSegments m.ecd.segmentPinsList
      m.ecd.currentState m.ecd.nextState SegState.bleach Event.segLow (fun z => rfl)
    have hr := sawStop_releases (List.range m.ecd.numberOfSegments) m.ecd.segmentPinsList
    rw [sawStop] at hp hr ⊢
    simp [List.any_cons, List.any_append, isStopPoll, hp, hr]
  · simp [hf, sawStop]

/-- Entered with the stop flag clear, `execute_color` records no positive
stop observation. -/
lemma execute_color_sawStop_false (env : Env) (m : Mach)
    (hb : env.stops m.pollIdx = false) :
    sawStop (execute_color env m).2 = false := by
  rw [execute_color_trace]
  by_cases hf : m.ecd.colorRequiredFlag
  · simp only [hf, if_true, hb, Bool.false_eq_true, if_false]
    have hp := sawStop_phasePulses m.ecd.numberOfSegments m.ecd.segmentPinsList
      m.ecd.currentState m.ecd.nextState SegState.color Event.segHigh (fun z => rfl)
    have hr := sawStop_releases (List.range m.ecd.numberOfSegments) m.ecd.segmentPinsList
    rw [sawStop] at hp hr ⊢
    simp [List.any_cons, List.any_append, isStopPoll, hp, hr]
  · simp [hf, sawStop]

/-- Entered with the stop flag clear, `check_refresh` records no positive
stop observation. -/
lemma check_refresh_sawStop_false (env : Env) (m : Mach)
    (hb : env.stops m.pollIdx = false) :
    sawStop (check_refresh env m).2 = false := by
  rw [check_refresh_trace]
  simp only [hb, Bool.false_eq_true, if_false]
  have hr := sawStop_releases (List.range (checkFold env m).ecd.numberOfSegments)
    (checkFold env m).ecd.segmentPinsList
  rw [sawStop] at hr ⊢
  simp [List.any_cons, isStopPoll, hr]

/-- Cancellation discipline of `execute_bleach` under a monotone stop flag:
its trace never drives after a positive stop observation; a positive
observation means the flag is still set when the phase exits; and entered
with the flag already set it drives nothing and keeps every segment state. -/
lemma execute_bleach_stopspec (env : Env) (m : Mach)
    (hmono : ∀ j k, j ≤ k → env.stops j = true → env.stops k = true) :
    (noDriveAfterStop (execute_bleach env m).2 = true) ∧
    (sawStop (execute_bleach env m).2 = true →
      env.stops (execute_bleach env m).1.pollIdx = true) ∧
    (env.stops m.pollIdx = true →
      (((execute_bleach env m).2.all (fun x => !isDrive x) = true) ∧
       ((execute_bleach env m).1.ecd.currentState = m.ecd.currentState) ∧
       (env.stops (execute_bleach env m).1.pollIdx = true))) := by
  by_cases hb : env.stops m.pollIdx
  · rw [execute_bleach_trace, execute_bleach_mach]
    by_cases hf : m.ecd.bleachRequiredFlag
    · simp only [hf, if_true, hb, if_true]
      refine ⟨noDriveAfterStop_single_poll true, ?_, ?_⟩
      · intro h
        show env.stops (m.pollIdx + 1) = true
        exact hmono m.pollIdx (m.pollIdx + 1) (Nat.le_succ _) hb
      · intro h
        refine ⟨by trivial, by trivial, ?_⟩
        show env.stops (m.pollIdx + 1) = true
        exact hmono m.pollIdx (m.pollIdx + 1) (Nat.le_succ _) hb
    · simp only [hf, Bool.false_eq_true, if_false]
      exact ⟨by trivial, fun h => by simp [sawStop] at h, fun h => ⟨by trivial, by trivial, h⟩⟩
  · have hb2 : env.stops m.pollIdx = false := by simpa using hb
    have hsaw := execute_bleach_sawStop_false env m hb2
    refine ⟨noDriveAfterStop_of_no_stop _ hsaw, ?_, ?_⟩
    · intro h
      rw [hsaw] at h
      cases h
    · intro h
      exact absurd h hb

/-- Cancellation discipline of `execute_color` under a monotone stop flag. -/
lemma execute_color_stopspec (env : Env) (m : Mach)
    (hmono : ∀ j k, j ≤ k → env.stops j = true → env.stops k = true) :
    (noDriveAfterStop (execute_color env m).2 = true) ∧
    (sawStop (execute_color env m).2 = true →
      env.stops (execute_color env m).1.pollIdx = true) ∧
    (env.stops m.pollIdx = true →
      (((execute_color env m).2.all (fun x => !isDrive x) = true) ∧
       ((execute_color env m).1.ecd.currentState = m.ecd.currentState) ∧
       (env.stops (execute_color env m).1.pollIdx = true))) := by
  by_cases hb : env.stops m.pollIdx
  · rw [execute_color_trace, execute_color_mach]
    by_cases hf : m.ecd.colorRequiredFlag
    · simp only [hf, if_true, hb, if_true]
      refine ⟨noDriveAfterStop_single_poll true, ?_, ?_⟩
      · intro h
        show env.stops (m.pollIdx + 1) = true
        exact hmono m.pollIdx (m.pollIdx + 1) (Nat.le_succ _) hb
      · intro h
        refine ⟨by trivial, by trivial, ?_⟩
        show env.stops (m.pollIdx + 1) = true
        exact hmono m.pollIdx (m.pollIdx + 1) (Nat.le_succ _) hb
    · simp only [hf, Bool.false_eq_true, if_false]
      exact ⟨by trivial, fun h => by simp [sawStop] at h, fun h => ⟨by trivial, by trivial, h⟩⟩
  · have hb2 : env.stops m.pollIdx = false := by simpa using hb
    have hsaw := execute_color_sawStop_false env m hb2
    refine ⟨noDriveAfterStop_of_no_stop _ hsaw, ?_, ?_⟩
    · intro h
      rw [hsaw] at h
      cases h
    · intro h
      exact absurd h hb

/-- Cancellation discipline of `check_refresh` under a monotone stop flag. -/
lemma check_refresh_stopspec (env : Env) (m : Mach)
    (hmono : ∀ j k, j ≤ k → env.stops j = true → env.stops k = true) :
    (noDriveAfterStop (check_refresh env m).2 = true) ∧
    (sawStop (check_refresh env m).2 = true →
      env.stops (check_refresh env m).1.pollIdx = true) ∧
    (env.stops m.pollIdx = true →
      (((check_refresh env m).2.all (fun x => !isDrive x) = true) ∧
       ((check_refresh env m).1.ecd.currentState = m.ecd.currentState) ∧
       (env.stops (check_refresh env m).1.pollIdx = true))) := by
  by_cases hb : env.stops m.pollIdx
  · rw [check_refresh_trace, check_refresh_mach]
    simp only [hb, if_true]
    refine ⟨noDriveAfterStop_single_poll true, ?_, ?_⟩
    · intro h
      show env.stops (m.pollIdx + 1) = true
      exact hmono m.pollIdx (m.pollIdx + 1) (Nat.le_succ _) hb
    · intro h
      refine ⟨by trivial, by trivial, ?_⟩
      show env.stops (m.pollIdx + 1) = true
      exact hmono m.pollIdx (m.pollIdx + 1) (Nat.le_succ _) hb
  · have hb2 : env.stops m.pollIdx = false := by simpa using hb
    have hsaw := check_refresh_sawStop_false env m hb2
    have hpoll : (check_refresh env m).1.pollIdx = m.pollIdx + 1 := by
      rw [check_refresh_mach]
      simp only [hb2, Bool.false_eq_true, if_false]
      exact (checkFold_fields env m).2.2.2.2.2.2.2.2.1
    refine ⟨noDriveAfterStop_of_no_stop _ hsaw, ?_, ?_⟩
    · intro h
      rw [hsaw] at h
      cases h
    · intro h
      exact absurd h hb

/-- A trace with no positive stop observation has not seen one. -/
lemma not_sawStop_of_eq_false {t : List Event} (h : sawStop t = false) :
    ¬ (sawStop t = true) := by
  rw [h]
  exact Bool.false_ne_true

/-- Cancellation discipline of the COLOR retry loop under a monotone stop
flag. -/
lemma refreshColorLoop_stopspec (env : Env)
    (hmono : ∀ j k, j ≤ k → env.stops j = true → env.stops k = true) :
    ∀ (fuel : ℕ) (m : Mach),
      (noDriveAfterStop (refreshColorLoop env fuel m).2.1 = true) ∧
      (sawStop (refreshColorLoop env fuel m).2.1 = true →
        env.stops (refreshColorLoop env fuel m).1.pollIdx = true) ∧
      (env.stops m.pollIdx = true →
        (((refreshColorLoop env fuel m).2.1.all (fun x => !isDrive x) = true) ∧
         ((refreshColorLoop env fuel m).1.ecd.currentState = m.ecd.currentState) ∧
         (env.stops (refreshColorLoop env fuel m).1.pollIdx = true))) := by
  intro fuel
  induction fuel with
  | zero =>
    intro m
    refine ⟨rfl, ?_, fun h => ⟨rfl, rfl, h⟩⟩
    intro h
    exact nomatch h
  | succ fuel ih =>
    intro m
    rw [refreshColorLoop]
    by_cases hn : m.ecd.refresh_color_needed
    · simp only [hn, if_true, pollStop]
      by_cases hb : env.stops m.pollIdx
      · simp only [hb, if_true]
        refine ⟨noDriveAfterStop_single_poll true, ?_, ?_⟩
        · intro h
          show env.stops (m.pollIdx + 1) = true
          exact hmono m.pollIdx (m.pollIdx + 1) (Nat.le_succ _) hb
        · intro h
          refine ⟨by trivial, by trivial, ?_⟩
          show env.stops (m.pollIdx + 1) = true
          exact hmono m.pollIdx (m.pollIdx + 1) (Nat.le_succ _) hb
      · have hb' : env.stops m.pollIdx = false := by simpa using hb
        by_cases hb2 : env.stops (m.pollIdx + 1)
        · simp only [hb', Bool.false_eq_true, if_false, hb2, if_true]
          have hpre : sawStop ((([Event.poll false] ++ colorPulseEvents m.ecd) ++
              [Event.delayMs m.ecd.cfg.refreshColorPulseTime])) = false := by
            have hp := sawStop_colorPulses m.ecd
            rw [sawStop] at hp ⊢
            simp [List.any_append, List.any_cons, isStopPoll, hp]
          refine ⟨?_, ?_, ?_⟩
          · exact noDriveAfterStop_append _ _ (noDriveAfterStop_of_no_stop _ hpre)
              (noDriveAfterStop_single_poll true)
              (fun hs => absurd hs (not_sawStop_of_eq_false hpre))
          · intro h
            show env.stops (m.pollIdx + 1 + 1) = true
            exact hmono (m.pollIdx + 1) (m.pollIdx + 1 + 1) (Nat.le_succ _) hb2
          · intro h
            exact h.elim
        · have hb2' : env.stops (m.pollIdx + 1) = false := by simpa using hb2
          simp only [hb', hb2', Bool.false_eq_true, if_false]
          obtain ⟨iA, iB, iS⟩ := ih (colorRecheckPass env
            { ecd := m.ecd, readIdx := m.readIdx, pollIdx := m.pollIdx + 2 })
          have hpre : sawStop (((([Event.poll false] ++ colorPulseEvents m.ecd) ++
              [Event.delayMs m.ecd.cfg.refreshColorPulseTime]) ++ [Event.poll false]) ++
              (List.range m.ecd.numberOfSegments).map
                (fun i => Event.segRelease (m.ecd.segmentPinsList i))) = false := by
            have hp := sawStop_colorPulses m.ecd
            have hr := sawStop_releases (List.range m.ecd.numberOfSegments)
              m.ecd.segmentPinsList
            rw [sawStop] at hp hr ⊢
            simp [List.any_append, List.any_cons, isStopPoll, hp, hr]
          refine ⟨?_, ?_, ?_⟩
          · exact noDriveAfterStop_append _ _ (noDriveAfterStop_of_no_stop _ hpre) iA
              (fun hs => absurd hs (not_sawStop_of_eq_false hpre))
          · intro h
            rcases sawStop_append_cases _ _ h with h1 | h1
            · exact absurd h1 (not_sawStop_of_eq_false hpre)
            · exact iB h1
          · intro h
            exact h.elim
    · simp only [hn, Bool.false_eq_true, if_false]
      exact ⟨rfl, fun h => by simp [sawStop] at h, fun h => ⟨by trivial, by trivial, h⟩⟩

/-- Cancellation discipline of the BLEACH retry loop under a monotone stop
flag. -/
lemma refreshBleachLoop_stopspec (env : Env)
    (hmono : ∀ j k, j ≤ k → env.stops j = true → env.stops k = true) :
    ∀ (fuel : ℕ) (m : Mach),
      (noDriveAfterStop (refreshBleachLoop env fuel m).2.1 = true) ∧
      (sawStop (refreshBleachLoop env fuel m).2.1 = true →
        env.stops (refreshBleachLoop env fuel m).1.pollIdx = true) ∧
      (env.stops m.pollIdx = true →
        (((refreshBleachLoop env fuel m).2.1.all (fun x => !isDrive x) = true) ∧
         ((refreshBleachLoop env fuel m).1.ecd.currentState = m.ecd.currentState) ∧
         (env.stops (refreshBleachLoop env fuel m).1.pollIdx = true))) := by
  intro fuel
  induction fuel with
  | zero =>
    intro m
    refine ⟨rfl, ?_, fun h => ⟨rfl, rfl, h⟩⟩
    intro h
    exact nomatch h
  | succ fuel ih =>
    intro m
    rw [refreshBleachLoop]
    by_cases hn : m.ecd.refresh_bleach_needed
    · simp only [hn, if_true, pollStop]
      by_cases hb : env.stops m.pollIdx
      · simp only [hb, if_true]
        refine ⟨noDriveAfterStop_single_poll true, ?_, ?_⟩
        · intro h
          show env.stops (m.pollIdx + 1) = true
          exact hmono m.pollIdx (m.pollIdx + 1) (Nat.le_succ _) hb
        · intro h
          refine ⟨by trivial, by trivial, ?_⟩
          show env.stops (m.pollIdx + 1) = true
          exact hmono m.pollIdx (m.pollIdx + 1) (Nat.le_succ _) hb
      · have hb' : env.stops m.pollIdx = false := by simpa using hb
        simp only [hb', Bool.false_eq_true, if_false]
        obtain ⟨iA, iB, iS⟩ := ih (bleachRecheckPass env
          { ecd := m.ecd, readIdx := m.readIdx, pollIdx := m.pollIdx + 1 })
        have hpre : sawStop (((([Event.poll false] ++ bleachPulseEvents m.ecd) ++
            [Event.delayMs m.ecd.cfg.refreshBleachPulseTime]) ++
            (List.range m.ecd.numberOfSegments).map
              (fun i => Event.segRelease (m.ecd.segmentPinsList i)))) = false := by
          have hp := sawStop_bleachPulses m.ecd
          have hr := sawStop_releases (List.range m.ecd.numberOfSegments)
            m.ecd.segmentPinsList
          rw [sawStop] at hp hr ⊢
          simp [List.any_append, List.any_cons, isStopPoll, hp, hr]
        refine ⟨?_, ?_, ?_⟩
        · exact noDriveAfterStop_append _ _ (noDriveAfterStop_of_no_stop _ hpre) iA
            (fun hs => absurd hs (not_sawStop_of_eq_false hpre))
        · intro h
          rcases sawStop_append_cases _ _ h with h1 | h1
          · exact absurd h1 (not_sawStop_of_eq_false hpre)
          · exact iB h1
        · intro h
          exact h.elim
    · simp only [hn, Bool.false_eq_true, if_false]
      exact ⟨rfl, fun h => by simp [sawStop] at h, fun h => ⟨by trivial, by trivial, h⟩⟩

/-- Cancellation discipline of `refreshColor` under a monotone stop flag. -/
lemma refreshColor_stopspec (env : Env) (m : Mach)
    (hmono : ∀ j k, j ≤ k → env.stops j = true → env.stops k = true) :
    (noDriveAfterStop (refreshColor env m).2.1 = true) ∧
    (sawStop (refreshColor env m).2.1 = true →
      env.stops (refreshColor env m).1.pollIdx = true) ∧
    (env.stops m.pollIdx = true →
      (((refreshColor env m).2.1.all (fun x => !isDrive x) = true) ∧
       ((refreshColor env m).1.ecd.currentState = m.ecd.currentState) ∧
       (env.stops (refreshColor env m).1.pollIdx = true))) := by
  unfold refreshColor
  simp only [pollStop, enableCounterElectrode]
  by_cases hb : env.stops m.pollIdx
  · simp only [hb, if_true]
    refine ⟨noDriveAfterStop_single_poll true, ?_, ?_⟩
    · intro h
      show env.stops (m.pollIdx + 1) = true
      exact hmono m.pollIdx (m.pollIdx + 1) (Nat.le_succ _) hb
    · intro h
      refine ⟨by trivial, by trivial, ?_⟩
      show env.stops (m.pollIdx + 1) = true
      exact hmono m.pollIdx (m.pollIdx + 1) (Nat.le_succ _) hb
  · have hb' : env.stops m.pollIdx = false := by simpa using hb
    simp only [hb', Bool.false_eq_true, if_false]
    obtain ⟨iA, iB, iS⟩ := refreshColorLoop_stopspec env hmono MAX_REFRESH_RETRIES
      { ecd := m.ecd, readIdx := m.readIdx, pollIdx := m.pollIdx + 1 }
    have hpre : sawStop ([Event.poll false] ++
        [Event.ceDrive (m.ecd.supplyVoltage - m.ecd.cfg.refreshColoringVoltage)
          (truncQ ((ADC_DAC_MAX_LSB : ℚ) *
            ((m.ecd.supplyVoltage - m.ecd.cfg.refreshColoringVoltage) /
              m.ecd.supplyVoltage))),
         Event.delayMs 50]) = false := by
      rw [sawStop]
      simp [List.any_append, List.any_cons, isStopPoll]
    refine ⟨?_, ?_, ?_⟩
    · exact noDriveAfterStop_append _ _ (noDriveAfterStop_of_no_stop _ hpre) iA
        (fun hs => absurd hs (not_sawStop_of_eq_false hpre))
    · intro h
      rcases sawStop_append_cases _ _ h with h1 | h1
      · exact absurd h1 (not_sawStop_of_eq_false hpre)
      · exact iB h1
    · intro h
      exact h.elim

/-- Cancellation discipline of `refreshBleach` under a monotone stop flag. -/
lemma refreshBleach_stopspec (env : Env) (m : Mach)
    (hmono : ∀ j k, j ≤ k → env.stops j = true → env.stops k = true) :
    (noDriveAfterStop (refreshBleach env m).2.1 = true) ∧
    (sawStop (refreshBleach env m).2.1 = true →
      env.stops (refreshBleach env m).1.pollIdx = true) ∧
    (env.stops m.pollIdx = true →
      (((refreshBleach env m).2.1.all (fun x => !isDrive x) = true) ∧
       ((refreshBleach env m).1.ecd.currentState = m.ecd.currentState) ∧
       (env.stops (refreshBleach env m).1.pollIdx = true))) := by
  unfold refreshBleach
  simp only [pollStop, enableCounterElectrode]
  by_cases hb : env.stops m.pollIdx
  · simp only [hb, if_true]
    refine ⟨noDriveAfterStop_single_poll true, ?_, ?_⟩
    · intro h
      show env.stops (m.pollIdx + 1) = true
      exact hmono m.pollIdx (m.pollIdx + 1) (Nat.le_succ _) hb
    · intro h
      refine ⟨by trivial, by trivial, ?_⟩
      show env.stops (m.pollIdx + 1) = true
      exact hmono m.pollIdx (m.pollIdx + 1) (Nat.le_succ _) hb
  · have hb' : env.stops m.pollIdx = false := by simpa using hb
    simp only [hb', Bool.false_eq_true, if_false]
    obtain ⟨iA, iB, iS⟩ := refreshBleachLoop_stopspec env hmono MAX_REFRESH_RETRIES
      { ecd := m.ecd, readIdx := m.readIdx, pollIdx := m.pollIdx + 1 }
    have hpre : sawStop ([Event.poll false] ++
        [Event.ceDrive
          (if m.ecd.supplyVoltage / 2 - (m.ecd.minBleachOcpLSB : ℚ) * LSB_TO_VOLT_CONV >
              m.ecd.cfg.refreshBleachingVoltage then
            m.ecd.supplyVoltage / 2 - (m.ecd.minBleachOcpLSB : ℚ) * LSB_TO_VOLT_CONV
          else m.ecd.cfg.refreshBleachingVoltage)
          (truncQ ((ADC_DAC_MAX_LSB : ℚ) *
            ((if m.ecd.supplyVoltage / 2 -
                  (m.ecd.minBleachOcpLSB : ℚ) * LSB_TO_VOLT_CONV >
                m.ecd.cfg.refreshBleachingVoltage then
              m.ecd.supplyVoltage / 2 - (m.ecd.minBleachOcpLSB : ℚ) * LSB_TO_VOLT_CONV
            else m.ecd.cfg.refreshBleachingVoltage) / m.ecd.supplyVoltage))),
         Event.delayMs 50]) = false := by
      rw [sawStop]
      simp [List.any_append, List.any_cons, isStopPoll]
    refine ⟨?_, ?_, ?_⟩
    · exact noDriveAfterStop_append _ _ (noDriveAfterStop_of_no_stop _ hpre) iA
        (fun hs => absurd hs (not_sawStop_of_eq_false hpre))
    · intro h
      rcases sawStop_append_cases _ _ h with h1 | h1
      · exact absurd h1 (not_sawStop_of_eq_false hpre)
      · exact iB h1
    · intro h
      exact h.elim

/-- Cancellation discipline of `execute_refresh` under a monotone stop
flag. -/
lemma execute_refresh_stopspec (env : Env) (m : Mach)
    (hmono : ∀ j k, j ≤ k → env.stops j = true → env.stops k = true) :
    (noDriveAfterStop (execute_refresh env m).2 = true) ∧
    (sawStop (execute_refresh env m).2 = true →
      env.stops (execute_refresh env m).1.pollIdx = true) ∧
    (env.stops m.pollIdx = true →
      (((execute_refresh env m).2.all (fun x => !isDrive x) = true) ∧
       ((execute_refresh env m).1.ecd.currentState = m.ecd.currentState) ∧
       (env.stops (execute_refresh env m).1.pollIdx = true))) := by
  have hC : ∀ (mm : Mach),
      (noDriveAfterStop (if mm.ecd.refresh_color_needed then refreshColor env mm
        else (mm, [], 0)).2.1 = true) ∧
      (sawStop (if mm.ecd.refresh_color_needed then refreshColor env mm
        else (mm, [], 0)).2.1 = true →
        env.stops (if mm.ecd.refresh_color_needed then refreshColor env mm
          else (mm, [], 0)).1.pollIdx = true) ∧
      (env.stops mm.pollIdx = true →
        (((if mm.ecd.refresh_color_needed then refreshColor env mm
            else (mm, [], 0)).2.1.all (fun x => !isDrive x) = true) ∧
         ((if mm.ecd.refresh_color_needed then refreshColor env mm
            else (mm, [], 0)).1.ecd.currentState = mm.ecd.currentState) ∧
         (env.stops (if mm.ecd.refresh_color_needed then refreshColor env mm
            else (mm, [], 0)).1.pollIdx = true))) := by
    intro mm
    split_ifs with h
    · exact refreshColor_stopspec env mm hmono
    · exact ⟨rfl, fun h2 => by simp [sawStop] at h2, fun h2 => ⟨rfl, rfl, h2⟩⟩
  have hB : ∀ (mm : Mach),
      (noDriveAfterStop (if mm.ecd.refresh_bleach_needed then refreshBleach env mm
        else (mm, [], 0)).2.1 = true) ∧
      (sawStop (if mm.ecd.refresh_bleach_needed then refreshBleach env mm
        else (mm, [], 0)).2.1 = true →
        env.stops (if mm.ecd.refresh_bleach_needed then refreshBleach env mm
          else (mm, [], 0)).1.pollIdx = true) ∧
      (env.stops mm.pollIdx = true →
        (((if mm.ecd.refresh_bleach_needed then refreshBleach env mm
            else (mm, [], 0)).2.1.all (fun x => !isDrive x) = true) ∧
         ((if mm.ecd.refresh_bleach_needed then refreshBleach env mm
            else (mm, [], 0)).1.ecd.currentState = mm.ecd.currentState) ∧
         (env.stops (if mm.ecd.refresh_bleach_needed then refreshBleach env mm
            else (mm, [], 0)).1.pollIdx = true))) := by
    intro mm
    split_ifs with h
    · exact refreshBleach_stopspec env mm hmono
    · exact ⟨rfl, fun h2 => by simp [sawStop] at h2, fun h2 => ⟨rfl, rfl, h2⟩⟩
  obtain ⟨a1, a2, a3⟩ := hC m
  obtain ⟨b1, b2, b3⟩ :=
    hB (if m.ecd.refresh_color_needed then refreshColor env m else (m, [], 0)).1
  have htr : (execute_refresh env m).2 =
      (if m.ecd.refresh_color_needed then refreshColor env m else (m, [], 0)).2.1 ++
      (if (if m.ecd.refresh_color_needed then refreshColor env m
          else (m, [], 0)).1.ecd.refresh_bleach_needed then
        refreshBleach env
          (if m.ecd.refresh_color_needed then refreshColor env m else (m, [], 0)).1
      else ((if m.ecd.refresh_color_needed then refreshColor env m
          else (m, [], 0)).1, [], 0)).2.1 := rfl
  have hm : (execute_refresh env m).1 =
      (if (if m.ecd.refresh_color_needed then refreshColor env m
          else (m, [], 0)).1.ecd.refresh_bleach_needed then
        refreshBleach env
          (if m.ecd.refresh_color_needed then refreshColor env m else (m, [], 0)).1
      else ((if m.ecd.refresh_color_needed then refreshColor env m
          else (m, [], 0)).1, [], 0)).1 := rfl
  refine ⟨?_, ?_, ?_⟩
  · rw [htr]
    exact noDriveAfterStop_append _ _ a1 b1 (fun hs => (b3 (a2 hs)).1)
  · intro h
    rw [htr] at h
    rw [hm]
    rcases sawStop_append_cases _ _ h with h1 | h1
    · exact (b3 (a2 h1)).2.2
    · exact b2 h1
  · intro h
    obtain ⟨t1all, cur1, stop1⟩ := a3 h
    obtain ⟨t2all, cur2, stop2⟩ := b3 stop1
    refine ⟨?_, ?_, ?_⟩
    · rw [htr, List.all_append, t1all, t2all]
      rfl
    · rw [hm]
      exact cur2.trans cur1
    · rw [hm]
      exact stop2

/-- `execute_bleach` never writes the pending next states. -/
lemma execute_bleach_next (env : Env) (m : Mach) :
    (execute_bleach env m).1.ecd.nextState = m.ecd.nextState := by
  rw [execute_bleach_mach]
  split_ifs <;> rfl

/-- `execute_color` never writes the pending next states. -/
lemma execute_color_next (env : Env) (m : Mach) :
    (execute_color env m).1.ecd.nextState = m.ecd.nextState := by
  rw [execute_color_mach]
  split_ifs <;> rfl

/-- Each segment leaves `execute_bleach` either untouched or switched to its
pending next state. -/
lemma execute_bleach_cur_mem (env : Env) (m : Mach) (i : ℕ) :
    (execute_bleach env m).1.ecd.currentState i = m.ecd.currentState i ∨
    (execute_bleach env m).1.ecd.currentState i = m.ecd.nextState i := by
  rw [execute_bleach_mach]
  split_ifs
  · exact Or.inl rfl
  · show phaseCurrent _ _ _ _ i = _ ∨ phaseCurrent _ _ _ _ i = _
    unfold phaseCurrent
    split_ifs
    · exact Or.inr rfl
    · exact Or.inl rfl
  · exact Or.inl rfl

/-- Each segment leaves `execute_color` either untouched or switched to its
pending next state. -/
lemma execute_color_cur_mem (env : Env) (m : Mach) (i : ℕ) :
    (execute_color env m).1.ecd.currentState i = m.ecd.currentState i ∨
    (execute_color env m).1.ecd.currentState i = m.ecd.nextState i := by
  rw [execute_color_mach]
  split_ifs
  · exact Or.inl rfl
  · show phaseCurrent _ _ _ _ i = _ ∨ phaseCurrent _ _ _ _ i = _
    unfold phaseCurrent
    split_ifs
    · exact Or.inr rfl
    · exact Or.inl rfl
  · exact Or.inl rfl

/-- The trace of `executeDisplay` is the concatenation of its phase traces,
finished by the counter-electrode release. -/
lemma executeDisplay_trace (env : Env) (m : Mach) :
    (executeDisplay env m).2 =
      (execute_bleach env m).2 ++
      (execute_color env (execute_bleach env m).1).2 ++
      (check_refresh env (execute_color env (execute_bleach env m).1).1).2 ++
      (execute_refresh env
        (check_refresh env (execute_color env (execute_bleach env m).1).1).1).2 ++
      [Event.ceRelease] := rfl

/-- A non-drive event is in particular not a drive of pin `p`. -/
lemma segDrives_eq_false_of_isDrive (p : ℤ) (x : Event) (h : isDrive x = false) :
    segDrives p x = false := by
  cases x <;> simp [isDrive, segDrives] at h ⊢

/-- In a trace that never drives after a stop and never drove pin `p`
before the stop, pin `p` is never driven at all. -/
lemma all_no_pin_drive (p : ℤ) : ∀ (t : List Event),
    noDriveAfterStop t = true → drivenBeforeStop p t = false →
    t.all (fun x => !segDrives p x) = true := by
  intro t
  induction t with
  | nil => intro h1 h2; rfl
  | cons ev t ih =>
    intro h1 h2
    rw [noDriveAfterStop] at h1
    rw [drivenBeforeStop] at h2
    rw [List.all_cons]
    by_cases hev : isStopPoll ev
    · rw [if_pos hev] at h1
      have hp : segDrives p ev = false := by
        cases ev <;> simp [isStopPoll] at hev <;> simp [segDrives]
      have ht : t.all (fun x => !segDrives p x) = true := by
        rw [List.all_eq_true] at h1 ⊢
        intro x hx
        have h3 := h1 x hx
        have h4 : isDrive x = false := by
          cases hD : isDrive x
          · rfl
          · rw [hD] at h3
            cases h3
        rw [Bool.not_eq_eq_eq_not]
        show segDrives p x = false
        exact segDrives_eq_false_of_isDrive p x h4
      rw [hp, ht]
      rfl
    · rw [if_neg hev] at h1 h2
      by_cases hd : segDrives p ev
      · rw [if_pos hd] at h2
        cases h2
      · rw [if_neg hd] at h2
        have hd2 : segDrives p ev = false := by simpa using hd
        rw [hd2, ih h1 h2]
        rfl

/-- `execute_bleach` never changes the pin list. -/
lemma execute_bleach_pins (env : Env) (m : Mach) :
    (execute_bleach env m).1.ecd.segmentPinsList = m.ecd.segmentPinsList := by
  rw [execute_bleach_mach]
  split_ifs <;> rfl

/-- `execute_color` never changes the pin list. -/
lemma execute_color_pins (env : Env) (m : Mach) :
    (execute_color env m).1.ecd.segmentPinsList = m.ecd.segmentPinsList := by
  rw [execute_color_mach]
  split_ifs <;> rfl

/-- `execute_bleach` changes a segment's state only together with a drive
pulse on that segment's pin: if its trace never drives the pin, the segment
keeps its state. -/
lemma execute_bleach_pin (env : Env) (m : Mach) (i : ℕ)
    (h : (execute_bleach env m).2.all
      (fun ev => !segDrives (m.ecd.segmentPinsList i) ev) = true) :
    (execute_bleach env m).1.ecd.currentState i = m.ecd.currentState i := by
  rw [execute_bleach_trace] at h
  rw [execute_bleach_mach]
  by_cases hf : m.ecd.bleachRequiredFlag
  · by_cases hb : env.stops m.pollIdx
    · simp [hf, hb]
    · have hb2 : env.stops m.pollIdx = false := by simpa using hb
      simp only [hf, if_true, hb2, Bool.false_eq_true, if_false] at h
      simp only [hf, if_true, hb2, Bool.false_eq_true, if_false]
      show phaseCurrent m.ecd.numberOfSegments m.ecd.currentState m.ecd.nextState
        SegState.bleach i = m.ecd.currentState i
      unfold phaseCurrent
      split_ifs with hc
      · exfalso
        simp only [List.all_cons, List.all_append, Bool.and_eq_true] at h
        have hall := h.2.2.2.1.1
        have hmem : Event.segLow (m.ecd.segmentPinsList i) ∈
            phasePulses m.ecd.numberOfSegments m.ecd.segmentPinsList m.ecd.currentState
              m.ecd.nextState SegState.bleach Event.segLow := by
          rw [phasePulses, List.mem_filterMap]
          refine ⟨i, List.mem_range.mpr hc.1, ?_⟩
          rw [if_pos ⟨hc.2.1, hc.2.2⟩]
        have hbad := List.all_eq_true.mp hall _ hmem
        simp [segDrives] at hbad
      · rfl
  · simp [hf]

/-- `execute_color` changes a segment's state only together with a drive
pulse on that segment's pin: if its trace never drives the pin, the segment
keeps its state. -/
lemma execute_color_pin (env : Env) (m : Mach) (i : ℕ)
    (h : (execute_color env m).2.all
      (fun ev => !segDrives (m.ecd.segmentPinsList i) ev) = true) :
    (execute_color env m).1.ecd.currentState i = m.ecd.currentState i := by
  rw [execute_color_trace] at h
  rw [execute_color_mach]
  by_cases hf : m.ecd.colorRequiredFlag
  · by_cases hb : env.stops m.pollIdx
    · simp [hf, hb]
    · have hb2 : env.stops m.pollIdx = false := by simpa using hb
      simp only [hf, if_true, hb2, Bool.false_eq_true, if_false] at h
      simp only [hf, if_true, hb2, Bool.false_eq_true, if_false]
      show phaseCurrent m.ecd.numberOfSegments m.ecd.currentState m.ecd.nextState
        SegState.color i = m.ecd.currentState i
      unfold phaseCurrent
      split_ifs with hc
      · exfalso
        simp only [List.all_cons, List.all_append, Bool.and_eq_true] at h
        have hall := h.2.2.2.1.1
        have hmem : Event.segHigh (m.ecd.segmentPinsList i) ∈
            phasePulses m.ecd.numberOfSegments m.ecd.segmentPinsList m.ecd.currentState
              m.ecd.nextState SegState.color Event.segHigh := by
          rw [phasePulses, List.mem_filterMap]
          refine ⟨i, List.mem_range.mpr hc.1, ?_⟩
          rw [if_pos ⟨hc.2.1, hc.2.2⟩]
        have hbad := List.all_eq_true.mp hall _ hmem
        simp [segDrives] at hbad
      · rfl
  · simp [hf]

/-! ## Claim theorems -/

/-- C10: calling `setSegmentState(i, s)` twice in succession leaves the
engine in exactly the same state as calling it once (the pending flag is a
boolean raised at most once), so a subsequent `executeDisplay` behaves
identically and applies the transition exactly once. -/
theorem setSegmentState_idempotent (e : YNV_ECD) (t_segment : ℕ) (t_state : Bool) :
    setSegmentState t_segment t_state (setSegmentState t_segment t_state e) =
      setSegmentState t_segment t_state e ∧
    ∀ (env : Env) (r p : ℕ),
      executeDisplay env
        { ecd := setSegmentState t_segment t_state (setSegmentState t_segment t_state e),
          readIdx := r, pollIdx := p } =
      executeDisplay env
        { ecd := setSegmentState t_segment t_state e, readIdx := r, pollIdx := p } := by
  refine ⟨setSegmentState_twice e t_segment t_state, fun env r p => ?_⟩
  rw [setSegmentState_twice]

/-- C9: with the segment count at most `MAX_NUMBER_OF_SEGMENTS` (15) and
every `setSegmentState` index below the segment count, every raw index the
constructor and the public operations use on the fixed 15-element
per-segment arrays is in bounds; and since neither the constructor nor
`setSegmentState` validates its input, out-of-bounds indices are reached as
soon as the precondition is dropped. -/
theorem segment_array_accesses_in_bounds :
    (∀ n, n ≤ MAX_NUMBER_OF_SEGMENTS →
      ∀ idx ∈ ctorTouchedIndices n, idx < MAX_NUMBER_OF_SEGMENTS) ∧
    (∀ n t_segment, n ≤ MAX_NUMBER_OF_SEGMENTS → t_segment < n →
      ∀ idx ∈ setSegmentStateTouchedIndices t_segment, idx < MAX_NUMBER_OF_SEGMENTS) ∧
    (∀ n, n ≤ MAX_NUMBER_OF_SEGMENTS →
      ∀ idx ∈ segmentLoopTouchedIndices n, idx < MAX_NUMBER_OF_SEGMENTS) ∧
    (∃ t_segment, ∃ idx ∈ setSegmentStateTouchedIndices t_segment,
      MAX_NUMBER_OF_SEGMENTS ≤ idx) ∧
    (∃ n, ∃ idx ∈ ctorTouchedIndices n, MAX_NUMBER_OF_SEGMENTS ≤ idx) := by
  refine ⟨?_, ?_, ?_, ⟨15, 15, ?_, le_refl _⟩, ⟨16, 15, ?_, le_refl _⟩⟩
  · intro n hn idx hidx
    rw [ctorTouchedIndices, List.mem_range] at hidx
    omega
  · intro n t hn ht idx hidx
    rw [setSegmentStateTouchedIndices, List.mem_singleton] at hidx
    omega
  · intro n hn idx hidx
    rw [segmentLoopTouchedIndices, List.mem_range] at hidx
    omega
  · simp [setSegmentStateTouchedIndices]
  · simp [ctorTouchedIndices]

/-- Witness for C9 at segment count 15 and index 14. -/
theorem segment_array_accesses_in_bounds_witness :
    (15 ≤ MAX_NUMBER_OF_SEGMENTS ∧
      ∀ idx ∈ ctorTouchedIndices 15, idx < MAX_NUMBER_OF_SEGMENTS) ∧
    (14 < 15 ∧ ∀ idx ∈ setSegmentStateTouchedIndices 14, idx < MAX_NUMBER_OF_SEGMENTS) :=
  ⟨⟨by decide, segment_array_accesses_in_bounds.1 15 (by decide)⟩,
   ⟨by decide, segment_array_accesses_in_bounds.2.1 15 14 (by decide) (by decide)⟩⟩

/-- C6 (corrected): the calibrated Color thresholds satisfy
`ColorLimitHigh > ColorLimitLow` after `updateSupplyVoltage(v)` or
`setConfig` whenever the supply voltage exceeds
`2 * (refreshColoringVoltage - colorLimitHighOffset + colorLimitLowOffset)`
(2.3 V with the default configuration); it does not hold for every positive
supply voltage. -/
theorem colorLimit_order_above_bound :
    (∀ (e : YNV_ECD) (v : ℤ), 0 < v →
      2 * (e.cfg.refreshColoringVoltage - e.cfg.refreshColorLimitHVoltage +
        e.cfg.refreshColorLimitLVoltage) < (v : ℚ) →
      (updateSupplyVoltage v e).refreshColorLimitL <
        (updateSupplyVoltage v e).refreshColorLimitH) ∧
    (∀ (e : YNV_ECD) (c : ECD_Config), 0 < e.supplyVoltage →
      2 * (c.refreshColoringVoltage - c.refreshColorLimitHVoltage +
        c.refreshColorLimitLVoltage) < e.supplyVoltage →
      (setConfig c e).refreshColorLimitL < (setConfig c e).refreshColorLimitH) := by
  constructor
  · intro e v hv h
    apply colorLimits_core
    · exact_mod_cast Int.cast_pos.mpr hv
    · exact h
  · intro e c h0 h
    apply colorLimits_core
    · exact h0
    · exact h

/-- Witness for C6 at the default configuration and a 3 V supply. -/
theorem colorLimit_order_above_bound_witness :
    ((0:ℤ) < 3 ∧
      2 * ((mkECD 1 testPins).cfg.refreshColoringVoltage -
        (mkECD 1 testPins).cfg.refreshColorLimitHVoltage +
        (mkECD 1 testPins).cfg.refreshColorLimitLVoltage) < ((3:ℤ) : ℚ)) ∧
    (updateSupplyVoltage 3 (mkECD 1 testPins)).refreshColorLimitL <
      (updateSupplyVoltage 3 (mkECD 1 testPins)).refreshColorLimitH := by
  have h1 : (0:ℤ) < 3 := by decide
  have h2 : 2 * ((mkECD 1 testPins).cfg.refreshColoringVoltage -
      (mkECD 1 testPins).cfg.refreshColorLimitHVoltage +
      (mkECD 1 testPins).cfg.refreshColorLimitLVoltage) < ((3:ℤ) : ℚ) := by
    norm_num [mkECD, defaultConfig]
  exact ⟨⟨h1, h2⟩, colorLimit_order_above_bound.1 (mkECD 1 testPins) 3 h1 h2⟩

/-- C6 counterexample: at a 1 V supply (positive, default configuration)
the recalculated thresholds come out in the wrong order:
`ColorLimitHigh = 818.4 < 1483.35 = ColorLimitLow`. -/
theorem colorLimit_order_counterexample :
    (0:ℤ) < 1 ∧
    (updateSupplyVoltage 1 (mkECD 1 testPins)).refreshColorLimitH <
      (updateSupplyVoltage 1 (mkECD 1 testPins)).refreshColorLimitL := by
  constructor
  · decide
  · with_unfolding_all decide

/-- C2: under any ADC behaviour (with no stop request), each refresh loop
performs at most `MAX_REFRESH_RETRIES` (30) pulse iterations; it exits
immediately, with no events and zero iterations, as soon as no segment
remains flagged for its direction; it ends either with the escalation flag
clear or having used exactly the retry ceiling; and with a flagged segment
whose samples never reach the threshold it runs exactly the ceiling count
of iterations. -/
theorem refresh_loops_bounded_retries (env : Env) (hstop : ∀ k, env.stops k = false) :
    (∀ m : Mach, (refreshBleach env m).2.2 ≤ MAX_REFRESH_RETRIES) ∧
    (∀ m : Mach, (refreshColor env m).2.2 ≤ MAX_REFRESH_RETRIES) ∧
    (∀ (fuel : ℕ) (m : Mach), m.ecd.refresh_bleach_needed = false →
      refreshBleachLoop env fuel m = (m, [], 0)) ∧
    (∀ (fuel : ℕ) (m : Mach), m.ecd.refresh_color_needed = false →
      refreshColorLoop env fuel m = (m, [], 0)) ∧
    (∀ m : Mach, (refreshBleach env m).1.ecd.refresh_bleach_needed = false ∨
      (refreshBleach env m).2.2 = MAX_REFRESH_RETRIES) ∧
    (∀ m : Mach, (refreshColor env m).1.ecd.refresh_color_needed = false ∨
      (refreshColor env m).2.2 = MAX_REFRESH_RETRIES) ∧
    (∀ (m : Mach) (i0 : ℕ), i0 < m.ecd.numberOfSegments →
      m.ecd.currentState i0 = SegState.bleach →
      m.ecd.refreshSegmentNeeded i0 = true →
      m.ecd.refresh_bleach_needed = true →
      (∀ k, (env.reads k (m.ecd.segmentPinsList i0) : ℚ) > m.ecd.refreshBleachLimitL) →
      (refreshBleach env m).2.2 = MAX_REFRESH_RETRIES) ∧
    (∀ (m : Mach) (i0 : ℕ), i0 < m.ecd.numberOfSegments →
      m.ecd.currentState i0 = SegState.color →
      m.ecd.refreshSegmentNeeded i0 = true →
      m.ecd.refresh_color_needed = true →
      (∀ k, (env.reads k (m.ecd.segmentPinsList i0) : ℚ) < m.ecd.refreshColorLimitH) →
      (refreshColor env m).2.2 = MAX_REFRESH_RETRIES) := by
  refine ⟨?_, ?_, refreshBleachLoop_not_needed env, refreshColorLoop_not_needed env,
    ?_, ?_, ?_, ?_⟩
  · intro m
    rw [refreshBleach]
    simp only [pollStop, hstop, Bool.false_eq_true, if_false, enableCounterElectrode]
    exact refreshBleachLoop_count_le env MAX_REFRESH_RETRIES _
  · intro m
    rw [refreshColor]
    simp only [pollStop, hstop, Bool.false_eq_true, if_false, enableCounterElectrode]
    exact refreshColorLoop_count_le env MAX_REFRESH_RETRIES _
  · intro m
    rw [refreshBleach]
    simp only [pollStop, hstop, Bool.false_eq_true, if_false, enableCounterElectrode]
    exact refreshBleachLoop_final env hstop MAX_REFRESH_RETRIES _
  · intro m
    rw [refreshColor]
    simp only [pollStop, hstop, Bool.false_eq_true, if_false, enableCounterElectrode]
    exact refreshColorLoop_final env hstop MAX_REFRESH_RETRIES _
  · intro m i0 hi hc hf hn hp
    rw [refreshBleach]
    simp only [pollStop, hstop, Bool.false_eq_true, if_false, enableCounterElectrode]
    exact refreshBleachLoop_hostile env hstop i0 (m.ecd.segmentPinsList i0)
      m.ecd.refreshBleachLimitL hp MAX_REFRESH_RETRIES
      { ecd := m.ecd, readIdx := m.readIdx, pollIdx := m.pollIdx + 1 } hc hf rfl rfl hi hn
  · intro m i0 hi hc hf hn hp
    rw [refreshColor]
    simp only [pollStop, hstop, Bool.false_eq_true, if_false, enableCounterElectrode]
    exact refreshColorLoop_hostile env hstop i0 (m.ecd.segmentPinsList i0)
      m.ecd.refreshColorLimitH hp MAX_REFRESH_RETRIES
      { ecd := m.ecd, readIdx := m.readIdx, pollIdx := m.pollIdx + 1 } hc hf rfl rfl hi hn

/-- Witness for C2: a single hostile bleached segment (samples stuck at
1000, above `BleachLimitLow = 68.2`) makes the BLEACH refresh run exactly
30 iterations. -/
theorem refresh_loops_bounded_retries_witness :
    ((∀ k, envHigh.stops k = false) ∧
      (0:ℕ) < engineBleachNeedy.numberOfSegments ∧
      engineBleachNeedy.currentState 0 = SegState.bleach ∧
      engineBleachNeedy.refreshSegmentNeeded 0 = true ∧
      engineBleachNeedy.refresh_bleach_needed = true ∧
      (∀ k, (envHigh.reads k (engineBleachNeedy.segmentPinsList 0) : ℚ) >
        engineBleachNeedy.refreshBleachLimitL)) ∧
    (refreshBleach envHigh { ecd := engineBleachNeedy, readIdx := 0, pollIdx := 0 }).2.2 =
      MAX_REFRESH_RETRIES := by
  have h1 : ∀ k, envHigh.stops k = false := fun _ => rfl
  have h2 : (0:ℕ) < engineBleachNeedy.numberOfSegments := by decide
  have h3 : engineBleachNeedy.currentState 0 = SegState.bleach := rfl
  have h4 : engineBleachNeedy.refreshSegmentNeeded 0 = true := rfl
  have h5 : engineBleachNeedy.refresh_bleach_needed = true := rfl
  have h6 : ∀ k, (envHigh.reads k (engineBleachNeedy.segmentPinsList 0) : ℚ) >
      engineBleachNeedy.refreshBleachLimitL := by
    intro k
    show (1000 : ℚ) > engineBleachNeedy.refreshBleachLimitL
    have : engineBleachNeedy.refreshBleachLimitL = 341 / 5 := by
      with_unfolding_all decide
    rw [this]
    norm_num
  exact ⟨⟨h1, h2, h3, h4, h5, h6⟩,
    (refresh_loops_bounded_retries envHigh h1).2.2.2.2.2.2.1
      { ecd := engineBleachNeedy, readIdx := 0, pollIdx := 0 } 0 h2 h3 h4 h5 h6⟩

/-- C4 (corrected): in a `check_refresh` pass entered with the stop flag
clear and with thresholds satisfying `ColorLimitLow ≤ ColorHalf` (as any
supply voltage above the C6 bound yields), a Color segment is unflagged on a
sample strictly above `ColorHalf`, flagged without its own escalation on a
sample in `[ColorLimitLow, ColorHalf]`, flagged on a sample below
`ColorLimitLow`; `refreshColorNeeded` is raised exactly when some Color
segment samples below `ColorLimitLow`; Undefined segments are never
flagged; and the pass drives the counter electrode to mid-supply. -/
theorem check_refresh_color_classification (env : Env) (m : Mach)
    (hstop : env.stops m.pollIdx = false)
    (hLH : m.ecd.refreshColorLimitL ≤ m.ecd.refreshColorHalf) :
    (∀ i, i < m.ecd.numberOfSegments → m.ecd.currentState i = SegState.color →
      (((env.reads (m.readIdx + i) (m.ecd.segmentPinsList i) : ℚ) > m.ecd.refreshColorHalf →
        (check_refresh env m).1.ecd.refreshSegmentNeeded i = false) ∧
       (m.ecd.refreshColorLimitL ≤ (env.reads (m.readIdx + i) (m.ecd.segmentPinsList i) : ℚ) →
        (env.reads (m.readIdx + i) (m.ecd.segmentPinsList i) : ℚ) ≤ m.ecd.refreshColorHalf →
        (check_refresh env m).1.ecd.refreshSegmentNeeded i = true) ∧
       ((env.reads (m.readIdx + i) (m.ecd.segmentPinsList i) : ℚ) < m.ecd.refreshColorLimitL →
        (check_refresh env m).1.ecd.refreshSegmentNeeded i = true))) ∧
    ((check_refresh env m).1.ecd.refresh_color_needed = true ↔
      ∃ i, i < m.ecd.numberOfSegments ∧ m.ecd.currentState i = SegState.color ∧
        (env.reads (m.readIdx + i) (m.ecd.segmentPinsList i) : ℚ) < m.ecd.refreshColorLimitL) ∧
    (∀ i, i < m.ecd.numberOfSegments → m.ecd.currentState i = SegState.undefined →
      (check_refresh env m).1.ecd.refreshSegmentNeeded i = false) ∧
    (Event.ceDrive (m.ecd.supplyVoltage / 2)
        (truncQ ((ADC_DAC_MAX_LSB : ℚ) * (m.ecd.supplyVoltage / 2 / m.ecd.supplyVoltage)))
      ∈ (check_refresh env m).2) := by
  rw [check_refresh_run_eq env m hstop]
  refine ⟨?_, ?_, ?_, ?_⟩
  · intro i hi hc
    rw [checkFold_flag env m i hi, hc]
    refine ⟨?_, ?_, ?_⟩
    · intro hv
      simp [checkFlagVal, hv]
    · intro h1 h2
      simp [checkFlagVal, not_lt.mpr h2]
    · intro hv
      have h2 : ¬((env.reads (m.readIdx + i) (m.ecd.segmentPinsList i) : ℚ) >
          m.ecd.refreshColorHalf) := by
        push_neg
        linarith
      simp [checkFlagVal, h2]
  · rw [checkFold_colorNeeded env m]
    rw [List.any_eq_true]
    constructor
    · rintro ⟨i, hmem, hesc⟩
      rw [List.mem_range] at hmem
      refine ⟨i, hmem, ?_⟩
      rw [colorEscalate] at hesc
      by_cases h1 : m.ecd.currentState i = SegState.color
      · rw [if_pos h1] at hesc
        by_cases h2 : ((env.reads (m.readIdx + i) (m.ecd.segmentPinsList i) : ℚ) >
            m.ecd.refreshColorHalf)
        · rw [if_pos h2] at hesc
          exact absurd hesc (by simp)
        · rw [if_neg h2] at hesc
          by_cases h3 : ((env.reads (m.readIdx + i) (m.ecd.segmentPinsList i) : ℚ) ≥
              m.ecd.refreshColorLimitL)
          · rw [if_pos h3] at hesc
            exact absurd hesc (by simp)
          · push_neg at h3
            exact ⟨h1, h3⟩
      · rw [if_neg h1] at hesc
        exact absurd hesc (by simp)
    · rintro ⟨i, hi, hc, hv⟩
      refine ⟨i, List.mem_range.mpr hi, ?_⟩
      rw [colorEscalate]
      have h2 : ¬((env.reads (m.readIdx + i) (m.ecd.segmentPinsList i) : ℚ) >
          m.ecd.refreshColorHalf) := by
        push_neg
        linarith
      have h3 : ¬((env.reads (m.readIdx + i) (m.ecd.segmentPinsList i) : ℚ) ≥
          m.ecd.refreshColorLimitL) := by
        push_neg
        exact hv
      simp [hc, h2, h3]
  · intro i hi hu
    rw [checkFold_flag env m i hi, hu]
    simp [checkFlagVal]
  · simp

/-- Witness for C4: single Color segment at 3 V defaults, sample 0 (below
`ColorLimitLow`): the segment is flagged. -/
theorem check_refresh_color_classification_witness :
    (envLow.stops 0 = false ∧
      engineColor3.refreshColorLimitL ≤ engineColor3.refreshColorHalf) ∧
    (check_refresh envLow { ecd := engineColor3, readIdx := 0, pollIdx := 0
      }).1.ecd.refreshSegmentNeeded 0 = true := by
  have h1 : envLow.stops (0:ℕ) = false := rfl
  have h2 : engineColor3.refreshColorLimitL ≤ engineColor3.refreshColorHalf := by
    with_unfolding_all decide
  refine ⟨⟨h1, h2⟩, ?_⟩
  have h3 := (check_refresh_color_classification envLow
    { ecd := engineColor3, readIdx := 0, pollIdx := 0 } h1 h2).1 0 (by decide) rfl
  exact h3.2.2 (by with_unfolding_all decide)

/-- C4 counterexample: at a 1 V supply the calibrated thresholds are out of
order (`ColorHalf < ColorLimitLow`), and a Color segment sampling 1200 —
below `ColorLimitLow = 1483.35` — is left unflagged and does not raise
`refreshColorNeeded`, against the claim's third bullet read over every
pass. -/
theorem check_refresh_color_classification_counterexample :
    engineColor1V.currentState 0 = SegState.color ∧
    (0:ℕ) < engineColor1V.numberOfSegments ∧
    ((1200 : ℚ) < engineColor1V.refreshColorLimitL) ∧
    env1200.reads 0 (engineColor1V.segmentPinsList 0) = 1200 ∧
    (check_refresh env1200 { ecd := engineColor1V, readIdx := 0, pollIdx := 0
      }).1.ecd.refreshSegmentNeeded 0 = false ∧
    (check_refresh env1200 { ecd := engineColor1V, readIdx := 0, pollIdx := 0
      }).1.ecd.refresh_color_needed = false := by
  refine ⟨rfl, by decide, ?_, rfl, ?_, ?_⟩
  · with_unfolding_all decide
  · with_unfolding_all decide
  · with_unfolding_all decide

/-- C5 (corrected): entered with the stop flag clear, `refreshBleach` drives
the counter electrode exactly once — so the amplitude is frozen for the
whole refresh cycle — to
`max(refreshBleachingVoltage, Vsupply/2 − minBleachOcpLSB · LSB_TO_VOLT_CONV)`,
where `LSB_TO_VOLT_CONV` is the fixed constant `0.0029325513` (an
approximation of 3 V / MAX_CODE, not rescaled with the supply voltage); and
`minBleachOcpLSB` is the running minimum, seeded with 1024, of the samples
`check_refresh` read from Bleach-state segments in its most recent pass. -/
theorem refreshBleach_ce_amplitude (env : Env) :
    (∀ m : Mach, env.stops m.pollIdx = false →
      ceDriveVolts (refreshBleach env m).2.1 =
        [max m.ecd.cfg.refreshBleachingVoltage
          (m.ecd.supplyVoltage / 2 - (m.ecd.minBleachOcpLSB : ℚ) * LSB_TO_VOLT_CONV)]) ∧
    (∀ m : Mach, env.stops m.pollIdx = false →
      (check_refresh env m).1.ecd.minBleachOcpLSB =
        (bleachSamples env m.ecd m.readIdx).foldl (fun a v => if v < a then v else a) 1024) := by
  refine ⟨fun m h => refreshBleach_ceVolts env m h, fun m h => ?_⟩
  rw [check_refresh_run_eq env m h]
  exact checkFold_minB env m

/-- Witness for C5 on the 6 V engine with recorded minimum sample 100. -/
theorem refreshBleach_ce_amplitude_witness :
    (envHigh.stops 0 = false) ∧
    ceDriveVolts (refreshBleach envHigh { ecd := engine6min, readIdx := 0, pollIdx := 0 }).2.1 =
      [max engine6min.cfg.refreshBleachingVoltage
        (engine6min.supplyVoltage / 2 - (engine6min.minBleachOcpLSB : ℚ) * LSB_TO_VOLT_CONV)] :=
  ⟨rfl, (refreshBleach_ce_amplitude envHigh).1
    { ecd := engine6min, readIdx := 0, pollIdx := 0 } rfl⟩

/-- C5 counterexample: at a 6 V supply with minimum recorded sample 100, the
source drives the counter electrode to `3 − 100·0.0029325513 = 2.70674487 V`
(fixed conversion constant), while the spec formula — which rescales the
conversion by the supply voltage — gives
`max(0.7, 3 − 100·6/1023) = 823/341 ≈ 2.41349 V`. -/
theorem refreshBleach_ce_amplitude_counterexample :
    ceDriveVolts (refreshBleach envHigh { ecd := engine6min, readIdx := 0, pollIdx := 0 }).2.1 =
      [(270674487 : ℚ) / 100000000] ∧
    spec_refreshBleachCE engine6min.cfg engine6min.supplyVoltage engine6min.minBleachOcpLSB =
      823 / 341 ∧
    ((270674487 : ℚ) / 100000000) ≠ 823 / 341 := by
  have hfields : engine6min.cfg.refreshBleachingVoltage = (0.7 : ℚ) ∧
      engine6min.supplyVoltage = ((6 : ℤ) : ℚ) ∧ engine6min.minBleachOcpLSB = 100 := by
    refine ⟨rfl, rfl, rfl⟩
  obtain ⟨hc, hs, hm⟩ := hfields
  refine ⟨?_, ?_, by norm_num⟩
  · rw [refreshBleach_ceVolts envHigh { ecd := engine6min, readIdx := 0, pollIdx := 0 } rfl]
    show [max engine6min.cfg.refreshBleachingVoltage
      (engine6min.supplyVoltage / 2 - (engine6min.minBleachOcpLSB : ℚ) * LSB_TO_VOLT_CONV)] = _
    rw [hc, hs, hm, LSB_TO_VOLT_CONV]
    norm_num
  · rw [spec_refreshBleachCE, hc, hs, hm, ADC_DAC_MAX_LSB]
    norm_num

/-- C7 (corrected): `setConfig` replaces the whole configuration and
synchronously recomputes the thresholds; the Color limit, Color half and
Bleach limit formulas are exactly the spec formulas, while
`BleachHalfAmplitude` is the average of the two amplitudes computed on
integer LSB codes: `|MAX_CODE/2 − (int)BleachLimitHigh|` and
`|(int)(MAX_CODE·refreshBleachVoltage/Vsupply) − (int)BleachLimitLow|`
(C `int` division and truncation), not on the exact real values. -/
theorem setConfig_recalculates_thresholds (e : YNV_ECD) (c : ECD_Config) :
    (setConfig c e).cfg = c ∧
    (setConfig c e).supplyVoltage = e.supplyVoltage ∧
    (setConfig c e).refreshColorLimitH = spec_ColorLimitHigh c e.supplyVoltage ∧
    (setConfig c e).refreshColorLimitL = spec_ColorLimitLow c e.supplyVoltage ∧
    (setConfig c e).refreshColorHalf =
      ((setConfig c e).refreshColorLimitH + (setConfig c e).refreshColorLimitL) / 2 ∧
    (setConfig c e).refreshBleachLimitH = spec_BleachLimitHigh c e.supplyVoltage ∧
    (setConfig c e).refreshBleachLimitL = spec_BleachLimitLow c e.supplyVoltage ∧
    (setConfig c e).refreshBleachHalf =
      ((|ADC_DAC_MAX_LSB / 2 - truncQ ((setConfig c e).refreshBleachLimitH)| +
        |truncQ ((ADC_DAC_MAX_LSB : ℚ) * (c.refreshBleachingVoltage / e.supplyVoltage)) -
          truncQ ((setConfig c e).refreshBleachLimitL)| : ℤ) : ℚ) / 2 := by
  refine ⟨rfl, rfl, ?_, ?_, rfl, ?_, ?_, rfl⟩
  · exact (mul_div_assoc _ _ _).symm
  · exact (mul_div_assoc _ _ _).symm
  · exact (mul_div_assoc _ _ _).symm
  · exact (mul_div_assoc _ _ _).symm

/-- C7 counterexample: at the default configuration and the default 3 V
supply the source computes `BleachHalfAmplitude = 136` (integer-code
amplitudes 102 and 170), while the spec formula on exact values gives
`(102.3 + 170.5)/2 = 136.4`. -/
theorem setConfig_spec_formulas_counterexample :
    (setConfig defaultConfig (mkECD 1 testPins)).refreshBleachHalf = 136 ∧
    spec_BleachHalfAmplitude defaultConfig (mkECD 1 testPins).supplyVoltage = 682 / 5 ∧
    (136 : ℚ) ≠ 682 / 5 := by
  refine ⟨by with_unfolding_all decide, ?_, by norm_num⟩
  have hs : (mkECD 1 testPins).supplyVoltage = 3 := rfl
  rw [hs, spec_BleachHalfAmplitude, spec_BleachLimitHigh, spec_BleachLimitLow]
  rw [abs_of_nonneg (by norm_num [defaultConfig, ADC_DAC_MAX_LSB]),
      abs_of_nonneg (by norm_num [defaultConfig, ADC_DAC_MAX_LSB])]
  norm_num [defaultConfig, ADC_DAC_MAX_LSB]

/-- C8 (corrected): for `0 ≤ v ≤ Vsupply`, `enableCounterElectrode(v)`
writes the raw code `⌊MAX_CODE * v / Vsupply⌋` — the C `int(...)` cast
truncates rather than rounding to the nearest code — to the analog output
before its settling delay, and that code is within `0..MAX_CODE`. -/
theorem enableCounterElectrode_truncates (m : Mach) (t_voltage : ℚ)
    (hV : 0 < m.ecd.supplyVoltage) (h0 : 0 ≤ t_voltage)
    (h1 : t_voltage ≤ m.ecd.supplyVoltage) :
    (enableCounterElectrode m t_voltage).2 =
      [Event.ceDrive t_voltage (⌊(ADC_DAC_MAX_LSB : ℚ) * (t_voltage / m.ecd.supplyVoltage)⌋),
       Event.delayMs 50] ∧
    0 ≤ ⌊(ADC_DAC_MAX_LSB : ℚ) * (t_voltage / m.ecd.supplyVoltage)⌋ ∧
    ⌊(ADC_DAC_MAX_LSB : ℚ) * (t_voltage / m.ecd.supplyVoltage)⌋ ≤ ADC_DAC_MAX_LSB ∧
    (enableCounterElectrode m t_voltage).1 = m := by
  have harg : (0:ℚ) ≤ (ADC_DAC_MAX_LSB : ℚ) * (t_voltage / m.ecd.supplyVoltage) := by
    apply mul_nonneg
    · norm_num [ADC_DAC_MAX_LSB]
    · exact div_nonneg h0 (le_of_lt hV)
  refine ⟨?_, Int.floor_nonneg.mpr harg, ?_, rfl⟩
  · simp [enableCounterElectrode, truncQ_of_nonneg _ harg]
  · have hd : t_voltage / m.ecd.supplyVoltage ≤ 1 := by
      rw [div_le_one hV]; exact h1
    have hle : (ADC_DAC_MAX_LSB : ℚ) * (t_voltage / m.ecd.supplyVoltage) ≤
        (ADC_DAC_MAX_LSB : ℚ) := by
      calc (ADC_DAC_MAX_LSB : ℚ) * (t_voltage / m.ecd.supplyVoltage) ≤
          (ADC_DAC_MAX_LSB : ℚ) * 1 := by
            apply mul_le_mul_of_nonneg_left hd
            norm_num [ADC_DAC_MAX_LSB]
        _ = (ADC_DAC_MAX_LSB : ℚ) := mul_one _
    calc ⌊(ADC_DAC_MAX_LSB : ℚ) * (t_voltage / m.ecd.supplyVoltage)⌋ ≤
        ⌊(ADC_DAC_MAX_LSB : ℚ)⌋ := Int.floor_le_floor hle
      _ = ADC_DAC_MAX_LSB := Int.floor_intCast _

/-- Witness for C8 at `v = 1.7`, `Vsupply = 3`. -/
theorem enableCounterElectrode_truncates_witness :
    ((0:ℚ) < engine3.supplyVoltage ∧ (0:ℚ) ≤ 1.7 ∧ (1.7:ℚ) ≤ engine3.supplyVoltage) ∧
    (enableCounterElectrode { ecd := engine3, readIdx := 0, pollIdx := 0 } 1.7).2 =
      [Event.ceDrive 1.7 (⌊(ADC_DAC_MAX_LSB : ℚ) * ((1.7:ℚ) / engine3.supplyVoltage)⌋),
       Event.delayMs 50] := by
  have hV : (0:ℚ) < engine3.supplyVoltage := by with_unfolding_all decide
  have h0 : (0:ℚ) ≤ 1.7 := by norm_num
  have h1 : (1.7:ℚ) ≤ engine3.supplyVoltage := by with_unfolding_all decide
  exact ⟨⟨hV, h0, h1⟩,
    (enableCounterElectrode_truncates { ecd := engine3, readIdx := 0, pollIdx := 0 } 1.7
      hV h0 h1).1⟩

/-- C8 counterexample: at `v = 1.7`, `Vsupply = 3` the exact code value is
`579.7`; the source writes the truncated code 579, not the nearest code 580
claimed by the spec. -/
theorem enableCounterElectrode_round_counterexample :
    ceDriveCodes (enableCounterElectrode { ecd := engine3, readIdx := 0, pollIdx := 0 } 1.7).2 =
      [579] ∧
    spec_ceCode engine3.supplyVoltage 1.7 = 580 ∧ (579 : ℤ) ≠ 580 := by
  refine ⟨by with_unfolding_all decide, ?_, by decide⟩
  have hs : engine3.supplyVoltage = 3 := by with_unfolding_all decide
  rw [spec_ceCode, hs, round_eq]
  norm_num [ADC_DAC_MAX_LSB]


/-- C1 (corrected): with the stop flag never observed set and the engine
quiescent when the requests are submitted, `executeDisplay` commits, for
every segment, the last ACCEPTED request — the last `setSegmentState` call
for that segment whose state differed from the segment's current state at
request time — and leaves the segment unchanged when no request was
accepted.  The claim as stated (last REQUESTED state wins when it differed;
every other segment unchanged) fails, because `setSegmentState` silently
drops a request matching the current state while an earlier differing
request stays pending: see the counterexample. -/
theorem executeDisplay_applies_requests (env : Env) (e : YNV_ECD)
    (reqs : List (ℕ × Bool)) (r p : ℕ) (i : ℕ)
    (hstop : ∀ k, env.stops k = false)
    (hq : ∀ j, e.nextState j = e.currentState j)
    (hreqs : ∀ q ∈ reqs, q.1 < e.numberOfSegments) :
    (executeDisplay env
        { ecd := applyRequests e reqs, readIdx := r, pollIdx := p }).1.ecd.currentState i =
      (match lastAccepted (e.currentState i) (requestsFor i reqs) with
       | some s => stateOfBool s
       | none => e.currentState i) := by
  obtain ⟨hcur, hnum, hnext, hbf, hcf⟩ := applyRequests_char reqs e
  have hN : ∀ j, (applyRequests e reqs).nextState j =
      (match lastAccepted (e.currentState j) (requestsFor j reqs) with
       | some s => stateOfBool s
       | none => e.currentState j) := by
    intro j
    rw [hnext j, foldl_lastAccepted, hq j]
  have hM : ({ ecd := applyRequests e reqs, readIdx := r, pollIdx := p } : Mach).ecd =
      applyRequests e reqs := rfl
  rw [executeDisplay_mach, (execute_refresh_frame env _).1, (check_refresh_cur env _).1,
    execute_color_cur_pt env _ (hstop _) i]
  obtain ⟨a1, a2, a3⟩ :=
    execute_bleach_fields env { ecd := applyRequests e reqs, readIdx := r, pollIdx := p }
      (hstop p)
  rw [a1, a2, a3, execute_bleach_cur_pt env _ (hstop p) i, hM, hcur, hnum, hcf, hbf,
    hN i]
  cases hLA : lastAccepted (e.currentState i) (requestsFor i reqs) with
  | none => simp
  | some s =>
    have hne := lastAccepted_ne _ _ _ hLA
    have hmem := mem_requestsFor i s reqs (lastAccepted_mem _ _ _ hLA)
    have hin : i < e.numberOfSegments := hreqs (i, s) hmem
    cases s with
    | false =>
      have hany : (reqs.any fun q =>
          decide (stateOfBool q.2 ≠ e.currentState q.1) && !q.2) = true := by
        rw [List.any_eq_true]
        refine ⟨(i, false), hmem, ?_⟩
        simp [hne]
      have hne2 : SegState.bleach ≠ e.currentState i := by
        simpa [stateOfBool] using hne
      simp [stateOfBool, hany, hin, hne2]
      intro h1 h2
      exact (h2 i hmem).symm
    | true =>
      have hany : (reqs.any fun q =>
          decide (stateOfBool q.2 ≠ e.currentState q.1) && q.2) = true := by
        rw [List.any_eq_true]
        refine ⟨(i, true), hmem, ?_⟩
        simp [hne]
      have hne2 : SegState.color ≠ e.currentState i := by
        simpa [stateOfBool] using hne
      simp [stateOfBool, hany, hin, hne2]
      intro h1 h2
      exact (h2 i hmem).symm

/-- C1 witness: a single accepted Color request on the quiescent
single-segment 3 V engine, executed with the stop flag clear, lands the
segment in the last accepted state. -/
theorem executeDisplay_applies_requests_witness :
    (∀ k, envHigh.stops k = false) ∧
    (∀ j, c1engine.nextState j = c1engine.currentState j) ∧
    (∀ q ∈ ([(0, true)] : List (ℕ × Bool)), q.1 < c1engine.numberOfSegments) ∧
    (executeDisplay envHigh
        { ecd := applyRequests c1engine [(0, true)],
          readIdx := 0, pollIdx := 0 }).1.ecd.currentState 0 =
      (match lastAccepted (c1engine.currentState 0) (requestsFor 0 [(0, true)]) with
       | some s => stateOfBool s
       | none => c1engine.currentState 0) := by
  have hreqs : ∀ q ∈ ([(0, true)] : List (ℕ × Bool)), q.1 < c1engine.numberOfSegments := by
    intro q hq
    rw [List.mem_singleton] at hq
    rw [hq]
    with_unfolding_all decide
  exact ⟨fun k => rfl, fun j => rfl, hreqs,
    executeDisplay_applies_requests envHigh c1engine [(0, true)] 0 0 0
      (fun k => rfl) (fun j => rfl) hreqs⟩

/-- C1 counterexample to the claim as stated: on the quiescent bleached
single-segment engine, request Color then Bleach for segment 0.  The last
requested state (Bleach) equals the segment's state at request time, so by
the claim the segment should be left unchanged (Bleached); but the second
request was silently dropped, the first stayed pending, and `executeDisplay`
(stop flag never set) turns the segment Color. -/
theorem executeDisplay_last_request_counterexample :
    requestsFor 0 c1reqs = [true, false] ∧
    c1engine.currentState 0 = SegState.bleach ∧
    stateOfBool false = c1engine.currentState 0 ∧
    (∀ k, envHigh.stops k = false) ∧
    (executeDisplay envHigh
        { ecd := applyRequests c1engine c1reqs,
          readIdx := 0, pollIdx := 0 }).1.ecd.currentState 0 = SegState.color := by
  refine ⟨by with_unfolding_all decide, rfl, rfl, fun k => rfl, ?_⟩
  with_unfolding_all decide

/-- C3 (confirmed): under a monotone stop flag — once set during the call it
stays set, the shared-flag discipline of the input context — `executeDisplay`
(1) never drives the counter electrode or pulses a segment after a positive
stop observation, so phases entered after the stop perform no drives;
(2) changes a segment's state only together with a drive pulse on its pin,
so a segment whose pin is never driven keeps its pre-call state; (3) hence
every segment not yet driven when the stop request was observed — and in
particular every segment of a phase never reached — retains the current
state it had when `executeDisplay` was called; (4) every segment ends
either at its pre-call current state or at its pending next state (segments
already transitioned keep their new state); and (5) if the flag is already
set when the call begins, nothing is driven at all and every segment state
is exactly as before. -/
theorem executeDisplay_cancellation (env : Env) (m : Mach)
    (hmono : ∀ j k, j ≤ k → env.stops j = true → env.stops k = true) :
    (noDriveAfterStop (executeDisplay env m).2 = true) ∧
    (∀ i, (executeDisplay env m).2.all
        (fun ev => !segDrives (m.ecd.segmentPinsList i) ev) = true →
      (executeDisplay env m).1.ecd.currentState i = m.ecd.currentState i) ∧
    (∀ i, drivenBeforeStop (m.ecd.segmentPinsList i) (executeDisplay env m).2 = false →
      (executeDisplay env m).1.ecd.currentState i = m.ecd.currentState i) ∧
    (∀ i, (executeDisplay env m).1.ecd.currentState i = m.ecd.currentState i ∨
          (executeDisplay env m).1.ecd.currentState i = m.ecd.nextState i) ∧
    (env.stops m.pollIdx = true →
      (((executeDisplay env m).1.ecd.currentState = m.ecd.currentState) ∧
       ((executeDisplay env m).2.all (fun x => !isDrive x) = true))) := by
  obtain ⟨aA, aB, aS⟩ := execute_bleach_stopspec env m hmono
  obtain ⟨bA, bB, bS⟩ := execute_color_stopspec env (execute_bleach env m).1 hmono
  obtain ⟨cA, cB, cS⟩ :=
    check_refresh_stopspec env (execute_color env (execute_bleach env m).1).1 hmono
  obtain ⟨dA, dB, dS⟩ := execute_refresh_stopspec env
    (check_refresh env (execute_color env (execute_bleach env m).1).1).1 hmono
  have hABs : sawStop ((execute_bleach env m).2 ++
      (execute_color env (execute_bleach env m).1).2) = true →
      env.stops (execute_color env (execute_bleach env m).1).1.pollIdx = true := by
    intro hs
    rcases sawStop_append_cases _ _ hs with h1 | h1
    · exact (bS (aB h1)).2.2
    · exact bB h1
  have hAB : noDriveAfterStop ((execute_bleach env m).2 ++
      (execute_color env (execute_bleach env m).1).2) = true :=
    noDriveAfterStop_append _ _ aA bA (fun hs => (bS (aB hs)).1)
  have hABCs : sawStop ((execute_bleach env m).2 ++
      (execute_color env (execute_bleach env m).1).2 ++
      (check_refresh env (execute_color env (execute_bleach env m).1).1).2) = true →
      env.stops
        (check_refresh env (execute_color env (execute_bleach env m).1).1).1.pollIdx =
        true := by
    intro hs
    rcases sawStop_append_cases _ _ hs with h1 | h1
    · exact (cS (hABs h1)).2.2
    · exact cB h1
  have hABC : noDriveAfterStop ((execute_bleach env m).2 ++
      (execute_color env (execute_bleach env m).1).2 ++
      (check_refresh env (execute_color env (execute_bleach env m).1).1).2) = true :=
    noDriveAfterStop_append _ _ hAB cA (fun hs => (cS (hABs hs)).1)
  have hABCD : noDriveAfterStop ((execute_bleach env m).2 ++
      (execute_color env (execute_bleach env m).1).2 ++
      (check_refresh env (execute_color env (execute_bleach env m).1).1).2 ++
      (execute_refresh env
        (check_refresh env (execute_color env (execute_bleach env m).1).1).1).2) = true :=
    noDriveAfterStop_append _ _ hABC dA (fun hs => (dS (hABCs hs)).1)
  have part1 : noDriveAfterStop (executeDisplay env m).2 = true := by
    rw [executeDisplay_trace]
    exact noDriveAfterStop_append _ _ hABCD rfl (fun hs => rfl)
  have hpres : ∀ i, (executeDisplay env m).1.ecd.currentState i =
      (execute_color env (execute_bleach env m).1).1.ecd.currentState i := by
    intro i
    rw [executeDisplay_mach]
    rw [(execute_refresh_frame env _).1, (check_refresh_cur env _).1]
  have part2 : ∀ i, (executeDisplay env m).2.all
      (fun ev => !segDrives (m.ecd.segmentPinsList i) ev) = true →
      (executeDisplay env m).1.ecd.currentState i = m.ecd.currentState i := by
    intro i h
    rw [executeDisplay_trace] at h
    simp only [List.all_append, Bool.and_eq_true] at h
    obtain ⟨⟨⟨⟨hA, hB⟩, -⟩, -⟩, -⟩ := h
    rw [hpres i]
    have hB2 : (execute_color env (execute_bleach env m).1).2.all
        (fun ev => !segDrives ((execute_bleach env m).1.ecd.segmentPinsList i) ev) =
        true := by
      rw [execute_bleach_pins]
      exact hB
    rw [execute_color_pin env _ i hB2]
    exact execute_bleach_pin env m i hA
  refine ⟨part1, part2, ?_, ?_, ?_⟩
  · intro i h
    exact part2 i (all_no_pin_drive _ _ part1 h)
  · intro i
    rw [hpres i]
    rcases execute_color_cur_mem env (execute_bleach env m).1 i with h | h
    · rw [h]
      exact execute_bleach_cur_mem env m i
    · rw [h, execute_bleach_next]
      exact Or.inr rfl
  · intro h
    obtain ⟨a_all, a_cur, a_stop⟩ := aS h
    obtain ⟨b_all, b_cur, b_stop⟩ := bS a_stop
    obtain ⟨c_all, c_cur, c_stop⟩ := cS b_stop
    obtain ⟨d_all, d_cur, d_stop⟩ := dS c_stop
    refine ⟨?_, ?_⟩
    · rw [executeDisplay_mach]
      exact d_cur.trans (c_cur.trans (b_cur.trans a_cur))
    · rw [executeDisplay_trace, List.all_append, List.all_append, List.all_append,
        List.all_append, a_all, b_all, c_all, d_all]
      rfl

/-- C3 witness: with the stop flag set from the very start on the
single-segment engine with work pending in every phase, `executeDisplay`
drives nothing, no segment is driven before (or after) the stop
observation, and the segment state is untouched. -/
theorem executeDisplay_cancellation_witness :
    (∀ j k, j ≤ k → envStopped.stops j = true → envStopped.stops k = true) ∧
    ((noDriveAfterStop (executeDisplay envStopped
        { ecd := engineBleachNeedy, readIdx := 0, pollIdx := 0 }).2 = true) ∧
     (∀ i, (executeDisplay envStopped
          { ecd := engineBleachNeedy, readIdx := 0, pollIdx := 0 }).2.all
            (fun ev => !segDrives (engineBleachNeedy.segmentPinsList i) ev) = true →
        (executeDisplay envStopped
          { ecd := engineBleachNeedy, readIdx := 0, pollIdx := 0 }).1.ecd.currentState i =
          engineBleachNeedy.currentState i) ∧
     (∀ i, drivenBeforeStop (engineBleachNeedy.segmentPinsList i)
          (executeDisplay envStopped
            { ecd := engineBleachNeedy, readIdx := 0, pollIdx := 0 }).2 = false →
        (executeDisplay envStopped
          { ecd := engineBleachNeedy, readIdx := 0, pollIdx := 0 }).1.ecd.currentState i =
          engineBleachNeedy.currentState i) ∧
     (∀ i, (executeDisplay envStopped
          { ecd := engineBleachNeedy, readIdx := 0, pollIdx := 0 }).1.ecd.currentState i =
            engineBleachNeedy.currentState i ∨
        (executeDisplay envStopped
          { ecd := engineBleachNeedy, readIdx := 0, pollIdx := 0 }).1.ecd.currentState i =
            engineBleachNeedy.nextState i) ∧
     (envStopped.stops 0 = true →
       (((executeDisplay envStopped
            { ecd := engineBleachNeedy, readIdx := 0, pollIdx := 0 }).1.ecd.currentState =
          engineBleachNeedy.currentState) ∧
        ((executeDisplay envStopped
            { ecd := engineBleachNeedy, readIdx := 0, pollIdx := 0 }).2.all
          (fun x => !isDrive x) = true)))) :=
  ⟨fun j k h1 h2 => rfl,
   executeDisplay_cancellation envStopped
     { ecd := engineBleachNeedy, readIdx := 0, pollIdx := 0 }
     (fun j k h1 h2 => rfl)⟩

end YnvEcd
